import Mathlib

/-!
# Structural invariants of the C2 IR graph

A shallow embedding of `src/hotspot/share/opto/graphInvariants.cpp` (debug build, the
`#ifndef PRODUCT` side) and of `graphInvariants.hpp`.

* A node pointer `const Node*` is the node's `_idx`, a natural number (distinct nodes of one
  compilation have distinct `_idx`); `nullptr` is `none`.
* The IR graph is the table of its nodes; `Node` carries what the checker reads of a node
  (`node.hpp` is not part of the sources, so the category predicates, `Name()`, `dump` and
  `required_outcnt()` are fields of the node).
* `Node_List`, `GrowableArray<int>` and `stringStream` passed by reference become values that
  are passed in and returned.
* An `assert` that fails stops the VM: the embedded function returns `none`.
-/

namespace GraphInvariants

/-! ## Nodes and graphs -/

/-- What the checker reads of a `Node`: its required inputs `in(0) .. in(req() - 1)` (a slot may be
`nullptr`), its raw outputs `_out[0 .. _outcnt - 1]`, the category predicates of `node.hpp`,
`Name()`, the text `dump` prints for it and, for a `MultiBranchNode`, `required_outcnt()`. -/
structure Node where
  Name : String := "Node"
  dump_text : String := ""
  ins : List (Option Nat) := []
  outs : List Nat := []
  required_outcnt : Int := 0
  is_Op_SafePoint : Bool := false
  is_CFG : Bool := false
  is_If : Bool := false
  is_IfTrue : Bool := false
  is_IfFalse : Bool := false
  is_Phi : Bool := false
  is_Region : Bool := false
  is_Start : Bool := false
  is_Root : Bool := false
  is_NeverBranch : Bool := false
  is_SafePoint : Bool := false
  is_Catch : Bool := false
  is_Jump : Bool := false
  is_MultiBranch : Bool := false
  is_CountedLoop : Bool := false
  is_LongCountedLoop : Bool := false
  is_BaseCountedLoopEnd : Bool := false
  is_CountedLoopEnd : Bool := false
  is_LongCountedLoopEnd : Bool := false
  is_OuterStripMinedLoop : Bool := false
  is_OuterStripMinedLoopEnd : Bool := false

/-- The value of `req()`: the number of required input slots. -/
def Node.req (n : Node) : Nat := n.ins.length

/-- The value of `in(i)` for a slot `i < req()`; `none` is `nullptr`. -/
def Node.in_ (n : Node) (i : Nat) : Option Nat := n.ins.getD i none

/-- The value of `outcnt()`: the number of raw outputs. -/
def Node.outcnt (n : Node) : Nat := n.outs.length

/-- The IR graph: the node with `_idx = i` is entry `i` of the table. -/
abbrev Graph := List Node

/-- Dereferencing a node pointer. Every pointer of a graph the compiler builds names a node of the
table; an index outside the table reads as a node without edges. -/
def Graph.node (g : Graph) (i : Nat) : Node := g.getD i {}

/-- The compilation unit, as far as `run` reads it: the graph and `C->root()`. -/
structure Compile where
  nodes : Graph
  root : Nat

/-! ## Text output -/

/-- The `int` that `static_cast<int>` gives for a `uint`, and that `%d` reads of a `uint`
argument. -/
def to_int (v : Nat) : Int :=
  if v % 2 ^ 32 < 2 ^ 31 then ((v % 2 ^ 32 : Nat) : Int) else ((v % 2 ^ 32 : Nat) : Int) - 2 ^ 32

/-- The text of `%d` for an `int`. -/
def fmt_d (v : Int) : String := toString v

/-- The text of `%d` for a `uint` argument. -/
def fmt_u (v : Nat) : String := fmt_d (to_int v)

/-- The call `n->dump(suffix, false, &ss)`: the node's text, then the suffix. -/
def Graph.dump (g : Graph) (n : Nat) (suffix : String) (ss : String) : String :=
  ss ++ (g.node n).dump_text ++ suffix

/-- The loop `for (i = 0; i < l.size(); ++i) l.at(i)->dump("\n", false, &ss)`. -/
def Graph.dump_all (g : Graph) (l : List Nat) (ss : String) : String :=
  l.foldl (fun s n => g.dump n "\n" s) ss

/-- The constant `OUTPUT_STEP`. -/
def OUTPUT_STEP : Int := -1

/-- The body of the loop of `print_path` for index `i`. -/
def print_path_step (g : Graph) (steps : List Nat) (path : List Int) (ss : String) (i : Nat) :
    String :=
  g.dump (steps.getD (i + 1) 0) "\n"
    (if path.getD i 0 ≥ 0 then ss ++ "      <-(" ++ fmt_d (path.getD i 0) ++ ")-"
     else ss ++ "         -->")

/-- The function `print_path`; `none` when one of its two assertions fails. -/
def print_path (g : Graph) (center : Nat) (steps : List Nat) (path : List Int) (ss : String) :
    Option String :=
  if steps.length ≠ path.length + 1 then none
  else if steps.getLast? ≠ some center then none
  else if path.isEmpty then some (g.dump center "\n" (ss ++ "At center node\n"))
  else
    some ((List.range path.length).foldl (print_path_step g steps path)
      (g.dump (steps.getD 0 0) "\n"
        (g.dump center "\n" (ss ++ "At node\n    ") ++ "  From path:\n" ++ "    [center]")))

/-! ## Patterns -/

/-- The capture slots a `Bind` may refer to: `PhiArity::region_node` and
`CountedLoopInvariants::counted_loop`. -/
inductive Slot where
  | region_node
  | counted_loop
  deriving DecidableEq, Repr

/-- The two capture slots; both start as `nullptr`. -/
structure Bindings where
  region_node : Option Nat := none
  counted_loop : Option Nat := none
  deriving DecidableEq, Repr

/-- The assignment `_binding = center` of `Bind::check`. -/
def Bindings.set (b : Bindings) (s : Slot) (center : Nat) : Bindings :=
  match s with
  | .region_node => { b with region_node := some center }
  | .counted_loop => { b with counted_loop := some center }

/-- What `Pattern::check` and `LocalGraphInvariant::check` read and write besides `center`:
`steps`, `path`, the stream `ss`, and the capture slots. -/
structure CheckState where
  steps : List Nat
  path : List Int
  ss : String
  binds : Bindings

/-- The subclasses of `Pattern`. A member-function pointer `bool (Node::*)() const` is a
function `Node → Bool`. -/
inductive Pattern where
  | True : Pattern
  | Bind (binding : Slot) : Pattern
  | And (checks : List Pattern) : Pattern
  | HasExactlyNInputs (expect_req : Nat) : Pattern
  | HasAtLeastNInputs (expect_req : Nat) : Pattern
  | AtInput (which_input : Nat) (pattern : Pattern) : Pattern
  | HasType (type_check : Node → Bool) : Pattern
  | HasNOutputs (expect_outcnt : Nat) : Pattern
  | AtSingleOutputOfType (type_check : Node → Bool) (pattern : Pattern) : Pattern

/-- The call `ss.print_cr(msg)`: the text, then a newline. -/
def CheckState.print_cr (st : CheckState) (msg : String) : CheckState :=
  { st with ss := st.ss ++ msg ++ "\n" }

/-- The loop `for (i = 0; i < l.size(); ++i) l.at(i)->dump("\n", false, &ss)` on the stream of
the state. -/
def CheckState.dump_all (st : CheckState) (g : Graph) (l : List Nat) : CheckState :=
  { st with ss := g.dump_all l st.ss }

/-- The statements `print_path(center, steps, path, ss); ss.print_cr(msg); return false;`
shared by the failing branches of the patterns. -/
def fail_at (g : Graph) (center : Nat) (st : CheckState) (msg : String) :
    Option (Bool × CheckState) :=
  match print_path g center st.steps st.path st.ss with
  | none => none
  | some ss => some (false, CheckState.print_cr { st with ss := ss } msg)

/-- The loop of `AtSingleOutputOfType::check` collecting `outputs_of_correct_type`. -/
def outputs_of_type (g : Graph) (type_check : Node → Bool) (center : Nat) : List Nat :=
  (g.node center).outs.filter (fun out => type_check (g.node out))

mutual
/-- The virtual function `Pattern::check`, by subclass. -/
def Pattern.check (g : Graph) : Pattern → Nat → CheckState → Option (Bool × CheckState)
  | .True, _, st => some (true, st)
  | .Bind binding, center, st => some (true, { st with binds := st.binds.set binding center })
  | .And checks, center, st => Pattern.check_list g checks center st
  | .HasExactlyNInputs expect_req, center, st =>
    if (g.node center).req ≠ expect_req then
      fail_at g center st ("Unexpected number of input. Expected: " ++ fmt_u expect_req
        ++ ". Found: " ++ fmt_u (g.node center).req)
    else some (true, st)
  | .HasAtLeastNInputs expect_req, center, st =>
    if (g.node center).req < expect_req then
      fail_at g center st ("Too small number of input. Expected: " ++ fmt_u expect_req
        ++ ". Found: " ++ fmt_u (g.node center).req)
    else some (true, st)
  | .AtInput which_input pattern, center, st =>
    if ¬ which_input < (g.node center).req then none
    else
      match (g.node center).in_ which_input with
      | none =>
        fail_at g center st ("Input at index " ++ fmt_u which_input ++ " is nullptr.")
      | some input =>
        match Pattern.check g pattern input
            { st with steps := st.steps ++ [input], path := st.path ++ [to_int which_input] } with
        | none => none
        | some (result, st1) =>
          some (result, { st1 with path := st1.path.dropLast, steps := st1.steps.dropLast })
  | .HasType type_check, center, st =>
    if ¬ type_check (g.node center) then
      fail_at g center st ("Unexpected type: " ++ (g.node center).Name ++ ".")
    else some (true, st)
  | .HasNOutputs expect_outcnt, center, st =>
    if (g.node center).outcnt ≠ expect_outcnt then
      fail_at g center st ("Unexpected number of outputs. Expected: " ++ fmt_u expect_outcnt
        ++ ". Found: " ++ fmt_u (g.node center).outcnt)
    else some (true, st)
  | .AtSingleOutputOfType type_check pattern, center, st =>
    match outputs_of_type g type_check center with
    | [out] =>
      match Pattern.check g pattern out
          { st with steps := st.steps ++ [out], path := st.path ++ [OUTPUT_STEP] } with
      | none => none
      | some (result, st1) =>
        some (result, { st1 with path := st1.path.dropLast, steps := st1.steps.dropLast })
    | outputs =>
      match fail_at g center st
          ("Non-unique output of expected type. Found: " ++ fmt_u outputs.length ++ ".") with
      | none => none
      | some (result, st1) => some (result, st1.dump_all g outputs)
/-- The loop of `And::check` over `_checks`, from the current position on. -/
def Pattern.check_list (g : Graph) : List Pattern → Nat → CheckState → Option (Bool × CheckState)
  | [], _, st => some (true, st)
  | p :: rest, center, st =>
    match Pattern.check g p center st with
    | none => none
    | some (false, st1) => some (false, st1)
    | some (true, st1) => Pattern.check_list g rest center st1
end

/-! ## The catalog -/

/-- The result type `LocalGraphInvariant::CheckResult`. -/
inductive CheckResult where
  | VALID
  | FAILED
  | NOT_APPLICABLE
  deriving DecidableEq, Repr

/-- The function `PatternBasedCheck::check`. -/
def PatternBasedCheck.check (g : Graph) (pattern : Pattern) (center : Nat) (st : CheckState) :
    Option (CheckResult × CheckState) :=
  match Pattern.check g pattern center st with
  | none => none
  | some (true, st1) => some (CheckResult.VALID, st1)
  | some (false, st1) => some (CheckResult.FAILED, st1)

/-- Modelled from the spec: the enumerator `LoopNode::Self` of `loopnode.hpp`, which is not part
of the sources; the spec calls input 0 the self slot. -/
def LoopNode.Self : Nat := 0

/-- Modelled from the spec: the enumerator `LoopNode::LoopBackControl` of `loopnode.hpp`, which is
not part of the sources; the counted-loop header has exactly three inputs and the loop-back input
is the last of them. -/
def LoopNode.LoopBackControl : Nat := 2

/-- The pattern built by the constructor of `IfProjections`. -/
def IfProjections.pattern : Pattern :=
  .And [.HasNOutputs 2,
    .AtSingleOutputOfType Node.is_IfTrue .True,
    .AtSingleOutputOfType Node.is_IfFalse .True]

/-- The function `IfProjections::check`. -/
def IfProjections.check (g : Graph) (center : Nat) (st : CheckState) :
    Option (CheckResult × CheckState) :=
  if ¬ (g.node center).is_If then some (CheckResult.NOT_APPLICABLE, st)
  else PatternBasedCheck.check g IfProjections.pattern center st

/-- The pattern built by the constructor of `PhiArity`. -/
def PhiArity.pattern : Pattern :=
  .And [.HasAtLeastNInputs 1,
    .AtInput 0 (.And [.HasType Node.is_Region, .Bind Slot.region_node])]

/-- The function `PhiArity::check`; `none` when `assert(region_node != nullptr)` fails. -/
def PhiArity.check (g : Graph) (center : Nat) (st : CheckState) :
    Option (CheckResult × CheckState) :=
  if ¬ (g.node center).is_Phi then some (CheckResult.NOT_APPLICABLE, st)
  else
    match PatternBasedCheck.check g PhiArity.pattern center st with
    | none => none
    | some (CheckResult.VALID, st1) =>
      match st1.binds.region_node with
      | none => none
      | some region_node =>
        if (g.node region_node).req ≠ (g.node center).req then
          match print_path g center st1.steps st1.path st1.ss with
          | none => none
          | some ss =>
            some (CheckResult.FAILED, CheckState.print_cr { st1 with ss := ss }
              ("Phi nodes must have the same arity as their Region node. Phi arity: "
                ++ fmt_u (g.node center).req ++ "; Region arity: "
                ++ fmt_u (g.node region_node).req ++ "."))
        else some (CheckResult.VALID, st1)
    | some (result, st1) => some (result, st1)

/-- The nodes collected in `ctrl_succ` by the loop of `ControlSuccessor::check`; `cfg_out` is
their number. -/
def ctrl_succ (g : Graph) (center : Nat) : List Nat :=
  (g.node center).outs.filter (fun out => (g.node out).is_CFG)

/-- The function `ControlSuccessor::check`. -/
def ControlSuccessor.check (g : Graph) (center : Nat) (st : CheckState) :
    Option (CheckResult × CheckState) :=
  let c := g.node center
  if ¬ c.is_CFG then some (CheckResult.NOT_APPLICABLE, st)
  else
    let succ := ctrl_succ g center
    let cfg_out := succ.length
    if c.is_If || c.is_Start || c.is_Root || c.is_Region || c.is_NeverBranch then
      if cfg_out ≠ 2 then
        some (CheckResult.FAILED, (st.print_cr (c.Name
          ++ " node must have exactly two control successors. Found " ++ fmt_u cfg_out
          ++ ".")).dump_all g succ)
      else some (CheckResult.VALID, st)
    else if c.is_Op_SafePoint then
      if cfg_out < 1 ∨ cfg_out > 2 then
        some (CheckResult.FAILED, (st.print_cr (c.Name
          ++ " node must have one or two control successors. Found " ++ fmt_u cfg_out
          ++ ".")).dump_all g succ)
      else if cfg_out = 2 then
        if ¬ (g.node (succ.getD 0 0)).is_Root ∧ ¬ (g.node (succ.getD 1 0)).is_Root then
          some (CheckResult.FAILED, (st.print_cr ("One of the two control outputs of a "
            ++ c.Name ++ " node must be Root.")).dump_all g succ)
        else some (CheckResult.VALID, st)
      else some (CheckResult.VALID, st)
    else if c.is_Catch || c.is_Jump then
      if cfg_out < 1 then
        some (CheckResult.FAILED, st.print_cr (c.Name
          ++ " node must have at least one control successors. Found " ++ fmt_u cfg_out
          ++ "."))
      else some (CheckResult.VALID, st)
    else
      if cfg_out ≠ 1 then
        some (CheckResult.FAILED, (st.print_cr
          ("Ordinary CFG nodes must have exactly one successor. Found " ++ fmt_u cfg_out
            ++ ".")).dump_all g succ)
      else some (CheckResult.VALID, st)

/-- The nodes collected in `non_null_inputs` by the loop of `RegionSelfLoop::check`. -/
def non_null_inputs (g : Graph) (center : Nat) : List Nat :=
  (List.range (g.node center).req).filterMap (fun i => (g.node center).in_ i)

/-- The function `RegionSelfLoop::check`. -/
def RegionSelfLoop.check (g : Graph) (center : Nat) (st : CheckState) :
    Option (CheckResult × CheckState) :=
  let c := g.node center
  if ¬ c.is_Region ∧ ¬ c.is_Start ∧ ¬ c.is_Root then some (CheckResult.NOT_APPLICABLE, st)
  else if c.req = 0 then
    some (CheckResult.FAILED, st.print_cr (c.Name
      ++ " nodes must have at least one input."))
  else
    let self := c.in_ LoopNode.Self
    if some center ≠ self ∨ (c.is_Region ∧ self = none) then
      some (CheckResult.FAILED, st.print_cr (c.Name
        ++ " nodes' 0-th input must be itself or nullptr (for a copy Region)."))
    else if self = none then
      let non_null := non_null_inputs g center
      if non_null.length ≠ 1 then
        some (CheckResult.VALID, (st.print_cr (c.Name
          ++ " copy nodes must have exactly one non-null input. Found: " ++ fmt_u non_null.length
          ++ ".")).dump_all g non_null)
      else some (CheckResult.VALID, st)
    else some (CheckResult.VALID, st)

/-- The pattern built by the constructor of `CountedLoopInvariants`. -/
def CountedLoopInvariants.pattern : Pattern :=
  .And [.HasExactlyNInputs 3,
    .AtInput LoopNode.LoopBackControl
      (.And [.HasType Node.is_IfTrue, .HasAtLeastNInputs 1,
        .AtInput 0 (.And [.HasType Node.is_BaseCountedLoopEnd, .Bind Slot.counted_loop])])]

/-- The function `CountedLoopInvariants::check`; `none` when `assert(counted_loop != nullptr)`
fails. -/
def CountedLoopInvariants.check (g : Graph) (center : Nat) (st : CheckState) :
    Option (CheckResult × CheckState) :=
  if ¬ (g.node center).is_CountedLoop ∧ ¬ (g.node center).is_LongCountedLoop then
    some (CheckResult.NOT_APPLICABLE, st)
  else
    let is_long := (g.node center).is_LongCountedLoop
    match PatternBasedCheck.check g CountedLoopInvariants.pattern center st with
    | none => none
    | some (CheckResult.VALID, st1) =>
      match st1.binds.counted_loop with
      | none => none
      | some counted_loop =>
        if is_long then
          if (g.node counted_loop).is_CountedLoopEnd then
            some (CheckResult.FAILED,
              st1.print_cr "A CountedLoopEnd is the backedge of a LongCountedLoop.")
          else some (CheckResult.VALID, st1)
        else
          if (g.node counted_loop).is_LongCountedLoopEnd then
            some (CheckResult.FAILED,
              st1.print_cr "A LongCountedLoopEnd is the backedge of a CountedLoop.")
          else some (CheckResult.VALID, st1)
    | some (result, st1) => some (result, st1)

/-- The pattern built by the constructor of `OuterStripMinedLoopInvariants`. -/
def OuterStripMinedLoopInvariants.pattern : Pattern :=
  .And [.HasExactlyNInputs 2,
    .AtInput 0
      (.And [.HasType Node.is_SafePoint, .HasAtLeastNInputs 1,
        .AtInput 0
          (.And [.HasType Node.is_IfFalse, .HasAtLeastNInputs 1,
            .AtInput 0 (.HasType Node.is_CountedLoopEnd)])]),
    .AtSingleOutputOfType Node.is_IfTrue
      (.AtSingleOutputOfType Node.is_OuterStripMinedLoop
        (.AtSingleOutputOfType Node.is_CountedLoop .True))]

/-- The function `OuterStripMinedLoopInvariants::check`. -/
def OuterStripMinedLoopInvariants.check (g : Graph) (center : Nat) (st : CheckState) :
    Option (CheckResult × CheckState) :=
  if ¬ (g.node center).is_OuterStripMinedLoopEnd then some (CheckResult.NOT_APPLICABLE, st)
  else PatternBasedCheck.check g OuterStripMinedLoopInvariants.pattern center st

/-- The function `MultiBranchNodeOut::check`; `as_MultiBranch()` is reached only behind the
`is_MultiBranch()` test that it asserts. -/
def MultiBranchNodeOut.check (g : Graph) (center : Nat) (st : CheckState) :
    Option (CheckResult × CheckState) :=
  if ¬ (g.node center).is_MultiBranch then some (CheckResult.NOT_APPLICABLE, st)
  else
    let mb := g.node center
    if mb.required_outcnt < to_int mb.outcnt then
      some (CheckResult.FAILED, st.print_cr
        ("The required_outcnt of a MultiBranch node must be smaller than or equal to its outcnt. But required_outcnt="
          ++ fmt_d mb.required_outcnt ++ " vs. outcnt=" ++ fmt_u mb.outcnt))
    else some (CheckResult.VALID, st)

/-- The subclasses of `LocalGraphInvariant` that `make_default` instantiates. -/
inductive LocalGraphInvariant where
  | IfProjections
  | PhiArity
  | ControlSuccessor
  | RegionSelfLoop
  | CountedLoopInvariants
  | OuterStripMinedLoopInvariants
  | MultiBranchNodeOut
  deriving DecidableEq, Repr

/-- The virtual function `LocalGraphInvariant::name`. -/
def LocalGraphInvariant.name : LocalGraphInvariant → String
  | .IfProjections => "IfProjections"
  | .PhiArity => "PhiArity"
  | .ControlSuccessor => "ControlSuccessor"
  | .RegionSelfLoop => "RegionSelfLoop"
  | .CountedLoopInvariants => "CountedLoopInvariants"
  | .OuterStripMinedLoopInvariants => "OuterStripMinedLoopInvariants"
  | .MultiBranchNodeOut => "MultiBranchNodeOut"

/-- The virtual function `LocalGraphInvariant::check`. -/
def LocalGraphInvariant.check (g : Graph) :
    LocalGraphInvariant → Nat → CheckState → Option (CheckResult × CheckState)
  | .IfProjections => IfProjections.check g
  | .PhiArity => PhiArity.check g
  | .ControlSuccessor => ControlSuccessor.check g
  | .RegionSelfLoop => RegionSelfLoop.check g
  | .CountedLoopInvariants => CountedLoopInvariants.check g
  | .OuterStripMinedLoopInvariants => OuterStripMinedLoopInvariants.check g
  | .MultiBranchNodeOut => MultiBranchNodeOut.check g

/-- The list `_checks` that `GraphInvariantChecker::make_default` fills. -/
def GraphInvariantChecker.make_default : List LocalGraphInvariant :=
  [.IfProjections, .PhiArity, .ControlSuccessor, .RegionSelfLoop, .CountedLoopInvariants,
    .OuterStripMinedLoopInvariants, .MultiBranchNodeOut]

/-! ## The traversal driver -/

/-- The local variables of `GraphInvariantChecker::run` that live across the iterations of its
`while` loop, the capture slots of the catalog entries, and the text written to `tty`.
`visited` lists the `_idx` values set in the `VectorSet`, in the order they were set; `worklist`
has the top of the stack first; `checked` records, in order, the nodes on which the loop over
`_checks` was run (it is not a variable of the source). -/
structure RunState where
  visited : List Nat
  worklist : List Nat
  steps : List Nat
  path : List Int
  binds : Bindings
  success : Bool
  tty : String
  checked : List Nat

/-- The loop of `run` that pushes the non-null inputs of `center` on the worklist, slot 0 first. -/
def push_inputs : List (Option Nat) → List Nat → List Nat
  | [], worklist => worklist
  | none :: rest, worklist => push_inputs rest worklist
  | some input :: rest, worklist => push_inputs rest (input :: worklist)

/-- The loop of `run` over `_checks` for one node, from the current position on, with the
counter `failures` and the stream `ss` of the node. -/
def GraphInvariantChecker.run_checks (g : Graph) (center : Nat) :
    List LocalGraphInvariant → RunState → Nat → String → Option (RunState × Nat × String)
  | [], st, failures, ss => some (st, failures, ss)
  | chk :: rest, st, failures, ss =>
    match chk.check g center { steps := [center], path := [], ss := "", binds := st.binds } with
    | none => none
    | some (result, st1) =>
      match result with
      | CheckResult.FAILED =>
        GraphInvariantChecker.run_checks g center rest
          { st with steps := st1.steps, path := st1.path, binds := st1.binds } (failures + 1)
          (ss ++ "# " ++ chk.name ++ ":" ++ "\n" ++ st1.ss ++ "\n")
      | _ =>
        GraphInvariantChecker.run_checks g center rest
          { st with steps := st1.steps, path := st1.path, binds := st1.binds } failures ss

/-- The text `run` writes to `tty` for a node with `failures > 0`. -/
def GraphInvariantChecker.report (g : Graph) (center : Nat) (failures : Nat) (ss : String) :
    String :=
  g.dump center "\n" (fmt_u failures ++ " failure" ++ (if failures = 1 then "" else "s")
    ++ " for node\n") ++ ss ++ "\n"

/-- One iteration of the `while` loop of `run`, entered with a non-empty worklist. -/
def GraphInvariantChecker.run_body (checks : List LocalGraphInvariant) (g : Graph)
    (st : RunState) : Option RunState :=
  match st.worklist with
  | [] => some st
  | center :: rest =>
    if center ∈ st.visited then some { st with worklist := rest }
    else
      match GraphInvariantChecker.run_checks g center checks
          { st with
            worklist := push_inputs (g.node center).ins rest
            visited := st.visited ++ [center]
            checked := st.checked ++ [center] } 0 "" with
      | none => none
      | some (st1, failures, ss) =>
        if failures > 0 then
          some { st1 with
            success := false
            tty := st1.tty ++ GraphInvariantChecker.report g center failures ss }
        else some st1

/-- The `while (worklist.size() > 0)` loop of `run`, for at most `fuel` iterations: `none` when an
assertion fails, and a state that still has a worklist when the iterations are used up. -/
def GraphInvariantChecker.run_loop (checks : List LocalGraphInvariant) (g : Graph) :
    Nat → RunState → Option RunState
  | 0, st => some st
  | fuel + 1, st =>
    if st.worklist.length > 0 then
      match GraphInvariantChecker.run_body checks g st with
      | none => none
      | some st1 => GraphInvariantChecker.run_loop checks g fuel st1
    else some st

/-- The state in which `run` enters its loop. -/
def GraphInvariantChecker.run_init (C : Compile) : RunState :=
  { visited := [], worklist := [C.root], steps := [], path := [], binds := {}, success := true,
    tty := "", checked := [] }

/-- A number of iterations that the loop of `run` cannot exceed on `C`: every iteration pops
one worklist entry, and the entries pushed are the root and, once per node, its inputs. -/
def GraphInvariantChecker.max_iterations (C : Compile) : Nat :=
  1 + (C.nodes.map Node.req).sum

/-- The state in which the loop of `run` ends; `none` when an assertion fails or the loop has
not emptied the worklist within `max_iterations`. -/
def GraphInvariantChecker.run_final (checks : List LocalGraphInvariant) (C : Compile) :
    Option RunState :=
  match GraphInvariantChecker.run_loop checks C.nodes
      (GraphInvariantChecker.max_iterations C) (GraphInvariantChecker.run_init C) with
  | none => none
  | some st => if st.worklist.length > 0 then none else some st

/-- The function `GraphInvariantChecker::run`, with `_checks = checks`. -/
def GraphInvariantChecker.run (checks : List LocalGraphInvariant) (C : Compile) : Option Bool :=
  if checks.isEmpty then some true
  else
    match GraphInvariantChecker.run_final checks C with
    | none => none
    | some st => some st.success

/-! ## Definitions for the statements and the proofs -/

/-- The text `print_path` appends when its assertions hold. -/
def path_text (g : Graph) (center : Nat) (steps : List Nat) (path : List Int) : String :=
  (print_path g center steps path "").getD ""

/-- The behaviour of pattern `p` at `center` when it is entered with a trace that ends at
`center`: it returns `b` and leaves `steps` and `path` as it found them; when `b` is `true` it
writes no text and changes the capture slots by `f`; when `b` is `false` it appends text. -/
def PatternSpec (g : Graph) (p : Pattern) (center : Nat) (b : Bool) (f : Bindings → Bindings) :
    Prop :=
  ∀ st : CheckState, st.steps.length = st.path.length + 1 → st.steps.getLast? = some center →
    ∃ st1, Pattern.check g p center st = some (b, st1) ∧ st1.steps = st.steps ∧
      st1.path = st.path ∧ (b = true → st1.ss = st.ss ∧ st1.binds = f st.binds) ∧
      (b = false → ∃ t, 0 < t.length ∧ st1.ss = st.ss ++ t)

/-- The behaviour of the loop of `And::check` over `ps`, as `PatternSpec`. -/
def PatternListSpec (g : Graph) (ps : List Pattern) (center : Nat) (b : Bool)
    (f : Bindings → Bindings) : Prop :=
  ∀ st : CheckState, st.steps.length = st.path.length + 1 → st.steps.getLast? = some center →
    ∃ st1, Pattern.check_list g ps center st = some (b, st1) ∧ st1.steps = st.steps ∧
      st1.path = st.path ∧ (b = true → st1.ss = st.ss ∧ st1.binds = f st.binds) ∧
      (b = false → ∃ t, 0 < t.length ∧ st1.ss = st.ss ++ t)

/-- Pattern `p` at `center` returns `true` exactly when `φ` holds, and then changes the capture
slots by `f` (see `PatternSpec`). -/
def PatternHolds (g : Graph) (p : Pattern) (center : Nat) (φ : Prop) (f : Bindings → Bindings) :
    Prop :=
  ∃ b, PatternSpec g p center b f ∧ (b = true ↔ φ)

/-- The loop of `And::check` over `ps` returns `true` exactly when `φ` holds. -/
def PatternListHolds (g : Graph) (ps : List Pattern) (center : Nat) (φ : Prop)
    (f : Bindings → Bindings) : Prop :=
  ∃ b, PatternListSpec g ps center b f ∧ (b = true ↔ φ)

/-- The change of the capture slots by a `Bind` that is reached at `bound`. -/
def bind_at (s : Slot) (bound : Option Nat) (x : Bindings) : Bindings :=
  match bound with
  | some n => x.set s n
  | none => x

/-- The node that the `Bind` of the pattern of `CountedLoopInvariants` captures for `center`:
input 0 of the loop-back input. -/
def CountedLoopInvariants.bound (g : Graph) (center : Nat) : Option Nat :=
  ((g.node center).in_ LoopNode.LoopBackControl).bind (fun proj => (g.node proj).in_ 0)

/-- The behaviour of a catalog entry at `center` when it is entered with a trace that ends at
`center`: it returns `r` and leaves `steps` and `path` as it found them; it appends text when
`r` is `FAILED` and writes nothing otherwise. -/
def CheckSpec (check : Nat → CheckState → Option (CheckResult × CheckState)) (center : Nat)
    (r : CheckResult) : Prop :=
  ∀ st : CheckState, st.steps.length = st.path.length + 1 → st.steps.getLast? = some center →
    ∃ st1, check center st = some (r, st1) ∧ st1.steps = st.steps ∧ st1.path = st.path ∧
      (r ≠ CheckResult.FAILED → st1.ss = st.ss) ∧
      (r = CheckResult.FAILED → ∃ t, 0 < t.length ∧ st1.ss = st.ss ++ t)

/-- The behaviour of a catalog entry that does not read the trace, at `center` and on every
state: as `CheckSpec`, without a condition on the trace. -/
def CheckSpecAll (check : Nat → CheckState → Option (CheckResult × CheckState)) (center : Nat)
    (r : CheckResult) : Prop :=
  ∀ st : CheckState,
    ∃ st1, check center st = some (r, st1) ∧ st1.steps = st.steps ∧ st1.path = st.path ∧
      (r ≠ CheckResult.FAILED → st1.ss = st.ss) ∧
      (r = CheckResult.FAILED → ∃ t, 0 < t.length ∧ st1.ss = st.ss ++ t)

/-- The result a catalog entry gives for `center` when `run` invokes it, on fresh capture
slots. -/
def LocalGraphInvariant.result (g : Graph) (chk : LocalGraphInvariant) (center : Nat) :
    Option CheckResult :=
  (chk.check g center { steps := [center], path := [], ss := "", binds := {} }).map Prod.fst

/-- The number of entries of `checks` that return `FAILED` for `center`. -/
def failed_checks (g : Graph) (checks : List LocalGraphInvariant) (center : Nat) : Nat :=
  checks.countP (fun chk => decide (chk.result g center = some CheckResult.FAILED))

/-- Node `n` is reachable from the root of `C` along non-null input edges. -/
inductive Reachable (C : Compile) : Nat → Prop where
  | root : Reachable C C.root
  | input (n m : Nat) : Reachable C n → some m ∈ (C.nodes.node n).ins → Reachable C m

/-- The number of input slots of the nodes of the table that are not in `visited`. -/
def unvisited_inputs (g : Graph) (visited : List Nat) : Nat :=
  (((List.range g.length).filter (fun i => decide (i ∉ visited))).map
    (fun i => (g.node i).req)).sum

/-- The measure that every iteration of the loop of `run` decreases: the length of the worklist
plus the number of input slots of the nodes not yet visited. -/
def potential (g : Graph) (st : RunState) : Nat :=
  st.worklist.length + unvisited_inputs g st.visited

/-- The invariant of the loop of `run`: the visited nodes are distinct and reachable, the
worklist holds reachable nodes, the root and the inputs of every visited node are visited or on
the worklist, the catalog was run on the visited nodes in the order of their visit, and
`success` tells whether no visited node had a failing entry. -/
def TraversalInv (checks : List LocalGraphInvariant) (C : Compile) (st : RunState) : Prop :=
  st.visited.Nodup ∧ (∀ v ∈ st.visited, Reachable C v) ∧ (∀ v ∈ st.worklist, Reachable C v) ∧
    (C.root ∈ st.visited ∨ C.root ∈ st.worklist) ∧
    (∀ u ∈ st.visited, ∀ v, some v ∈ (C.nodes.node u).ins →
      v ∈ st.visited ∨ v ∈ st.worklist) ∧
    st.checked = st.visited ∧
    (st.success = true ↔ ∀ v ∈ st.visited, failed_checks C.nodes checks v = 0)

/-! ## Graphs for the scenarios of the specification -/

/-- A Jump with `required_outcnt() = 3` and two outputs (scenario D of the specification). -/
def multibranch_3_2 : Graph :=
  [{ Name := "Jump", dump_text := "0 Jump", ins := [some 3, some 4], outs := [1, 2],
     required_outcnt := 3, is_CFG := true, is_MultiBranch := true, is_Jump := true },
   { Name := "JumpProj", dump_text := "1 JumpProj", ins := [some 0], is_CFG := true },
   { Name := "JumpProj", dump_text := "2 JumpProj", ins := [some 0], is_CFG := true },
   { Name := "Region", dump_text := "3 Region", ins := [some 3], outs := [3, 0],
     is_CFG := true, is_Region := true },
   { Name := "Parm", dump_text := "4 Parm", outs := [0] }]

/-- A copy Region: input 0 is unset and input 1 is its only predecessor. -/
def copy_region : Graph :=
  [{ Name := "Region", dump_text := "0 Region", ins := [none, some 1],
     is_CFG := true, is_Region := true },
   { Name := "IfTrue", dump_text := "1 IfTrue", outs := [0], is_CFG := true, is_IfTrue := true }]

/-- A Region whose input 0 is unset and whose two other inputs are set (scenario E of the
specification, after the mutation). -/
def region_two_inputs : Graph :=
  [{ Name := "Region", dump_text := "0 Region", ins := [none, some 1, some 2],
     is_CFG := true, is_Region := true },
   { Name := "IfTrue", dump_text := "1 IfTrue", outs := [0], is_CFG := true, is_IfTrue := true },
   { Name := "IfFalse", dump_text := "2 IfFalse", outs := [0], is_CFG := true,
     is_IfFalse := true }]

/-- A well-formed If: its two outputs are an IfTrue and an IfFalse. -/
def if_two_projections : Graph :=
  [{ Name := "If", dump_text := "0 If", ins := [some 3, some 4], outs := [1, 2],
     required_outcnt := 2, is_CFG := true, is_If := true, is_MultiBranch := true },
   { Name := "IfTrue", dump_text := "1 IfTrue", ins := [some 0], is_CFG := true,
     is_IfTrue := true },
   { Name := "IfFalse", dump_text := "2 IfFalse", ins := [some 0], is_CFG := true,
     is_IfFalse := true },
   { Name := "Region", dump_text := "3 Region", ins := [some 3], outs := [3, 0],
     is_CFG := true, is_Region := true },
   { Name := "Bool", dump_text := "4 Bool", outs := [0] }]

/-- An If whose only output is an IfTrue (scenario A of the specification). -/
def if_one_projection : Graph :=
  [{ Name := "If", dump_text := "0 If", ins := [some 2, some 3], outs := [1],
     required_outcnt := 2, is_CFG := true, is_If := true, is_MultiBranch := true },
   { Name := "IfTrue", dump_text := "1 IfTrue", ins := [some 0], is_CFG := true,
     is_IfTrue := true },
   { Name := "Region", dump_text := "2 Region", ins := [some 2], outs := [2, 0],
     is_CFG := true, is_Region := true },
   { Name := "Bool", dump_text := "3 Bool", outs := [0] }]

/-- An If with two outputs, an IfTrue and a node that is no projection. -/
def if_true_and_other : Graph :=
  [{ Name := "If", dump_text := "0 If", ins := [some 3, some 4], outs := [1, 2],
     required_outcnt := 2, is_CFG := true, is_If := true, is_MultiBranch := true },
   { Name := "IfTrue", dump_text := "1 IfTrue", ins := [some 0], is_CFG := true,
     is_IfTrue := true },
   { Name := "Phi", dump_text := "2 Phi", ins := [some 0], is_Phi := true },
   { Name := "Region", dump_text := "3 Region", ins := [some 3], outs := [3, 0],
     is_CFG := true, is_Region := true },
   { Name := "Bool", dump_text := "4 Bool", outs := [0] }]

/-- A Phi with three input slots at a Region with four (scenario B of the specification). -/
def phi_3_region_4 : Graph :=
  [{ Name := "Phi", dump_text := "0 Phi", ins := [some 1, some 2, some 2], is_Phi := true },
   { Name := "Region", dump_text := "1 Region", ins := [some 1, some 3, some 3, some 3],
     outs := [1, 0], is_CFG := true, is_Region := true },
   { Name := "Parm", dump_text := "2 Parm", outs := [0, 0] },
   { Name := "IfTrue", dump_text := "3 IfTrue", outs := [1, 1, 1], is_CFG := true,
     is_IfTrue := true }]

/-- A control node of no special category with one control successor (scenario C of the
specification). -/
def plain_control : Graph :=
  [{ Name := "IfTrue", dump_text := "0 IfTrue", outs := [1, 2], is_CFG := true,
     is_IfTrue := true },
   { Name := "Region", dump_text := "1 Region", ins := [some 1, some 0], is_CFG := true,
     is_Region := true },
   { Name := "Phi", dump_text := "2 Phi", ins := [some 1, some 0], is_Phi := true }]

/-- The text `text` contains `msg`. -/
def contains_text (text msg : String) : Prop := msg.data <:+: text.data

/-- Containment of a text in another is decidable. -/
instance contains_text.decidable (text msg : String) : Decidable (contains_text text msg) := by
  unfold contains_text; infer_instance

/-- What an evaluation does that its result does not show: a call of `print_path` with its
arguments `center`, `steps` and `path`, and an `AtInput::check` that is entered with index
`which_input` at the node `center`. -/
inductive Event where
  | print_path (center : Nat) (steps : List Nat) (path : List Int)
  | at_input (which_input : Nat) (center : Nat)
  deriving DecidableEq, Repr

/-- The function `fail_at`, with the call of `print_path` it makes. -/
def fail_at_traced (g : Graph) (center : Nat) (st : CheckState) (msg : String) :
    Option (Bool × CheckState × List Event) :=
  match fail_at g center st msg with
  | none => none
  | some (result, st1) => some (result, st1, [Event.print_path center st.steps st.path])

mutual
/-- The function `Pattern::check` as in `Pattern.check`, returning also the events of the
evaluation in the order they occur. -/
def Pattern.check_traced (g : Graph) :
    Pattern → Nat → CheckState → Option (Bool × CheckState × List Event)
  | .True, _, st => some (true, st, [])
  | .Bind binding, center, st =>
    some (true, { st with binds := st.binds.set binding center }, [])
  | .And checks, center, st => Pattern.check_list_traced g checks center st
  | .HasExactlyNInputs expect_req, center, st =>
    if (g.node center).req ≠ expect_req then
      fail_at_traced g center st ("Unexpected number of input. Expected: " ++ fmt_u expect_req
        ++ ". Found: " ++ fmt_u (g.node center).req)
    else some (true, st, [])
  | .HasAtLeastNInputs expect_req, center, st =>
    if (g.node center).req < expect_req then
      fail_at_traced g center st ("Too small number of input. Expected: " ++ fmt_u expect_req
        ++ ". Found: " ++ fmt_u (g.node center).req)
    else some (true, st, [])
  | .AtInput which_input pattern, center, st =>
    if ¬ which_input < (g.node center).req then none
    else
      match (g.node center).in_ which_input with
      | none =>
        match fail_at_traced g center st
            ("Input at index " ++ fmt_u which_input ++ " is nullptr.") with
        | none => none
        | some (result, st1, events) =>
          some (result, st1, Event.at_input which_input center :: events)
      | some input =>
        match Pattern.check_traced g pattern input
            { st with steps := st.steps ++ [input], path := st.path ++ [to_int which_input] } with
        | none => none
        | some (result, st1, events) =>
          some (result, { st1 with path := st1.path.dropLast, steps := st1.steps.dropLast },
            Event.at_input which_input center :: events)
  | .HasType type_check, center, st =>
    if ¬ type_check (g.node center) then
      fail_at_traced g center st ("Unexpected type: " ++ (g.node center).Name ++ ".")
    else some (true, st, [])
  | .HasNOutputs expect_outcnt, center, st =>
    if (g.node center).outcnt ≠ expect_outcnt then
      fail_at_traced g center st ("Unexpected number of outputs. Expected: "
        ++ fmt_u expect_outcnt ++ ". Found: " ++ fmt_u (g.node center).outcnt)
    else some (true, st, [])
  | .AtSingleOutputOfType type_check pattern, center, st =>
    match outputs_of_type g type_check center with
    | [out] =>
      match Pattern.check_traced g pattern out
          { st with steps := st.steps ++ [out], path := st.path ++ [OUTPUT_STEP] } with
      | none => none
      | some (result, st1, events) =>
        some (result, { st1 with path := st1.path.dropLast, steps := st1.steps.dropLast },
          events)
    | outputs =>
      match fail_at_traced g center st
          ("Non-unique output of expected type. Found: " ++ fmt_u outputs.length ++ ".") with
      | none => none
      | some (result, st1, events) => some (result, st1.dump_all g outputs, events)
/-- The loop of `And::check` as in `Pattern.check_list`, with the events. -/
def Pattern.check_list_traced (g : Graph) :
    List Pattern → Nat → CheckState → Option (Bool × CheckState × List Event)
  | [], _, st => some (true, st, [])
  | p :: rest, center, st =>
    match Pattern.check_traced g p center st with
    | none => none
    | some (false, st1, events) => some (false, st1, events)
    | some (true, st1, events) =>
      match Pattern.check_list_traced g rest center st1 with
      | none => none
      | some (result, st2, events2) => some (result, st2, events ++ events2)
end

/-- The function `PatternBasedCheck::check`, with the events. -/
def PatternBasedCheck.check_traced (g : Graph) (pattern : Pattern) (center : Nat)
    (st : CheckState) : Option (CheckResult × CheckState × List Event) :=
  match Pattern.check_traced g pattern center st with
  | none => none
  | some (true, st1, events) => some (CheckResult.VALID, st1, events)
  | some (false, st1, events) => some (CheckResult.FAILED, st1, events)

/-- The function `PhiArity::check`, with the events. -/
def PhiArity.check_traced (g : Graph) (center : Nat) (st : CheckState) :
    Option (CheckResult × CheckState × List Event) :=
  if ¬ (g.node center).is_Phi then some (CheckResult.NOT_APPLICABLE, st, [])
  else
    match PatternBasedCheck.check_traced g PhiArity.pattern center st with
    | none => none
    | some (CheckResult.VALID, st1, events) =>
      match st1.binds.region_node with
      | none => none
      | some region_node =>
        if (g.node region_node).req ≠ (g.node center).req then
          match print_path g center st1.steps st1.path st1.ss with
          | none => none
          | some ss =>
            some (CheckResult.FAILED, CheckState.print_cr { st1 with ss := ss }
              ("Phi nodes must have the same arity as their Region node. Phi arity: "
                ++ fmt_u (g.node center).req ++ "; Region arity: "
                ++ fmt_u (g.node region_node).req ++ "."),
              events ++ [Event.print_path center st1.steps st1.path])
        else some (CheckResult.VALID, st1, events)
    | some (result, st1, events) => some (result, st1, events)

/-- The function `CountedLoopInvariants::check`, with the events. -/
def CountedLoopInvariants.check_traced (g : Graph) (center : Nat) (st : CheckState) :
    Option (CheckResult × CheckState × List Event) :=
  if ¬ (g.node center).is_CountedLoop ∧ ¬ (g.node center).is_LongCountedLoop then
    some (CheckResult.NOT_APPLICABLE, st, [])
  else
    let is_long := (g.node center).is_LongCountedLoop
    match PatternBasedCheck.check_traced g CountedLoopInvariants.pattern center st with
    | none => none
    | some (CheckResult.VALID, st1, events) =>
      match st1.binds.counted_loop with
      | none => none
      | some counted_loop =>
        if is_long then
          if (g.node counted_loop).is_CountedLoopEnd then
            some (CheckResult.FAILED,
              st1.print_cr "A CountedLoopEnd is the backedge of a LongCountedLoop.", events)
          else some (CheckResult.VALID, st1, events)
        else
          if (g.node counted_loop).is_LongCountedLoopEnd then
            some (CheckResult.FAILED,
              st1.print_cr "A LongCountedLoopEnd is the backedge of a CountedLoop.", events)
          else some (CheckResult.VALID, st1, events)
    | some (result, st1, events) => some (result, st1, events)

/-- The catalog entries that evaluate no pattern and do not call `print_path` have no events. -/
def no_events (r : Option (CheckResult × CheckState)) :
    Option (CheckResult × CheckState × List Event) :=
  r.map (fun x => (x.1, x.2, []))

/-- The virtual function `LocalGraphInvariant::check`, with the events. -/
def LocalGraphInvariant.check_traced (g : Graph) :
    LocalGraphInvariant → Nat → CheckState → Option (CheckResult × CheckState × List Event)
  | .IfProjections, center, st =>
    if ¬ (g.node center).is_If then some (CheckResult.NOT_APPLICABLE, st, [])
    else PatternBasedCheck.check_traced g IfProjections.pattern center st
  | .PhiArity, center, st => PhiArity.check_traced g center st
  | .ControlSuccessor, center, st => no_events (ControlSuccessor.check g center st)
  | .RegionSelfLoop, center, st => no_events (RegionSelfLoop.check g center st)
  | .CountedLoopInvariants, center, st => CountedLoopInvariants.check_traced g center st
  | .OuterStripMinedLoopInvariants, center, st =>
    if ¬ (g.node center).is_OuterStripMinedLoopEnd then
      some (CheckResult.NOT_APPLICABLE, st, [])
    else PatternBasedCheck.check_traced g OuterStripMinedLoopInvariants.pattern center st
  | .MultiBranchNodeOut, center, st => no_events (MultiBranchNodeOut.check g center st)

/-- The result and the state of a traced evaluation, without the events. -/
def drop_events {α : Type} (r : Option (α × CheckState × List Event)) :
    Option (α × CheckState) :=
  r.map (fun x => (x.1, x.2.1))

/-- The condition an event of an evaluation has to meet when the trace of the evaluation starts
at the node `first`: a call of `print_path` passes its two assertions and has `first` as the
first recorded node, and an `AtInput` is entered with an index below `req()` of its node. -/
def Event.ok (g : Graph) (first : Option Nat) : Event → Prop
  | .print_path center steps path =>
    steps.length = path.length + 1 ∧ steps.head? = first ∧ steps.getLast? = some center
  | .at_input which_input center => which_input < (g.node center).req

/-- What an evaluation of a pattern shows apart from the capture slots: the value returned, the
trace and the text. -/
def observe {α : Type} (x : α × CheckState) : α × List Nat × List Int × String :=
  (x.1, x.2.steps, x.2.path, x.2.ss)

/-- Two states of `run` agree on what `run` shows: the visited set, the worklist, `success`,
the text written to `tty` and the nodes checked; they may differ in the capture slots and in
the trace. -/
def RunState.same_output (st st1 : RunState) : Prop :=
  st.visited = st1.visited ∧ st.worklist = st1.worklist ∧ st.success = st1.success ∧
    st.tty = st1.tty ∧ st.checked = st1.checked

/-- A well-formed counted loop: the CountedLoop header 0 has the IfTrue 1 of the CountedLoopEnd 2
as its loop-back input. -/
def counted_loop_graph : Graph :=
  [{ Name := "CountedLoop", dump_text := "0 CountedLoop", ins := [some 0, some 3, some 1],
     outs := [0, 2], is_CFG := true, is_Region := true, is_CountedLoop := true },
   { Name := "IfTrue", dump_text := "1 IfTrue", ins := [some 2], outs := [0], is_CFG := true,
     is_IfTrue := true },
   { Name := "CountedLoopEnd", dump_text := "2 CountedLoopEnd", ins := [some 0, some 4],
     outs := [1], required_outcnt := 2, is_CFG := true, is_If := true, is_MultiBranch := true,
     is_BaseCountedLoopEnd := true, is_CountedLoopEnd := true },
   { Name := "Parm", dump_text := "3 Parm", outs := [0], is_CFG := true },
   { Name := "Bool", dump_text := "4 Bool", outs := [2] }]

/-- A well-formed outer strip-mined loop around the `OuterStripMinedLoopEnd` 0. -/
def strip_mined_graph : Graph :=
  [{ Name := "OuterStripMinedLoopEnd", dump_text := "0 OuterStripMinedLoopEnd",
     ins := [some 1, some 7], outs := [4], required_outcnt := 2, is_CFG := true, is_If := true,
     is_MultiBranch := true, is_OuterStripMinedLoopEnd := true },
   { Name := "SafePoint", dump_text := "1 SafePoint", ins := [some 2], outs := [0],
     is_CFG := true, is_SafePoint := true, is_Op_SafePoint := true },
   { Name := "IfFalse", dump_text := "2 IfFalse", ins := [some 3], outs := [1], is_CFG := true,
     is_IfFalse := true },
   { Name := "CountedLoopEnd", dump_text := "3 CountedLoopEnd", ins := [some 6, some 7],
     outs := [2], required_outcnt := 2, is_CFG := true, is_If := true, is_MultiBranch := true,
     is_BaseCountedLoopEnd := true, is_CountedLoopEnd := true },
   { Name := "IfTrue", dump_text := "4 IfTrue", ins := [some 0], outs := [5], is_CFG := true,
     is_IfTrue := true },
   { Name := "OuterStripMinedLoop", dump_text := "5 OuterStripMinedLoop",
     ins := [some 5, some 7, some 4], outs := [5, 6], is_CFG := true, is_Region := true,
     is_OuterStripMinedLoop := true },
   { Name := "CountedLoop", dump_text := "6 CountedLoop", ins := [some 6, some 5, some 7],
     outs := [6, 3], is_CFG := true, is_Region := true, is_CountedLoop := true },
   { Name := "Parm", dump_text := "7 Parm", outs := [0, 3, 5, 6] }]

/-- A root whose only input is itself (scenario E of the specification). -/
def root_self_loop : Graph :=
  [{ Name := "Root", dump_text := "0 Root", ins := [some 0], outs := [0], is_CFG := true,
     is_Region := true, is_Root := true }]

/-- The category of nodes that a catalog entry applies to. -/
def LocalGraphInvariant.category : LocalGraphInvariant → Node → Bool
  | .IfProjections, n => n.is_If
  | .PhiArity, n => n.is_Phi
  | .ControlSuccessor, n => n.is_CFG
  | .RegionSelfLoop, n => n.is_Region || n.is_Start || n.is_Root
  | .CountedLoopInvariants, n => n.is_CountedLoop || n.is_LongCountedLoop
  | .OuterStripMinedLoopInvariants, n => n.is_OuterStripMinedLoopEnd
  | .MultiBranchNodeOut, n => n.is_MultiBranch

/-- The sub-patterns `ps` are evaluated in their order on `center`, each from the state the one
before has left, starting from `st`; all of them return `true`, and the last leaves `st1`. -/
inductive AllTrue (g : Graph) (center : Nat) : List Pattern → CheckState → CheckState → Prop where
  | nil (st : CheckState) : AllTrue g center [] st st
  | cons (p : Pattern) (ps : List Pattern) (st st1 st2 : CheckState) :
    Pattern.check g p center st = some (true, st1) → AllTrue g center ps st1 st2 →
    AllTrue g center (p :: ps) st st2

/-- The stream `s1` is the stream `s` with text appended: some text when `some_text` is `true`,
none when it is `false`. -/
def Appended (s s1 : String) (some_text : Bool) : Prop :=
  ∃ t, s1 = s ++ t ∧ (some_text = true → 0 < t.length) ∧ (some_text = false → t = "")

/-- The text a catalog entry leaves in its stream `ss2` for `center` when `run` invokes it, on
fresh capture slots. -/
def LocalGraphInvariant.text (g : Graph) (chk : LocalGraphInvariant) (center : Nat) : String :=
  ((chk.check g center { steps := [center], path := [], ss := "", binds := {} }).map
    (fun x => x.2.ss)).getD ""

/-- The lines that the stream `ss` of `run` holds for one entry and `center`: for a failing
entry its name and its text, and nothing otherwise. -/
def entry_lines (g : Graph) (center : Nat) (chk : LocalGraphInvariant) : String :=
  if chk.result g center = some CheckResult.FAILED then
    "# " ++ chk.name ++ ":" ++ "\n" ++ chk.text g center ++ "\n"
  else ""

/-- The text `run` writes to `tty` for the node `v`: nothing when no entry fails, and otherwise
the report for the number of failing entries and their lines. -/
def report_at (g : Graph) (checks : List LocalGraphInvariant) (v : Nat) : String :=
  if failed_checks g checks v = 0 then ""
  else GraphInvariantChecker.report g v (failed_checks g checks v)
    (String.join (checks.map (entry_lines g v)))

/-- The text on `tty` is the sequence of the reports of the nodes checked so far. -/
def TtyExact (checks : List LocalGraphInvariant) (C : Compile) (st : RunState) : Prop :=
  st.tty = String.join (st.checked.map (report_at C.nodes checks))

/-! ## The text of `print_path` -/

theorem dump_append (g : Graph) (n : Nat) (suffix a b : String) :
    g.dump n suffix (a ++ b) = a ++ g.dump n suffix b := by
  simp [Graph.dump, String.append_assoc]

theorem dump_all_append (g : Graph) (l : List Nat) (a b : String) :
    g.dump_all l (a ++ b) = a ++ g.dump_all l b := by
  unfold Graph.dump_all
  induction l generalizing b with
  | nil => rfl
  | cons n l ih => simp only [List.foldl_cons, dump_append, ih]

theorem print_path_step_append (g : Graph) (steps : List Nat) (path : List Int) (a b : String)
    (i : Nat) :
    print_path_step g steps path (a ++ b) i = a ++ print_path_step g steps path b i := by
  unfold print_path_step
  split <;> simp [dump_append, String.append_assoc]

theorem foldl_print_path_step_append (g : Graph) (steps : List Nat) (path : List Int)
    (l : List Nat) (a b : String) :
    l.foldl (print_path_step g steps path) (a ++ b)
      = a ++ l.foldl (print_path_step g steps path) b := by
  induction l generalizing b with
  | nil => rfl
  | cons n l ih => simp only [List.foldl_cons, print_path_step_append, ih]

theorem print_path_eq (g : Graph) (center : Nat) (steps : List Nat) (path : List Int)
    (ss : String) (h1 : steps.length = path.length + 1) (h2 : steps.getLast? = some center) :
    print_path g center steps path ss = some (ss ++ path_text g center steps path) := by
  unfold path_text print_path
  simp only [h1, h2, ne_eq, not_true_eq_false, if_false]
  split
  · simp [dump_append]
  · simp only [Option.getD_some, Option.some.injEq]
    rw [← foldl_print_path_step_append, ← dump_append]
    congr 2
    rw [← String.append_assoc, ← String.append_assoc, ← dump_append]
    simp

/-! ## The behaviour of the patterns -/

theorem length_append_newline_pos (a : String) : 0 < (a ++ "\n").length := by
  rw [String.length_append]
  exact Nat.lt_of_lt_of_le (by decide) (Nat.le_add_left _ _)

theorem dump_all_eq (g : Graph) (l : List Nat) (a : String) :
    g.dump_all l a = a ++ g.dump_all l "" := by
  simpa using dump_all_append g l a ""

theorem fail_at_eq (g : Graph) (center : Nat) (st : CheckState) (msg : String)
    (h1 : st.steps.length = st.path.length + 1) (h2 : st.steps.getLast? = some center) :
    fail_at g center st msg
      = some (false,
          { st with ss := st.ss ++ (path_text g center st.steps st.path ++ msg ++ "\n") }) := by
  simp [fail_at, print_path_eq g center st.steps st.path st.ss h1 h2, CheckState.print_cr,
    String.append_assoc]

theorem spec_of_test (g : Graph) (p : Pattern) (center : Nat) (b : Bool)
    (h : ∀ st, ∃ msg, Pattern.check g p center st
      = if b = true then some (true, st) else fail_at g center st msg) :
    PatternSpec g p center b id := by
  intro st h1 h2
  obtain ⟨msg, hm⟩ := h st
  rw [hm]
  cases b with
  | true => exact ⟨st, by simp⟩
  | false =>
    rw [fail_at_eq g center st msg h1 h2]
    exact ⟨_, rfl, rfl, rfl, by simp, fun _ => ⟨_, length_append_newline_pos _, rfl⟩⟩

theorem spec_True (g : Graph) (center : Nat) : PatternSpec g .True center true id := by
  intro st _ _
  exact ⟨st, by simp [Pattern.check]⟩

theorem spec_Bind (g : Graph) (s : Slot) (center : Nat) :
    PatternSpec g (.Bind s) center true (fun b => b.set s center) := by
  intro st _ _
  exact ⟨_, rfl, rfl, rfl, fun _ => ⟨rfl, rfl⟩, by simp⟩

theorem spec_HasExactlyNInputs (g : Graph) (n center : Nat) :
    PatternSpec g (.HasExactlyNInputs n) center (decide ((g.node center).req = n)) id := by
  apply spec_of_test
  intro st
  apply Exists.intro
  simp only [Pattern.check, ne_eq, ite_not, decide_eq_true_eq]
  rfl

theorem spec_HasAtLeastNInputs (g : Graph) (n center : Nat) :
    PatternSpec g (.HasAtLeastNInputs n) center (decide (n ≤ (g.node center).req)) id := by
  apply spec_of_test
  intro st
  apply Exists.intro
  simp only [Pattern.check, decide_eq_true_eq]
  by_cases h : (g.node center).req < n
  · rw [if_pos h, if_neg (Nat.not_le.mpr h)]
  · rw [if_neg h, if_pos (Nat.le_of_not_lt h)]

theorem spec_HasType (g : Graph) (tc : Node → Bool) (center : Nat) :
    PatternSpec g (.HasType tc) center (tc (g.node center)) id := by
  apply spec_of_test
  intro st
  apply Exists.intro
  simp only [Pattern.check, ite_not]
  rfl

theorem spec_HasNOutputs (g : Graph) (n center : Nat) :
    PatternSpec g (.HasNOutputs n) center (decide ((g.node center).outcnt = n)) id := by
  apply spec_of_test
  intro st
  apply Exists.intro
  simp only [Pattern.check, ne_eq, ite_not, decide_eq_true_eq]
  rfl

theorem spec_nil (g : Graph) (center : Nat) : PatternListSpec g [] center true id := by
  intro st _ _
  exact ⟨st, by simp [Pattern.check_list]⟩

theorem spec_cons (g : Graph) (p : Pattern) (ps : List Pattern) (center : Nat) (b1 b2 : Bool)
    (f1 f2 : Bindings → Bindings) (hp : PatternSpec g p center b1 f1)
    (hps : b1 = true → PatternListSpec g ps center b2 f2) :
    PatternListSpec g (p :: ps) center (b1 && b2) (f2 ∘ f1) := by
  intro st h1 h2
  obtain ⟨st1, hc, hs, hpth, ht, hf⟩ := hp st h1 h2
  cases b1 with
  | false =>
    refine ⟨st1, by simp [Pattern.check_list, hc], hs, hpth, by simp, fun _ => hf rfl⟩
  | true =>
    obtain ⟨hss, hb⟩ := ht rfl
    obtain ⟨st2, hc2, hs2, hpth2, ht2, hf2⟩ :=
      hps rfl st1 (by rw [hs, hpth]; exact h1) (by rw [hs]; exact h2)
    refine ⟨st2, by simp [Pattern.check_list, hc, hc2], by rw [hs2, hs], by rw [hpth2, hpth],
      ?_, ?_⟩
    · intro hb2
      simp only [Bool.true_and] at hb2
      obtain ⟨hss2, hbb⟩ := ht2 hb2
      exact ⟨by rw [hss2, hss], by rw [hbb, hb]; rfl⟩
    · intro hb2
      simp only [Bool.true_and] at hb2
      obtain ⟨t, htl, hte⟩ := hf2 hb2
      exact ⟨t, htl, by rw [hte, hss]⟩

theorem spec_And (g : Graph) (ps : List Pattern) (center : Nat) (b : Bool)
    (f : Bindings → Bindings) (h : PatternListSpec g ps center b f) :
    PatternSpec g (.And ps) center b f := by
  intro st h1 h2
  simpa [Pattern.check] using h st h1 h2

theorem spec_AtInput_none (g : Graph) (k : Nat) (p : Pattern) (center : Nat)
    (hk : k < (g.node center).req) (hin : (g.node center).in_ k = none) :
    PatternSpec g (.AtInput k p) center false id := by
  intro st h1 h2
  simp only [Pattern.check, hk, not_true_eq_false, if_false, hin]
  rw [fail_at_eq g center st _ h1 h2]
  exact ⟨_, rfl, rfl, rfl, by simp, fun _ => ⟨_, length_append_newline_pos _, rfl⟩⟩

theorem spec_AtInput_some (g : Graph) (k : Nat) (p : Pattern) (center input : Nat) (b : Bool)
    (f : Bindings → Bindings)
    (hk : k < (g.node center).req) (hin : (g.node center).in_ k = some input)
    (hp : PatternSpec g p input b f) :
    PatternSpec g (.AtInput k p) center b f := by
  intro st h1 h2
  obtain ⟨st1, hc, hs, hpth, ht, hf⟩ := hp
    { st with steps := st.steps ++ [input], path := st.path ++ [to_int k] }
    (by simp [h1]) (by simp)
  simp only [Pattern.check, hk, not_true_eq_false, if_false, hin, hc]
  exact ⟨_, rfl, by simp [hs], by simp [hpth], ht, hf⟩

theorem spec_AtSingleOutputOfType_one (g : Graph) (tc : Node → Bool) (p : Pattern)
    (center out : Nat) (b : Bool) (f : Bindings → Bindings)
    (hout : outputs_of_type g tc center = [out]) (hp : PatternSpec g p out b f) :
    PatternSpec g (.AtSingleOutputOfType tc p) center b f := by
  intro st h1 h2
  obtain ⟨st1, hc, hs, hpth, ht, hf⟩ := hp
    { st with steps := st.steps ++ [out], path := st.path ++ [OUTPUT_STEP] }
    (by simp [h1]) (by simp)
  simp only [Pattern.check, hout, hc]
  exact ⟨_, rfl, by simp [hs], by simp [hpth], ht, hf⟩

theorem spec_AtSingleOutputOfType_ne (g : Graph) (tc : Node → Bool) (p : Pattern)
    (center : Nat) (hout : (outputs_of_type g tc center).length ≠ 1) :
    PatternSpec g (.AtSingleOutputOfType tc p) center false id := by
  intro st h1 h2
  unfold Pattern.check
  split
  · rename_i out heq
    rw [heq] at hout
    exact absurd rfl hout
  · rw [fail_at_eq g center st _ h1 h2]
    refine ⟨_, rfl, rfl, rfl, by simp, fun _ => ?_⟩
    simp only [CheckState.dump_all]
    rw [dump_all_append, dump_all_eq]
    refine ⟨_, ?_, rfl⟩
    rw [String.length_append]
    exact Nat.lt_of_lt_of_le (length_append_newline_pos _) (Nat.le_add_right _ _)

theorem spec_false_slots (g : Graph) (p : Pattern) (center : Nat) (f f1 : Bindings → Bindings)
    (h : PatternSpec g p center false f) : PatternSpec g p center false f1 := by
  intro st h1 h2
  obtain ⟨st1, hc, hs, hp, -, hf⟩ := h st h1 h2
  exact ⟨st1, hc, hs, hp, by simp, hf⟩

theorem list_spec_false_slots (g : Graph) (ps : List Pattern) (center : Nat)
    (f f1 : Bindings → Bindings)
    (h : PatternListSpec g ps center false f) : PatternListSpec g ps center false f1 := by
  intro st h1 h2
  obtain ⟨st1, hc, hs, hp, -, hf⟩ := h st h1 h2
  exact ⟨st1, hc, hs, hp, by simp, hf⟩

theorem holds_congr (g : Graph) (p : Pattern) (center : Nat) (φ ψ : Prop)
    (f f1 : Bindings → Bindings) (h : PatternHolds g p center φ f) (hφ : φ ↔ ψ)
    (hf : φ → ∀ x, f x = f1 x) : PatternHolds g p center ψ f1 := by
  obtain ⟨b, hb, hiff⟩ := h
  refine ⟨b, ?_, hiff.trans hφ⟩
  cases b with
  | false => exact spec_false_slots g p center f f1 hb
  | true =>
    have hx := hf (hiff.mp rfl)
    intro st h1 h2
    obtain ⟨st1, hc, hs, hp, ht, hff⟩ := hb st h1 h2
    exact ⟨st1, hc, hs, hp, fun e => ⟨(ht e).1, by rw [(ht e).2, hx]⟩, hff⟩

theorem holds_True (g : Graph) (center : Nat) : PatternHolds g .True center True id :=
  ⟨true, spec_True g center, by simp⟩

theorem holds_Bind (g : Graph) (s : Slot) (center : Nat) :
    PatternHolds g (.Bind s) center True (fun b => b.set s center) :=
  ⟨true, spec_Bind g s center, by simp⟩

theorem holds_HasExactlyNInputs (g : Graph) (n center : Nat) :
    PatternHolds g (.HasExactlyNInputs n) center ((g.node center).req = n) id :=
  ⟨_, spec_HasExactlyNInputs g n center, by simp⟩

theorem holds_HasAtLeastNInputs (g : Graph) (n center : Nat) :
    PatternHolds g (.HasAtLeastNInputs n) center (n ≤ (g.node center).req) id :=
  ⟨_, spec_HasAtLeastNInputs g n center, by simp⟩

theorem holds_HasType (g : Graph) (tc : Node → Bool) (center : Nat) :
    PatternHolds g (.HasType tc) center (tc (g.node center) = true) id :=
  ⟨_, spec_HasType g tc center, Iff.rfl⟩

theorem holds_HasNOutputs (g : Graph) (n center : Nat) :
    PatternHolds g (.HasNOutputs n) center ((g.node center).outcnt = n) id :=
  ⟨_, spec_HasNOutputs g n center, by simp⟩

theorem holds_nil (g : Graph) (center : Nat) : PatternListHolds g [] center True id :=
  ⟨true, spec_nil g center, by simp⟩

theorem holds_cons (g : Graph) (p : Pattern) (ps : List Pattern) (center : Nat) (φ1 φ2 : Prop)
    (f1 f2 : Bindings → Bindings) (hp : PatternHolds g p center φ1 f1)
    (hps : φ1 → PatternListHolds g ps center φ2 f2) :
    PatternListHolds g (p :: ps) center (φ1 ∧ φ2) (f2 ∘ f1) := by
  obtain ⟨b1, hb1, hiff1⟩ := hp
  cases b1 with
  | false =>
    refine ⟨false && false, spec_cons g p ps center false false f1 f2 hb1 (by simp), ?_⟩
    simp only [Bool.and_self, Bool.false_eq_true, false_iff, not_and]
    intro h
    exact absurd (hiff1.mpr h) (by simp)
  | true =>
    obtain ⟨b2, hb2, hiff2⟩ := hps (hiff1.mp rfl)
    refine ⟨true && b2, spec_cons g p ps center true b2 f1 f2 hb1 (fun _ => hb2), ?_⟩
    simp only [Bool.true_and, hiff2]
    exact ⟨fun h => ⟨hiff1.mp rfl, h⟩, fun h => h.2⟩

theorem holds_And (g : Graph) (ps : List Pattern) (center : Nat) (φ : Prop)
    (f : Bindings → Bindings) (h : PatternListHolds g ps center φ f) :
    PatternHolds g (.And ps) center φ f := by
  obtain ⟨b, hb, hiff⟩ := h
  exact ⟨b, spec_And g ps center b f hb, hiff⟩

theorem holds_AtInput (g : Graph) (k : Nat) (p : Pattern) (center : Nat) (φ : Nat → Prop)
    (f : Bindings → Bindings) (hk : k < (g.node center).req)
    (hp : ∀ input, (g.node center).in_ k = some input → PatternHolds g p input (φ input) f) :
    PatternHolds g (.AtInput k p) center
      (∃ input, (g.node center).in_ k = some input ∧ φ input) f := by
  cases hin : (g.node center).in_ k with
  | none =>
    exact ⟨false, spec_false_slots g _ center id f (spec_AtInput_none g k p center hk hin),
      by simp⟩
  | some input =>
    obtain ⟨b, hb, hiff⟩ := hp input hin
    exact ⟨b, spec_AtInput_some g k p center input b f hk hin hb, by simpa using hiff⟩

theorem holds_AtSingleOutputOfType (g : Graph) (tc : Node → Bool) (p : Pattern) (center : Nat)
    (φ : Nat → Prop) (f : Bindings → Bindings)
    (hp : ∀ out, outputs_of_type g tc center = [out] → PatternHolds g p out (φ out) f) :
    PatternHolds g (.AtSingleOutputOfType tc p) center
      (∃ out, outputs_of_type g tc center = [out] ∧ φ out) f := by
  by_cases h : (outputs_of_type g tc center).length = 1
  · obtain ⟨out, hout⟩ := List.length_eq_one.mp h
    obtain ⟨b, hb, hiff⟩ := hp out hout
    refine ⟨b, spec_AtSingleOutputOfType_one g tc p center out b f hout hb, ?_⟩
    simpa [hout] using hiff
  · refine ⟨false, spec_false_slots g _ center id f
      (spec_AtSingleOutputOfType_ne g tc p center h), ?_⟩
    simp only [Bool.false_eq_true, false_iff, not_exists, not_and]
    intro out hout
    rw [hout] at h
    exact absurd rfl h

/-! ## The patterns of the catalog -/

theorem singleton_iff_countP (l : List Nat) (q : Nat → Bool) :
    (∃ out, l.filter q = [out]) ↔ l.countP q = 1 := by
  rw [List.countP_eq_length_filter, List.length_eq_one]

theorem IfProjections_pattern_holds (g : Graph) (center : Nat) :
    PatternHolds g IfProjections.pattern center
      ((g.node center).outcnt = 2 ∧
        (g.node center).outs.countP (fun out => (g.node out).is_IfTrue) = 1 ∧
        (g.node center).outs.countP (fun out => (g.node out).is_IfFalse) = 1) id := by
  refine holds_congr g _ center _ _ _ id
    (holds_And g _ center _ _
      (holds_cons g _ _ center _ _ _ _ (holds_HasNOutputs g 2 center) fun _ =>
        holds_cons g _ _ center _ _ _ _
          (holds_AtSingleOutputOfType g Node.is_IfTrue .True center (fun _ => True) id
            fun out _ => holds_True g out) fun _ =>
          holds_cons g _ _ center _ _ _ _
            (holds_AtSingleOutputOfType g Node.is_IfFalse .True center (fun _ => True) id
              fun out _ => holds_True g out) fun _ =>
            holds_nil g center)) ?_ (fun _ _ => rfl)
  simp only [outputs_of_type, singleton_iff_countP, and_true]

theorem PhiArity_pattern_holds (g : Graph) (center : Nat) :
    PatternHolds g PhiArity.pattern center
      (1 ≤ (g.node center).req ∧
        ∃ region, (g.node center).in_ 0 = some region ∧ (g.node region).is_Region = true)
      (bind_at Slot.region_node ((g.node center).in_ 0)) := by
  refine holds_congr g _ center _ _ _ _
    (holds_And g _ center _ _
      (holds_cons g _ _ center _ _ _ _ (holds_HasAtLeastNInputs g 1 center) fun hreq =>
        holds_cons g _ _ center _ _ _ _
          (holds_AtInput g 0 _ center (fun region => (g.node region).is_Region = true)
            (bind_at Slot.region_node ((g.node center).in_ 0)) hreq fun region hin =>
              holds_congr g _ region _ _ _ _
                (holds_And g _ region _ _
                  (holds_cons g _ _ region _ _ _ _ (holds_HasType g Node.is_Region region)
                    fun _ => holds_cons g _ _ region _ _ _ _
                      (holds_Bind g Slot.region_node region) fun _ => holds_nil g region))
                (by simp) (fun _ x => by simp [hin, bind_at]))
          fun _ => holds_nil g center)) (by simp) (fun _ _ => rfl)

theorem CountedLoopInvariants_pattern_holds (g : Graph) (center : Nat) :
    PatternHolds g CountedLoopInvariants.pattern center
      ((g.node center).req = 3 ∧
        ∃ proj, (g.node center).in_ LoopNode.LoopBackControl = some proj ∧
          (g.node proj).is_IfTrue = true ∧ 1 ≤ (g.node proj).req ∧
          ∃ loop_end, (g.node proj).in_ 0 = some loop_end ∧
            (g.node loop_end).is_BaseCountedLoopEnd = true)
      (bind_at Slot.counted_loop (CountedLoopInvariants.bound g center)) := by
  refine holds_congr g _ center _ _ _ _
    (holds_And g _ center _ _
      (holds_cons g _ _ center _ _ _ _ (holds_HasExactlyNInputs g 3 center) fun hreq =>
        holds_cons g _ _ center _ _ _ _
          (holds_AtInput g LoopNode.LoopBackControl _ center
            (fun proj => (g.node proj).is_IfTrue = true ∧ 1 ≤ (g.node proj).req ∧
              ∃ loop_end, (g.node proj).in_ 0 = some loop_end ∧
                (g.node loop_end).is_BaseCountedLoopEnd = true)
            (bind_at Slot.counted_loop (CountedLoopInvariants.bound g center))
            (by rw [hreq]; decide) fun proj hproj =>
              holds_congr g _ proj _ _ _ _
                (holds_And g _ proj _ _
                  (holds_cons g _ _ proj _ _ _ _ (holds_HasType g Node.is_IfTrue proj) fun _ =>
                    holds_cons g _ _ proj _ _ _ _ (holds_HasAtLeastNInputs g 1 proj) fun hp =>
                      holds_cons g _ _ proj _ _ _ _
                        (holds_AtInput g 0 _ proj
                          (fun loop_end => (g.node loop_end).is_BaseCountedLoopEnd = true)
                          (bind_at Slot.counted_loop (CountedLoopInvariants.bound g center))
                          hp fun loop_end hle =>
                            holds_congr g _ loop_end _ _ _ _
                              (holds_And g _ loop_end _ _
                                (holds_cons g _ _ loop_end _ _ _ _
                                  (holds_HasType g Node.is_BaseCountedLoopEnd loop_end) fun _ =>
                                    holds_cons g _ _ loop_end _ _ _ _
                                      (holds_Bind g Slot.counted_loop loop_end) fun _ =>
                                        holds_nil g loop_end))
                              (by simp)
                              (fun _ x => by
                                simp [CountedLoopInvariants.bound, hproj, hle, bind_at]))
                        fun _ => holds_nil g proj))
                (by simp) (fun _ _ => rfl))
          fun _ => holds_nil g center)) (by simp) (fun _ _ => rfl)

theorem OuterStripMinedLoopInvariants_pattern_holds (g : Graph) (center : Nat) :
    PatternHolds g OuterStripMinedLoopInvariants.pattern center
      ((g.node center).req = 2 ∧
        (∃ sfpt, (g.node center).in_ 0 = some sfpt ∧ (g.node sfpt).is_SafePoint = true ∧
          1 ≤ (g.node sfpt).req ∧
          ∃ proj, (g.node sfpt).in_ 0 = some proj ∧ (g.node proj).is_IfFalse = true ∧
            1 ≤ (g.node proj).req ∧
            ∃ loop_end, (g.node proj).in_ 0 = some loop_end ∧
              (g.node loop_end).is_CountedLoopEnd = true) ∧
        ∃ proj, outputs_of_type g Node.is_IfTrue center = [proj] ∧
          ∃ outer, outputs_of_type g Node.is_OuterStripMinedLoop proj = [outer] ∧
            ∃ inner, outputs_of_type g Node.is_CountedLoop outer = [inner])
      id := by
  refine holds_congr g _ center _ _ _ _
    (holds_And g _ center _ _
      (holds_cons g _ _ center _ _ _ _ (holds_HasExactlyNInputs g 2 center) fun hreq =>
        holds_cons g _ _ center _ _ _ _
          (holds_AtInput g 0 _ center
            (fun sfpt => (g.node sfpt).is_SafePoint = true ∧ 1 ≤ (g.node sfpt).req ∧
              ∃ proj, (g.node sfpt).in_ 0 = some proj ∧ (g.node proj).is_IfFalse = true ∧
                1 ≤ (g.node proj).req ∧
                ∃ loop_end, (g.node proj).in_ 0 = some loop_end ∧
                  (g.node loop_end).is_CountedLoopEnd = true) id
            (by rw [hreq]; decide) fun sfpt _ =>
              holds_congr g _ sfpt _ _ _ _
                (holds_And g _ sfpt _ _
                  (holds_cons g _ _ sfpt _ _ _ _ (holds_HasType g Node.is_SafePoint sfpt) fun _ =>
                    holds_cons g _ _ sfpt _ _ _ _ (holds_HasAtLeastNInputs g 1 sfpt) fun hs =>
                      holds_cons g _ _ sfpt _ _ _ _
                        (holds_AtInput g 0 _ sfpt
                          (fun proj => (g.node proj).is_IfFalse = true ∧ 1 ≤ (g.node proj).req ∧
                            ∃ loop_end, (g.node proj).in_ 0 = some loop_end ∧
                              (g.node loop_end).is_CountedLoopEnd = true) id hs fun proj _ =>
                            holds_congr g _ proj _ _ _ _
                              (holds_And g _ proj _ _
                                (holds_cons g _ _ proj _ _ _ _
                                  (holds_HasType g Node.is_IfFalse proj) fun _ =>
                                    holds_cons g _ _ proj _ _ _ _
                                      (holds_HasAtLeastNInputs g 1 proj) fun hp =>
                                        holds_cons g _ _ proj _ _ _ _
                                          (holds_AtInput g 0 _ proj
                                            (fun loop_end =>
                                              (g.node loop_end).is_CountedLoopEnd = true) id hp
                                            fun loop_end _ =>
                                              holds_HasType g Node.is_CountedLoopEnd loop_end)
                                          fun _ => holds_nil g proj))
                              (by simp) (fun _ _ => rfl))
                        fun _ => holds_nil g sfpt))
                (by simp) (fun _ _ => rfl))
          fun _ =>
            holds_cons g _ _ center _ _ _ _
              (holds_AtSingleOutputOfType g Node.is_IfTrue _ center
                (fun proj => ∃ outer, outputs_of_type g Node.is_OuterStripMinedLoop proj = [outer] ∧
                  ∃ inner, outputs_of_type g Node.is_CountedLoop outer = [inner] ∧ True) id
                fun proj _ =>
                  holds_AtSingleOutputOfType g Node.is_OuterStripMinedLoop _ proj
                    (fun outer => ∃ inner, outputs_of_type g Node.is_CountedLoop outer = [inner]
                      ∧ True) id
                    fun outer _ =>
                      holds_AtSingleOutputOfType g Node.is_CountedLoop _ outer (fun _ => True) id
                        fun inner _ => holds_True g inner)
              fun _ => holds_nil g center)) (by simp) (fun _ _ => rfl)

/-! ## The entries of the catalog -/

theorem PatternBasedCheck_of_spec (g : Graph) (p : Pattern) (center : Nat) (b : Bool)
    (f : Bindings → Bindings) (h : PatternSpec g p center b f) (st : CheckState)
    (h1 : st.steps.length = st.path.length + 1) (h2 : st.steps.getLast? = some center) :
    ∃ st1, PatternBasedCheck.check g p center st
        = some (if b = true then CheckResult.VALID else CheckResult.FAILED, st1) ∧
      st1.steps = st.steps ∧ st1.path = st.path ∧
      (b = true → st1.ss = st.ss ∧ st1.binds = f st.binds) ∧
      (b = false → ∃ t, 0 < t.length ∧ st1.ss = st.ss ++ t) := by
  obtain ⟨st1, hc, hrest⟩ := h st h1 h2
  refine ⟨st1, ?_, hrest⟩
  unfold PatternBasedCheck.check
  rw [hc]
  cases b <;> rfl

theorem check_spec_of_holds (g : Graph) (p : Pattern) (center : Nat) (φ : Prop)
    (f : Bindings → Bindings) (h : PatternHolds g p center φ f) :
    ∃ r, CheckSpec (PatternBasedCheck.check g p) center r ∧
      (r = CheckResult.VALID ↔ φ) ∧ (r = CheckResult.FAILED ↔ ¬ φ) := by
  obtain ⟨b, hb, hiff⟩ := h
  refine ⟨if b = true then CheckResult.VALID else CheckResult.FAILED, ?_, ?_, ?_⟩
  · intro st h1 h2
    obtain ⟨st1, hc, hs, hp, ht, hf⟩ := PatternBasedCheck_of_spec g p center b f hb st h1 h2
    refine ⟨st1, hc, hs, hp, ?_, ?_⟩ <;> cases b <;> simp_all
  · rw [← hiff]; cases b <;> simp
  · rw [← hiff]; cases b <;> simp

theorem check_spec_of_all (check : Nat → CheckState → Option (CheckResult × CheckState))
    (center : Nat) (r : CheckResult) (h : CheckSpecAll check center r) :
    CheckSpec check center r :=
  fun st _ _ => h st

theorem check_all_not_applicable
    (check : Nat → CheckState → Option (CheckResult × CheckState))
    (center : Nat) (h : ∀ st, check center st = some (CheckResult.NOT_APPLICABLE, st)) :
    CheckSpecAll check center CheckResult.NOT_APPLICABLE := by
  intro st
  exact ⟨st, h st, rfl, rfl, fun _ => rfl, by simp⟩

theorem check_spec_not_applicable (check : Nat → CheckState → Option (CheckResult × CheckState))
    (center : Nat) (h : ∀ st, check center st = some (CheckResult.NOT_APPLICABLE, st)) :
    CheckSpec check center CheckResult.NOT_APPLICABLE :=
  check_spec_of_all check center _ (check_all_not_applicable check center h)

theorem IfProjections_check_spec (g : Graph) (center : Nat) :
    ∃ r, CheckSpec (IfProjections.check g) center r ∧
      ((g.node center).is_If = false → r = CheckResult.NOT_APPLICABLE) ∧
      ((g.node center).is_If = true →
        (r = CheckResult.VALID ↔
          (g.node center).outcnt = 2 ∧
          (g.node center).outs.countP (fun out => (g.node out).is_IfTrue) = 1 ∧
          (g.node center).outs.countP (fun out => (g.node out).is_IfFalse) = 1) ∧
        (r ≠ CheckResult.VALID → r = CheckResult.FAILED)) := by
  cases hIf : (g.node center).is_If with
  | false =>
    exact ⟨_, check_spec_not_applicable _ center (by simp [IfProjections.check, hIf]),
      by simp, by simp⟩
  | true =>
    obtain ⟨r, hr, hv, hf⟩ := check_spec_of_holds g _ center _ _
      (IfProjections_pattern_holds g center)
    refine ⟨r, ?_, by simp, fun _ => ⟨hv, fun hne => hf.mpr (fun h => hne (hv.mpr h))⟩⟩
    intro st h1 h2
    simpa [IfProjections.check, hIf] using hr st h1 h2

theorem PhiArity_check_of_match (g : Graph) (center region : Nat) (st : CheckState)
    (hPhi : (g.node center).is_Phi = true)
    (h1 : st.steps.length = st.path.length + 1) (h2 : st.steps.getLast? = some center)
    (hreq : 1 ≤ (g.node center).req) (hin : (g.node center).in_ 0 = some region)
    (hR : (g.node region).is_Region = true) :
    PhiArity.check g center st =
      if (g.node region).req ≠ (g.node center).req then
        some (CheckResult.FAILED,
          { steps := st.steps, path := st.path,
            ss := st.ss ++ (path_text g center st.steps st.path
              ++ ("Phi nodes must have the same arity as their Region node. Phi arity: "
                ++ fmt_u (g.node center).req ++ "; Region arity: "
                ++ fmt_u (g.node region).req ++ ".") ++ "\n"),
            binds := st.binds.set Slot.region_node region })
      else
        some (CheckResult.VALID,
          { steps := st.steps, path := st.path, ss := st.ss,
            binds := st.binds.set Slot.region_node region }) := by
  obtain ⟨b, hb, hiff⟩ := PhiArity_pattern_holds g center
  have hbt : b = true := hiff.mpr ⟨hreq, region, hin, hR⟩
  subst hbt
  obtain ⟨st1, hc, hs, hp, ht, -⟩ := PatternBasedCheck_of_spec g _ center _ _ hb st h1 h2
  obtain ⟨hss, hbd⟩ := ht rfl
  have hst1 : st1 = ⟨st.steps, st.path, st.ss, st.binds.set Slot.region_node region⟩ := by
    cases st1
    simp only [hin, bind_at] at hs hp hss hbd
    simp [hs, hp, hss, hbd]
  subst hst1
  simp only [PhiArity.check, hPhi, not_true_eq_false, if_false, hc, if_true, Bindings.set]
  split
  · rename_i hne
    rw [print_path_eq g center st.steps st.path st.ss h1 h2]
    simp [CheckState.print_cr, String.append_assoc]
  · rfl

theorem PhiArity_check_spec (g : Graph) (center : Nat) :
    ∃ r, CheckSpec (PhiArity.check g) center r ∧
      ((g.node center).is_Phi = false → r = CheckResult.NOT_APPLICABLE) ∧
      ((g.node center).is_Phi = true →
        (r = CheckResult.VALID ↔
          1 ≤ (g.node center).req ∧
          ∃ region, (g.node center).in_ 0 = some region ∧ (g.node region).is_Region = true ∧
            (g.node center).req = (g.node region).req) ∧
        (r ≠ CheckResult.VALID → r = CheckResult.FAILED)) := by
  cases hPhi : (g.node center).is_Phi with
  | false =>
    exact ⟨_, check_spec_not_applicable _ center (by simp [PhiArity.check, hPhi]),
      by simp, by simp⟩
  | true =>
    by_cases hm : 1 ≤ (g.node center).req ∧
        ∃ region, (g.node center).in_ 0 = some region ∧ (g.node region).is_Region = true
    · obtain ⟨hreq, region, hin, hR⟩ := hm
      by_cases ha : (g.node region).req = (g.node center).req
      · refine ⟨CheckResult.VALID, ?_, by simp, fun _ => ⟨?_, by simp⟩⟩
        · intro st h1 h2
          rw [PhiArity_check_of_match g center region st hPhi h1 h2 hreq hin hR]
          simp only [ha, ne_eq, not_true_eq_false, if_false]
          exact ⟨_, rfl, rfl, rfl, fun _ => rfl, by simp⟩
        · simp only [true_iff]
          exact ⟨hreq, region, hin, hR, ha.symm⟩
      · refine ⟨CheckResult.FAILED, ?_, by simp, fun _ => ⟨?_, by simp⟩⟩
        · intro st h1 h2
          rw [PhiArity_check_of_match g center region st hPhi h1 h2 hreq hin hR]
          simp only [ha, ne_eq, not_false_eq_true, if_true]
          exact ⟨_, rfl, rfl, rfl, by simp, fun _ => ⟨_, length_append_newline_pos _, rfl⟩⟩
        · simp only [false_iff, not_and, not_exists, reduceCtorEq]
          intro _ region1 hin1 _ he
          rw [hin] at hin1
          cases hin1
          exact ha he.symm
    · obtain ⟨r, hr, hv, hf⟩ := check_spec_of_holds g _ center _ _
        (PhiArity_pattern_holds g center)
      have hrf : r = CheckResult.FAILED := hf.mpr hm
      subst hrf
      refine ⟨CheckResult.FAILED, ?_, by simp, fun _ => ⟨?_, by simp⟩⟩
      · intro st h1 h2
        obtain ⟨st1, hc, hrest⟩ := hr st h1 h2
        refine ⟨st1, ?_, hrest⟩
        simp only [PhiArity.check, hPhi, not_true_eq_false, if_false, hc]
      · simp only [false_iff, not_and, not_exists, reduceCtorEq]
        intro hreq region hin hR _
        exact hm ⟨hreq, region, hin, hR⟩

theorem print_cr_appended (st : CheckState) (msg : String) :
    (st.print_cr msg).steps = st.steps ∧ (st.print_cr msg).path = st.path ∧
      ∃ t, 0 < t.length ∧ (st.print_cr msg).ss = st.ss ++ t :=
  ⟨rfl, rfl, msg ++ "\n", length_append_newline_pos _, by
    simp [CheckState.print_cr, String.append_assoc]⟩

theorem print_cr_dump_all_appended (g : Graph) (st : CheckState) (msg : String) (l : List Nat) :
    ((st.print_cr msg).dump_all g l).steps = st.steps ∧
      ((st.print_cr msg).dump_all g l).path = st.path ∧
      ∃ t, 0 < t.length ∧ ((st.print_cr msg).dump_all g l).ss = st.ss ++ t := by
  refine ⟨rfl, rfl, (msg ++ "\n") ++ g.dump_all l "", ?_, ?_⟩
  · rw [String.length_append]
    exact Nat.lt_of_lt_of_le (length_append_newline_pos _) (Nat.le_add_right _ _)
  · simp only [CheckState.dump_all, CheckState.print_cr]
    rw [dump_all_eq, String.append_assoc, String.append_assoc, String.append_assoc]

theorem check_all_failed (check : Nat → CheckState → Option (CheckResult × CheckState))
    (center : Nat)
    (h : ∀ st, ∃ st1, check center st = some (CheckResult.FAILED, st1) ∧ st1.steps = st.steps ∧
      st1.path = st.path ∧ ∃ t, 0 < t.length ∧ st1.ss = st.ss ++ t) :
    CheckSpecAll check center CheckResult.FAILED := by
  intro st
  obtain ⟨st1, hc, hs, hp, ht⟩ := h st
  exact ⟨st1, hc, hs, hp, by simp, fun _ => ht⟩

theorem check_all_valid (check : Nat → CheckState → Option (CheckResult × CheckState))
    (center : Nat) (h : ∀ st, check center st = some (CheckResult.VALID, st)) :
    CheckSpecAll check center CheckResult.VALID := by
  intro st
  exact ⟨st, h st, rfl, rfl, fun _ => rfl, by simp⟩

theorem MultiBranchNodeOut_check_spec (g : Graph) (center : Nat) :
    ∃ r, CheckSpecAll (MultiBranchNodeOut.check g) center r ∧
      ((g.node center).is_MultiBranch = false → r = CheckResult.NOT_APPLICABLE) ∧
      ((g.node center).is_MultiBranch = true →
        (r = CheckResult.FAILED ↔
          (g.node center).required_outcnt < to_int (g.node center).outcnt) ∧
        (r ≠ CheckResult.FAILED → r = CheckResult.VALID)) := by
  cases hM : (g.node center).is_MultiBranch with
  | false =>
    exact ⟨_, check_all_not_applicable _ center (by simp [MultiBranchNodeOut.check, hM]),
      by simp, by simp⟩
  | true =>
    by_cases hlt : (g.node center).required_outcnt < to_int (g.node center).outcnt
    · refine ⟨CheckResult.FAILED, check_all_failed _ center fun st => ?_, by simp, by simp [hlt]⟩
      simp only [MultiBranchNodeOut.check, hM, not_true_eq_false, if_false, hlt, if_true]
      exact ⟨_, rfl, print_cr_appended st _⟩
    · refine ⟨CheckResult.VALID, check_all_valid _ center fun st => ?_, by simp, by simp [hlt]⟩
      simp only [MultiBranchNodeOut.check, hM, not_true_eq_false, if_false, hlt]

theorem RegionSelfLoop_check_unset (g : Graph) (center : Nat) (st : CheckState)
    (happ : (g.node center).is_Region = true ∨ (g.node center).is_Start = true ∨
      (g.node center).is_Root = true)
    (hreq : (g.node center).req ≠ 0) (hself : (g.node center).in_ 0 ≠ some center) :
    RegionSelfLoop.check g center st = some (CheckResult.FAILED,
      st.print_cr ((g.node center).Name
        ++ " nodes' 0-th input must be itself or nullptr (for a copy Region).")) := by
  have hna : ¬ (¬ (g.node center).is_Region = true ∧ ¬ (g.node center).is_Start = true ∧
      ¬ (g.node center).is_Root = true) := by tauto
  have hs : some center ≠ (g.node center).in_ LoopNode.Self := fun h => hself h.symm
  simp only [RegionSelfLoop.check, hna, if_false, hreq, hs, ne_eq, not_false_eq_true, true_or,
    if_true]

theorem RegionSelfLoop_check_self (g : Graph) (center : Nat) (st : CheckState)
    (happ : (g.node center).is_Region = true ∨ (g.node center).is_Start = true ∨
      (g.node center).is_Root = true)
    (hreq : (g.node center).req ≠ 0) (hself : (g.node center).in_ 0 = some center) :
    RegionSelfLoop.check g center st = some (CheckResult.VALID, st) := by
  have hna : ¬ (¬ (g.node center).is_Region = true ∧ ¬ (g.node center).is_Start = true ∧
      ¬ (g.node center).is_Root = true) := by tauto
  have hs : (g.node center).in_ LoopNode.Self = some center := hself
  simp only [RegionSelfLoop.check]
  rw [if_neg hna, if_neg hreq, hs]
  simp

theorem RegionSelfLoop_check_spec (g : Graph) (center : Nat) :
    ∃ r, CheckSpecAll (RegionSelfLoop.check g) center r ∧
      (¬ ((g.node center).is_Region = true ∨ (g.node center).is_Start = true ∨
        (g.node center).is_Root = true) → r = CheckResult.NOT_APPLICABLE) ∧
      (((g.node center).is_Region = true ∨ (g.node center).is_Start = true ∨
        (g.node center).is_Root = true) →
        (r = CheckResult.VALID ↔
          (g.node center).req ≠ 0 ∧ (g.node center).in_ 0 = some center) ∧
        (r ≠ CheckResult.VALID → r = CheckResult.FAILED)) := by
  by_cases happ : (g.node center).is_Region = true ∨ (g.node center).is_Start = true ∨
      (g.node center).is_Root = true
  · by_cases hreq : (g.node center).req = 0
    · refine ⟨CheckResult.FAILED, check_all_failed _ center fun st => ?_, by simp [happ],
        by simp [hreq]⟩
      have hna : ¬ (¬ (g.node center).is_Region = true ∧ ¬ (g.node center).is_Start = true ∧
          ¬ (g.node center).is_Root = true) := by tauto
      simp only [RegionSelfLoop.check, hna, if_false, hreq, if_true]
      exact ⟨_, rfl, print_cr_appended st _⟩
    · by_cases hself : (g.node center).in_ 0 = some center
      · exact ⟨CheckResult.VALID, check_all_valid _ center fun st =>
          RegionSelfLoop_check_self g center st happ hreq hself, by simp [happ],
          by simp [hreq, hself]⟩
      · refine ⟨CheckResult.FAILED, check_all_failed _ center fun st => ?_, by simp [happ],
          by simp [hself]⟩
        rw [RegionSelfLoop_check_unset g center st happ hreq hself]
        exact ⟨_, rfl, print_cr_appended st _⟩
  · refine ⟨_, check_all_not_applicable _ center fun st => ?_, by simp, by simp [happ]⟩
    have hna : ¬ (g.node center).is_Region = true ∧ ¬ (g.node center).is_Start = true ∧
        ¬ (g.node center).is_Root = true := by tauto
    simp only [RegionSelfLoop.check]
    rw [if_pos hna]

theorem OuterStripMinedLoopInvariants_check_spec (g : Graph) (center : Nat) :
    ∃ r, CheckSpec (OuterStripMinedLoopInvariants.check g) center r := by
  cases hO : (g.node center).is_OuterStripMinedLoopEnd with
  | false =>
    exact ⟨_, check_spec_not_applicable _ center
      (by simp [OuterStripMinedLoopInvariants.check, hO])⟩
  | true =>
    obtain ⟨r, hr, -, -⟩ := check_spec_of_holds g _ center _ _
      (OuterStripMinedLoopInvariants_pattern_holds g center)
    refine ⟨r, ?_⟩
    intro st h1 h2
    simpa [OuterStripMinedLoopInvariants.check, hO] using hr st h1 h2

theorem ctrl_succ_root_iff (g : Graph) (center : Nat) (h : (ctrl_succ g center).length = 2) :
    (¬ (¬ (g.node ((ctrl_succ g center).getD 0 0)).is_Root = true ∧
        ¬ (g.node ((ctrl_succ g center).getD 1 0)).is_Root = true)) ↔
      ∃ out ∈ (g.node center).outs, (g.node out).is_CFG = true ∧ (g.node out).is_Root = true := by
  have hmem : ∀ out, out ∈ ctrl_succ g center ↔
      out ∈ (g.node center).outs ∧ (g.node out).is_CFG = true := by
    intro out
    simp [ctrl_succ, List.mem_filter]
  obtain ⟨a, b, hab⟩ := List.length_eq_two.mp h
  constructor
  · intro hn
    by_cases ha : (g.node a).is_Root = true
    · exact ⟨a, ((hmem a).mp (by simp [hab])).1, ((hmem a).mp (by simp [hab])).2, ha⟩
    · have hb : (g.node b).is_Root = true := by
        by_contra hb
        exact hn (by simp [hab, ha, hb])
      exact ⟨b, ((hmem b).mp (by simp [hab])).1, ((hmem b).mp (by simp [hab])).2, hb⟩
  · rintro ⟨out, ho, hc, hr⟩ ⟨h0, h1⟩
    have : out ∈ ctrl_succ g center := (hmem out).mpr ⟨ho, hc⟩
    rw [hab] at this h0 h1
    simp only [List.mem_cons, List.mem_singleton, List.not_mem_nil, or_false] at this
    rcases this with rfl | rfl
    · exact h0 (by simpa using hr)
    · exact h1 (by simpa using hr)

theorem ControlSuccessor_check_spec (g : Graph) (center : Nat) :
    ∃ r, CheckSpecAll (ControlSuccessor.check g) center r ∧
      ((g.node center).is_CFG = false → r = CheckResult.NOT_APPLICABLE) ∧
      ((g.node center).is_CFG = true →
        (r = CheckResult.VALID ↔
          if (g.node center).is_If = true ∨ (g.node center).is_Start = true ∨
              (g.node center).is_Root = true ∨ (g.node center).is_Region = true ∨
              (g.node center).is_NeverBranch = true then
            (g.node center).outs.countP (fun out => (g.node out).is_CFG) = 2
          else if (g.node center).is_Op_SafePoint = true then
            (g.node center).outs.countP (fun out => (g.node out).is_CFG) = 1 ∨
            ((g.node center).outs.countP (fun out => (g.node out).is_CFG) = 2 ∧
              ∃ out ∈ (g.node center).outs,
                (g.node out).is_CFG = true ∧ (g.node out).is_Root = true)
          else if (g.node center).is_Catch = true ∨ (g.node center).is_Jump = true then
            1 ≤ (g.node center).outs.countP (fun out => (g.node out).is_CFG)
          else (g.node center).outs.countP (fun out => (g.node out).is_CFG) = 1) ∧
        (r ≠ CheckResult.VALID → r = CheckResult.FAILED)) := by
  have hn : (g.node center).outs.countP (fun out => (g.node out).is_CFG)
      = (ctrl_succ g center).length := by
    rw [List.countP_eq_length_filter]; rfl
  rw [hn]
  cases hCFG : (g.node center).is_CFG with
  | false =>
    exact ⟨_, check_all_not_applicable _ center (by simp [ControlSuccessor.check, hCFG]),
      by simp, by simp⟩
  | true =>
    have hv : ∀ r, (r ≠ CheckResult.VALID → r = CheckResult.FAILED) ↔
        (r = CheckResult.VALID ∨ r = CheckResult.FAILED) := by
      intro r; cases r <;> simp
    by_cases hA : (g.node center).is_If = true ∨ (g.node center).is_Start = true ∨
        (g.node center).is_Root = true ∨ (g.node center).is_Region = true ∨
        (g.node center).is_NeverBranch = true
    · have hA1 : ((g.node center).is_If || (g.node center).is_Start || (g.node center).is_Root
          || (g.node center).is_Region || (g.node center).is_NeverBranch) = true := by
        rcases hA with h | h | h | h | h <;> simp [h]
      by_cases h2 : (ctrl_succ g center).length = 2
      · refine ⟨CheckResult.VALID, check_all_valid _ center fun st => ?_, by simp,
          by simp [hA, h2]⟩
        simp only [ControlSuccessor.check, hCFG, hA1, not_true_eq_false, if_false, if_true]
        rw [if_neg (not_not.mpr h2)]
      · refine ⟨CheckResult.FAILED, check_all_failed _ center fun st => ?_, by simp,
          by simp [hA, h2]⟩
        simp only [ControlSuccessor.check, hCFG, hA1, not_true_eq_false, if_false, if_true]
        rw [if_pos h2]
        exact ⟨_, rfl, print_cr_dump_all_appended g st _ _⟩
    · have hA1 : ((g.node center).is_If || (g.node center).is_Start || (g.node center).is_Root
          || (g.node center).is_Region || (g.node center).is_NeverBranch) = false := by
        simp only [not_or, Bool.not_eq_true] at hA
        obtain ⟨a1, a2, a3, a4, a5⟩ := hA
        rw [a1, a2, a3, a4, a5]; rfl
      cases hS : (g.node center).is_Op_SafePoint with
      | true =>
        by_cases h12 : (ctrl_succ g center).length < 1 ∨ (ctrl_succ g center).length > 2
        · refine ⟨CheckResult.FAILED, check_all_failed _ center fun st => ?_, by simp, ?_⟩
          · simp only [ControlSuccessor.check, hCFG, hA1, hS, not_true_eq_false, if_false,
              if_true, Bool.false_eq_true]
            rw [if_pos h12]
            exact ⟨_, rfl, print_cr_dump_all_appended g st _ _⟩
          · intro _
            simp only [hA, if_false, if_true, reduceCtorEq, false_iff, not_or, not_and,
              ne_eq, not_false_eq_true, implies_true, and_true]
            omega
        · by_cases h2 : (ctrl_succ g center).length = 2
          · by_cases hroot : ¬ (g.node ((ctrl_succ g center).getD 0 0)).is_Root = true ∧
                ¬ (g.node ((ctrl_succ g center).getD 1 0)).is_Root = true
            · refine ⟨CheckResult.FAILED, check_all_failed _ center fun st => ?_, by simp, ?_⟩
              · simp only [ControlSuccessor.check, hCFG, hA1, hS, not_true_eq_false, if_false,
                  if_true, Bool.false_eq_true]
                rw [if_neg h12, if_pos h2, if_pos hroot]
                exact ⟨_, rfl, print_cr_dump_all_appended g st _ _⟩
              · intro _
                simp only [hA, if_false, if_true, reduceCtorEq, false_iff, not_or, not_and,
                  ne_eq, not_false_eq_true, implies_true, and_true]
                refine ⟨by omega, fun _ => ?_⟩
                exact fun h => (ctrl_succ_root_iff g center h2).mpr h hroot
            · refine ⟨CheckResult.VALID, check_all_valid _ center fun st => ?_, by simp, ?_⟩
              · simp only [ControlSuccessor.check, hCFG, hA1, hS, not_true_eq_false, if_false,
                  if_true, Bool.false_eq_true]
                rw [if_neg h12, if_pos h2, if_neg hroot]
              · intro _
                simp only [hA, if_false, if_true, true_iff, ne_eq, not_true_eq_false,
                  false_implies, and_true]
                exact Or.inr ⟨h2, (ctrl_succ_root_iff g center h2).mp hroot⟩
          · refine ⟨CheckResult.VALID, check_all_valid _ center fun st => ?_, by simp, ?_⟩
            · simp only [ControlSuccessor.check, hCFG, hA1, hS, not_true_eq_false, if_false,
                if_true, Bool.false_eq_true]
              rw [if_neg h12, if_neg h2]
            · intro _
              simp only [hA, if_false, if_true, true_iff, ne_eq, not_true_eq_false,
                false_implies, and_true]
              left; omega
      | false =>
        by_cases hC : (g.node center).is_Catch = true ∨ (g.node center).is_Jump = true
        · have hC1 : ((g.node center).is_Catch || (g.node center).is_Jump) = true := by
            rcases hC with h | h <;> simp [h]
          by_cases h1 : (ctrl_succ g center).length < 1
          · refine ⟨CheckResult.FAILED, check_all_failed _ center fun st => ?_, by simp, ?_⟩
            · simp only [ControlSuccessor.check, hCFG, hA1, hS, hC1, not_true_eq_false,
                if_false, if_true, Bool.false_eq_true]
              rw [if_pos h1]
              exact ⟨_, rfl, print_cr_appended st _⟩
            · intro _
              simp only [hA, hC, if_false, if_true, reduceCtorEq, false_iff, ne_eq,
                not_false_eq_true, implies_true, and_true, Bool.false_eq_true]
              omega
          · refine ⟨CheckResult.VALID, check_all_valid _ center fun st => ?_, by simp, ?_⟩
            · simp only [ControlSuccessor.check, hCFG, hA1, hS, hC1, not_true_eq_false,
                if_false, if_true, Bool.false_eq_true]
              rw [if_neg h1]
            · intro _
              simp only [hA, hC, if_false, if_true, true_iff, ne_eq, not_true_eq_false,
                false_implies, and_true, Bool.false_eq_true]
              omega
        · have hC1 : ((g.node center).is_Catch || (g.node center).is_Jump) = false := by
            simp only [not_or, Bool.not_eq_true] at hC
            obtain ⟨c1, c2⟩ := hC
            rw [c1, c2]; rfl
          by_cases h1 : (ctrl_succ g center).length = 1
          · refine ⟨CheckResult.VALID, check_all_valid _ center fun st => ?_, by simp, ?_⟩
            · simp only [ControlSuccessor.check, hCFG, hA1, hS, hC1, not_true_eq_false,
                if_false, if_true, Bool.false_eq_true]
              rw [if_neg (not_not.mpr h1)]
            · intro _
              simp only [hA, hC, if_false, if_true, true_iff, ne_eq, not_true_eq_false,
                false_implies, and_true, Bool.false_eq_true]
              exact h1
          · refine ⟨CheckResult.FAILED, check_all_failed _ center fun st => ?_, by simp, ?_⟩
            · simp only [ControlSuccessor.check, hCFG, hA1, hS, hC1, not_true_eq_false,
                if_false, if_true, Bool.false_eq_true]
              rw [if_pos h1]
              exact ⟨_, rfl, print_cr_dump_all_appended g st _ _⟩
            · intro _
              simp only [hA, hC, if_false, if_true, reduceCtorEq, false_iff, ne_eq,
                not_false_eq_true, implies_true, and_true, Bool.false_eq_true]
              exact h1

theorem CountedLoopInvariants_check_of_match (g : Graph) (center proj loop_end : Nat)
    (st : CheckState)
    (happ : ¬ (¬ (g.node center).is_CountedLoop = true ∧
      ¬ (g.node center).is_LongCountedLoop = true))
    (h1 : st.steps.length = st.path.length + 1) (h2 : st.steps.getLast? = some center)
    (hreq : (g.node center).req = 3)
    (hproj : (g.node center).in_ LoopNode.LoopBackControl = some proj)
    (hT : (g.node proj).is_IfTrue = true) (hpr : 1 ≤ (g.node proj).req)
    (hle : (g.node proj).in_ 0 = some loop_end)
    (hB : (g.node loop_end).is_BaseCountedLoopEnd = true) :
    CountedLoopInvariants.check g center st =
      if (g.node center).is_LongCountedLoop = true then
        if (g.node loop_end).is_CountedLoopEnd = true then
          some (CheckResult.FAILED, CheckState.print_cr
            ⟨st.steps, st.path, st.ss, st.binds.set Slot.counted_loop loop_end⟩
            "A CountedLoopEnd is the backedge of a LongCountedLoop.")
        else
          some (CheckResult.VALID,
            ⟨st.steps, st.path, st.ss, st.binds.set Slot.counted_loop loop_end⟩)
      else
        if (g.node loop_end).is_LongCountedLoopEnd = true then
          some (CheckResult.FAILED, CheckState.print_cr
            ⟨st.steps, st.path, st.ss, st.binds.set Slot.counted_loop loop_end⟩
            "A LongCountedLoopEnd is the backedge of a CountedLoop.")
        else
          some (CheckResult.VALID,
            ⟨st.steps, st.path, st.ss, st.binds.set Slot.counted_loop loop_end⟩) := by
  obtain ⟨b, hb, hiff⟩ := CountedLoopInvariants_pattern_holds g center
  have hbt : b = true := hiff.mpr ⟨hreq, proj, hproj, hT, hpr, loop_end, hle, hB⟩
  subst hbt
  obtain ⟨st1, hc, hs, hp, ht, -⟩ := PatternBasedCheck_of_spec g _ center _ _ hb st h1 h2
  obtain ⟨hss, hbd⟩ := ht rfl
  have hst1 : st1 = ⟨st.steps, st.path, st.ss, st.binds.set Slot.counted_loop loop_end⟩ := by
    cases st1
    simp only [CountedLoopInvariants.bound, hproj, Option.some_bind, hle, bind_at]
      at hs hp hss hbd
    simp [hs, hp, hss, hbd]
  subst hst1
  simp only [CountedLoopInvariants.check]
  rw [if_neg happ, hc]
  simp only [if_true, Bindings.set]

theorem CountedLoopInvariants_check_spec (g : Graph) (center : Nat) :
    ∃ r, CheckSpec (CountedLoopInvariants.check g) center r ∧
      (¬ ((g.node center).is_CountedLoop = true ∨ (g.node center).is_LongCountedLoop = true) →
        r = CheckResult.NOT_APPLICABLE) ∧
      (((g.node center).is_CountedLoop = true ∨ (g.node center).is_LongCountedLoop = true) →
        (r = CheckResult.VALID ↔
          (g.node center).req = 3 ∧
          ∃ proj, (g.node center).in_ LoopNode.LoopBackControl = some proj ∧
            (g.node proj).is_IfTrue = true ∧ 1 ≤ (g.node proj).req ∧
            ∃ loop_end, (g.node proj).in_ 0 = some loop_end ∧
              (g.node loop_end).is_BaseCountedLoopEnd = true ∧
              if (g.node center).is_LongCountedLoop = true then
                (g.node loop_end).is_CountedLoopEnd = false
              else (g.node loop_end).is_LongCountedLoopEnd = false) ∧
        (r ≠ CheckResult.VALID → r = CheckResult.FAILED)) := by
  by_cases happ : (g.node center).is_CountedLoop = true ∨
      (g.node center).is_LongCountedLoop = true
  · have hna : ¬ (¬ (g.node center).is_CountedLoop = true ∧
        ¬ (g.node center).is_LongCountedLoop = true) := by tauto
    by_cases hm : (g.node center).req = 3 ∧
        ∃ proj, (g.node center).in_ LoopNode.LoopBackControl = some proj ∧
          (g.node proj).is_IfTrue = true ∧ 1 ≤ (g.node proj).req ∧
          ∃ loop_end, (g.node proj).in_ 0 = some loop_end ∧
            (g.node loop_end).is_BaseCountedLoopEnd = true
    · obtain ⟨hreq, proj, hproj, hT, hpr, loop_end, hle, hB⟩ := hm
      have huniq : ∀ (P : Nat → Prop),
          ((g.node center).req = 3 ∧
            ∃ proj, (g.node center).in_ LoopNode.LoopBackControl = some proj ∧
              (g.node proj).is_IfTrue = true ∧ 1 ≤ (g.node proj).req ∧
              ∃ loop_end, (g.node proj).in_ 0 = some loop_end ∧
                (g.node loop_end).is_BaseCountedLoopEnd = true ∧ P loop_end) ↔ P loop_end := by
        intro P
        constructor
        · rintro ⟨-, proj1, hp1, -, -, le1, hl1, -, hP⟩
          rw [hproj] at hp1; cases hp1
          rw [hle] at hl1; cases hl1
          exact hP
        · intro hP
          exact ⟨hreq, proj, hproj, hT, hpr, loop_end, hle, hB, hP⟩
      rw [huniq (fun e => if (g.node center).is_LongCountedLoop = true then
        (g.node e).is_CountedLoopEnd = false else (g.node e).is_LongCountedLoopEnd = false)]
      have hchk := fun st h1 h2 => CountedLoopInvariants_check_of_match g center proj loop_end st
        hna h1 h2 hreq hproj hT hpr hle hB
      by_cases hbad : if (g.node center).is_LongCountedLoop = true then
          (g.node loop_end).is_CountedLoopEnd = false
          else (g.node loop_end).is_LongCountedLoopEnd = false
      · refine ⟨CheckResult.VALID, ?_, by simp [happ], fun _ => ⟨by simpa using hbad, by simp⟩⟩
        intro st h1 h2
        rw [hchk st h1 h2]
        split at hbad <;> rename_i hl
        · rw [if_pos hl, if_neg (by simp [hbad])]
          exact ⟨_, rfl, rfl, rfl, fun _ => rfl, by simp⟩
        · rw [if_neg hl, if_neg (by simp [hbad])]
          exact ⟨_, rfl, rfl, rfl, fun _ => rfl, by simp⟩
      · refine ⟨CheckResult.FAILED, ?_, by simp [happ], fun _ => ⟨by simpa using hbad, by simp⟩⟩
        intro st h1 h2
        rw [hchk st h1 h2]
        split at hbad <;> rename_i hl
        · rw [if_pos hl, if_pos (by simpa using hbad)]
          exact ⟨_, rfl, rfl, rfl, by simp, fun _ => (print_cr_appended _ _).2.2⟩
        · rw [if_neg hl, if_pos (by simpa using hbad)]
          exact ⟨_, rfl, rfl, rfl, by simp, fun _ => (print_cr_appended _ _).2.2⟩
    · obtain ⟨r, hr, hv, hf⟩ := check_spec_of_holds g _ center _ _
        (CountedLoopInvariants_pattern_holds g center)
      have hrf : r = CheckResult.FAILED := hf.mpr hm
      subst hrf
      refine ⟨CheckResult.FAILED, ?_, by simp [happ], fun _ => ⟨?_, by simp⟩⟩
      · intro st h1 h2
        obtain ⟨st1, hc, hrest⟩ := hr st h1 h2
        refine ⟨st1, ?_, hrest⟩
        simp only [CountedLoopInvariants.check]
        rw [if_neg hna, hc]
      · simp only [false_iff, reduceCtorEq]
        rintro ⟨hreq, proj, hproj, hT, hpr, loop_end, hle, hB, -⟩
        exact hm ⟨hreq, proj, hproj, hT, hpr, loop_end, hle, hB⟩
  · refine ⟨_, check_spec_not_applicable _ center fun st => ?_, by simp, by simp [happ]⟩
    have hna : ¬ (g.node center).is_CountedLoop = true ∧
        ¬ (g.node center).is_LongCountedLoop = true := by tauto
    simp only [CountedLoopInvariants.check]
    rw [if_pos hna]

theorem catalog_check_spec (g : Graph) (chk : LocalGraphInvariant) (center : Nat) :
    ∃ r, CheckSpec (chk.check g) center r := by
  cases chk with
  | IfProjections => exact (IfProjections_check_spec g center).imp fun _ h => h.1
  | PhiArity => exact (PhiArity_check_spec g center).imp fun _ h => h.1
  | ControlSuccessor =>
    exact (ControlSuccessor_check_spec g center).imp fun r h => check_spec_of_all _ center r h.1
  | RegionSelfLoop =>
    exact (RegionSelfLoop_check_spec g center).imp fun r h => check_spec_of_all _ center r h.1
  | CountedLoopInvariants =>
    exact (CountedLoopInvariants_check_spec g center).imp fun _ h => h.1
  | OuterStripMinedLoopInvariants => exact OuterStripMinedLoopInvariants_check_spec g center
  | MultiBranchNodeOut =>
    exact (MultiBranchNodeOut_check_spec g center).imp fun r h => check_spec_of_all _ center r h.1

/-! ## The traversal -/

theorem check_driver_result (g : Graph) (chk : LocalGraphInvariant) (center : Nat)
    (b : Bindings) :
    ∃ r st1, chk.check g center { steps := [center], path := [], ss := "", binds := b }
        = some (r, st1) ∧ chk.result g center = some r := by
  obtain ⟨r, hr⟩ := catalog_check_spec g chk center
  obtain ⟨st1, hc, -⟩ := hr { steps := [center], path := [], ss := "", binds := b } rfl rfl
  obtain ⟨st2, hc2, -⟩ := hr { steps := [center], path := [], ss := "", binds := {} } rfl rfl
  exact ⟨r, st1, hc, by simp [LocalGraphInvariant.result, hc2]⟩

theorem run_checks_spec (g : Graph) (center : Nat) (checks : List LocalGraphInvariant) :
    ∀ (st : RunState) (failures : Nat) (ss : String),
      ∃ st1 ss1, GraphInvariantChecker.run_checks g center checks st failures ss
          = some (st1, failures + failed_checks g checks center, ss1) ∧
        st1.visited = st.visited ∧ st1.worklist = st.worklist ∧ st1.success = st.success ∧
        st1.tty = st.tty ∧ st1.checked = st.checked := by
  induction checks with
  | nil =>
    intro st failures ss
    exact ⟨st, ss, by simp [GraphInvariantChecker.run_checks, failed_checks], rfl, rfl, rfl, rfl,
      rfl⟩
  | cons chk rest ih =>
    intro st failures ss
    obtain ⟨r, st1, hc, hres⟩ := check_driver_result g chk center st.binds
    by_cases hr : r = CheckResult.FAILED
    · subst hr
      obtain ⟨st2, ss2, h2, hv, hw, hs, ht, hk⟩ := ih
        { st with steps := st1.steps, path := st1.path, binds := st1.binds } (failures + 1)
        (ss ++ "# " ++ chk.name ++ ":" ++ "\n" ++ st1.ss ++ "\n")
      refine ⟨st2, ss2, ?_, hv, hw, hs, ht, hk⟩
      simp only [GraphInvariantChecker.run_checks, hc, h2, failed_checks, List.countP_cons, hres,
        decide_True, if_true]
      congr 3
      omega
    · obtain ⟨st2, ss2, h2, hv, hw, hs, ht, hk⟩ := ih
        { st with steps := st1.steps, path := st1.path, binds := st1.binds } failures ss
      refine ⟨st2, ss2, ?_, hv, hw, hs, ht, hk⟩
      have hne : ¬ (some r = some CheckResult.FAILED) := by simpa using hr
      simp only [failed_checks, List.countP_cons, hres, hne, decide_False, Bool.false_eq_true,
        if_false, Nat.add_zero]
      simp only [GraphInvariantChecker.run_checks, hc]
      cases r with
      | FAILED => exact absurd rfl hr
      | VALID => exact h2
      | NOT_APPLICABLE => exact h2

theorem mem_push_inputs (ins : List (Option Nat)) :
    ∀ (worklist : List Nat) (v : Nat),
      v ∈ push_inputs ins worklist ↔ some v ∈ ins ∨ v ∈ worklist := by
  induction ins with
  | nil => intro worklist v; simp [push_inputs]
  | cons a rest ih =>
    intro worklist v
    cases a with
    | none => simp [push_inputs, ih]
    | some w =>
      simp only [push_inputs, ih, List.mem_cons, Option.some.injEq]
      tauto

theorem length_push_inputs_le (ins : List (Option Nat)) :
    ∀ worklist : List Nat, (push_inputs ins worklist).length ≤ ins.length + worklist.length := by
  induction ins with
  | nil => intro worklist; simp [push_inputs]
  | cons a rest ih =>
    intro worklist
    cases a with
    | none =>
      have := ih worklist
      simp only [push_inputs, List.length_cons]
      omega
    | some w =>
      have := ih (w :: worklist)
      simp only [push_inputs, List.length_cons] at this ⊢
      omega

theorem run_body_visited (checks : List LocalGraphInvariant) (g : Graph) (st : RunState)
    (center : Nat) (rest : List Nat) (hw : st.worklist = center :: rest)
    (hv : center ∈ st.visited) :
    GraphInvariantChecker.run_body checks g st = some { st with worklist := rest } := by
  simp [GraphInvariantChecker.run_body, hw, hv]

theorem run_body_unvisited (checks : List LocalGraphInvariant) (g : Graph) (st : RunState)
    (center : Nat) (rest : List Nat) (hw : st.worklist = center :: rest)
    (hv : center ∉ st.visited) :
    ∃ st1, GraphInvariantChecker.run_body checks g st = some st1 ∧
      st1.visited = st.visited ++ [center] ∧
      st1.worklist = push_inputs (g.node center).ins rest ∧
      st1.checked = st.checked ++ [center] ∧
      st1.success = (st.success && decide (failed_checks g checks center = 0)) ∧
      (failed_checks g checks center = 0 → st1.tty = st.tty) ∧
      (0 < failed_checks g checks center → ∃ ss, st1.tty = st.tty ++
        GraphInvariantChecker.report g center (failed_checks g checks center) ss) := by
  obtain ⟨st1, ss1, hc, h1, h2, h3, h4, h5⟩ := run_checks_spec g center checks
    { st with
      worklist := push_inputs (g.node center).ins rest
      visited := st.visited ++ [center]
      checked := st.checked ++ [center] } 0 ""
  simp only [GraphInvariantChecker.run_body, hw, hv, if_false, hc, Nat.zero_add]
  by_cases hf : failed_checks g checks center = 0
  · rw [if_neg (by omega)]
    exact ⟨st1, rfl, h1, h2, h5, by simp [hf, h3], fun _ => h4, fun h => by omega⟩
  · have hpos : 0 < failed_checks g checks center := Nat.pos_of_ne_zero hf
    rw [if_pos hpos]
    exact ⟨_, rfl, h1, h2, h5, by simp [hf], fun h => absurd h hf,
      fun _ => ⟨ss1, by simp [h4]⟩⟩

theorem node_req_of_length_le (g : Graph) (n : Nat) (h : g.length ≤ n) : (g.node n).req = 0 := by
  simp [Graph.node, List.getElem?_eq_none h, Node.req]

theorem sum_filter_remove (f : Nat → Nat) (visited : List Nat) (c : Nat) (hc : c ∉ visited) :
    ∀ l : List Nat, l.Nodup →
      ((l.filter (fun i => decide (i ∉ visited ++ [c]))).map f).sum
          + (if c ∈ l then f c else 0)
        = ((l.filter (fun i => decide (i ∉ visited))).map f).sum := by
  intro l
  induction l with
  | nil => intro _; simp
  | cons a l ih =>
    intro hnd
    have hnd1 := List.nodup_cons.mp hnd
    have ih1 := ih hnd1.2
    by_cases hac : a = c
    · subst hac
      have e1 : l.filter (fun i => decide (i ∉ visited ++ [a]))
          = l.filter (fun i => decide (i ∉ visited)) := by
        apply List.filter_congr
        intro i hi
        have hia : i ≠ a := fun h => hnd1.1 (h ▸ hi)
        simp [hia]
      have pa1 : decide (a ∉ visited ++ [a]) = false := by simp
      have pa : decide (a ∉ visited) = true := by simp [hc]
      simp only [List.filter_cons, pa1, pa, e1, List.mem_cons, true_or, if_true, List.map_cons,
        List.sum_cons, Bool.false_eq_true, if_false]
      omega
    · have hca : ¬ c = a := fun h => hac h.symm
      have pa1 : decide (a ∉ visited ++ [c]) = decide (a ∉ visited) := by simp [hac]
      have hmem : (if c ∈ a :: l then f c else 0) = (if c ∈ l then f c else 0) := by
        simp [hca]
      rw [hmem]
      simp only [List.filter_cons, pa1]
      split
      · simp only [List.map_cons, List.sum_cons]
        omega
      · exact ih1

theorem unvisited_inputs_append (g : Graph) (visited : List Nat) (c : Nat) (hc : c ∉ visited) :
    unvisited_inputs g (visited ++ [c]) + (g.node c).req = unvisited_inputs g visited := by
  have h := sum_filter_remove (fun i => (g.node i).req) visited c hc (List.range g.length)
    (List.nodup_range _)
  unfold unvisited_inputs
  by_cases hlt : c < g.length
  · simpa [hlt] using h
  · have h0 := node_req_of_length_le g c (Nat.le_of_not_lt hlt)
    rw [h0]
    simpa [hlt] using h

theorem map_node_range (g : Graph) :
    (List.range g.length).map (fun i => (g.node i).req) = g.map Node.req := by
  apply List.ext_getElem
  · simp
  · intro i h1 h2
    simp only [List.length_map, List.length_range] at h1
    simp [Graph.node, List.getElem?_eq_getElem h1]

theorem potential_init (C : Compile) :
    potential C.nodes (GraphInvariantChecker.run_init C)
      = GraphInvariantChecker.max_iterations C := by
  simp [potential, unvisited_inputs, GraphInvariantChecker.run_init,
    GraphInvariantChecker.max_iterations, map_node_range, Nat.add_comm]

theorem run_body_decreases (checks : List LocalGraphInvariant) (g : Graph) (st : RunState)
    (hne : st.worklist ≠ []) :
    ∃ st1, GraphInvariantChecker.run_body checks g st = some st1 ∧
      potential g st1 < potential g st := by
  cases hw : st.worklist with
  | nil => exact absurd hw hne
  | cons c rest =>
    by_cases hv : c ∈ st.visited
    · refine ⟨_, run_body_visited checks g st c rest hw hv, ?_⟩
      simp [potential, hw]
    · obtain ⟨st1, hb, h1, h2, -⟩ := run_body_unvisited checks g st c rest hw hv
      refine ⟨st1, hb, ?_⟩
      have e1 := unvisited_inputs_append g st.visited c hv
      have e2 := length_push_inputs_le (g.node c).ins rest
      simp only [potential, h1, h2, hw, List.length_cons]
      simp only [Node.req] at e1
      omega

theorem run_loop_spec (checks : List LocalGraphInvariant) (g : Graph) (P : RunState → Prop)
    (hP : ∀ st st1, P st → st.worklist ≠ [] →
      GraphInvariantChecker.run_body checks g st = some st1 → P st1) :
    ∀ (fuel : Nat) (st : RunState), potential g st ≤ fuel → P st →
      ∃ st1, GraphInvariantChecker.run_loop checks g fuel st = some st1 ∧
        st1.worklist = [] ∧ P st1 := by
  intro fuel
  induction fuel with
  | zero =>
    intro st hpot hst
    have hw : st.worklist = [] := by
      simp only [potential] at hpot
      exact List.length_eq_zero.mp (by omega)
    exact ⟨st, rfl, hw, hst⟩
  | succ fuel ih =>
    intro st hpot hst
    by_cases hw : st.worklist = []
    · exact ⟨st, by simp [GraphInvariantChecker.run_loop, hw], hw, hst⟩
    · obtain ⟨st1, hb, hlt⟩ := run_body_decreases checks g st hw
      obtain ⟨st2, hl, hw2, hst2⟩ := ih st1 (by omega) (hP st st1 hst hw hb)
      have hpos : st.worklist.length > 0 := List.length_pos.mpr hw
      exact ⟨st2, by simp only [GraphInvariantChecker.run_loop, hpos, if_true, hb, hl], hw2, hst2⟩

theorem run_loop_more_fuel (checks : List LocalGraphInvariant) (g : Graph) :
    ∀ (fuel extra : Nat) (st st1 : RunState),
      GraphInvariantChecker.run_loop checks g fuel st = some st1 → st1.worklist = [] →
      GraphInvariantChecker.run_loop checks g (fuel + extra) st = some st1 := by
  intro fuel
  induction fuel with
  | zero =>
    intro extra st st1 h hw
    simp only [GraphInvariantChecker.run_loop, Option.some.injEq] at h
    subst h
    cases extra with
    | zero => rfl
    | succ e => simp [GraphInvariantChecker.run_loop, hw]
  | succ fuel ih =>
    intro extra st st1 h hw
    rw [Nat.add_right_comm]
    simp only [GraphInvariantChecker.run_loop] at h ⊢
    split
    · rename_i hpos
      rw [if_pos hpos] at h
      cases hb : GraphInvariantChecker.run_body checks g st with
      | none => simp [hb] at h
      | some st2 =>
        rw [hb] at h
        exact ih extra st2 st1 h hw
    · rename_i hpos
      rw [if_neg hpos] at h
      exact h

theorem traversal_inv_init (checks : List LocalGraphInvariant) (C : Compile) :
    TraversalInv checks C (GraphInvariantChecker.run_init C) := by
  refine ⟨by simp [GraphInvariantChecker.run_init], by simp [GraphInvariantChecker.run_init],
    ?_, by simp [GraphInvariantChecker.run_init], by simp [GraphInvariantChecker.run_init],
    rfl, by simp [GraphInvariantChecker.run_init]⟩
  intro v hv
  simp only [GraphInvariantChecker.run_init, List.mem_singleton] at hv
  subst hv
  exact Reachable.root

theorem traversal_inv_step (checks : List LocalGraphInvariant) (C : Compile)
    (st st1 : RunState) (hinv : TraversalInv checks C st) (hne : st.worklist ≠ [])
    (hb : GraphInvariantChecker.run_body checks C.nodes st = some st1) :
    TraversalInv checks C st1 := by
  obtain ⟨hnd, hvr, hwr, hroot, hclosed, hchk, hsucc⟩ := hinv
  cases hw : st.worklist with
  | nil => exact absurd hw hne
  | cons c rest =>
    rw [hw] at hwr hroot hclosed
    by_cases hv : c ∈ st.visited
    · rw [run_body_visited checks C.nodes st c rest hw hv] at hb
      cases hb
      refine ⟨hnd, hvr, fun v h => hwr v (List.mem_cons_of_mem _ h), ?_, ?_, hchk, hsucc⟩
      · rcases hroot with h | h
        · exact Or.inl h
        · rcases List.mem_cons.mp h with h | h
          · exact Or.inl (h ▸ hv)
          · exact Or.inr h
      · intro u hu v hin
        rcases hclosed u hu v hin with h | h
        · exact Or.inl h
        · rcases List.mem_cons.mp h with h | h
          · exact Or.inl (h ▸ hv)
          · exact Or.inr h
    · obtain ⟨st2, hb2, h1, h2, h3, h4, -⟩ := run_body_unvisited checks C.nodes st c rest hw hv
      rw [hb2] at hb
      cases hb
      have hcr : Reachable C c := hwr c (List.mem_cons_self _ _)
      refine ⟨?_, ?_, ?_, ?_, ?_, ?_, ?_⟩
      · rw [h1]
        exact List.Nodup.append hnd (List.nodup_singleton c) (by simpa using hv)
      · intro v hvm
        rw [h1] at hvm
        rcases List.mem_append.mp hvm with h | h
        · exact hvr v h
        · rw [List.mem_singleton.mp h]; exact hcr
      · intro v hvm
        rw [h2] at hvm
        rcases (mem_push_inputs _ _ _).mp hvm with h | h
        · exact Reachable.input c v hcr h
        · exact hwr v (List.mem_cons_of_mem _ h)
      · rw [h1, h2]
        rcases hroot with h | h
        · exact Or.inl (List.mem_append_left _ h)
        · rcases List.mem_cons.mp h with h | h
          · exact Or.inl (by simp [h])
          · exact Or.inr ((mem_push_inputs _ _ _).mpr (Or.inr h))
      · intro u hu v hin
        rw [h1] at hu ⊢
        rw [h2]
        rcases List.mem_append.mp hu with hu | hu
        · rcases hclosed u hu v hin with h | h
          · exact Or.inl (List.mem_append_left _ h)
          · rcases List.mem_cons.mp h with h | h
            · exact Or.inl (by simp [h])
            · exact Or.inr ((mem_push_inputs _ _ _).mpr (Or.inr h))
        · rw [List.mem_singleton.mp hu] at hin
          exact Or.inr ((mem_push_inputs _ _ _).mpr (Or.inl hin))
      · rw [h3, h1, hchk]
      · rw [h4, h1]
        simp only [Bool.and_eq_true, decide_eq_true_eq, hsucc, List.mem_append,
          List.mem_singleton]
        constructor
        · rintro ⟨ha, hcz⟩ v (h | h)
          · exact ha v h
          · rw [h]; exact hcz
        · intro h
          exact ⟨fun v hvm => h v (Or.inl hvm), h c (Or.inr rfl)⟩

theorem traversal_inv_closed (checks : List LocalGraphInvariant) (C : Compile) (st : RunState)
    (hinv : TraversalInv checks C st) (hw : st.worklist = []) (v : Nat) :
    v ∈ st.visited ↔ Reachable C v := by
  obtain ⟨-, hvr, -, hroot, hclosed, -, -⟩ := hinv
  rw [hw] at hroot hclosed
  constructor
  · exact hvr v
  · intro hr
    induction hr with
    | root => simpa using hroot
    | input n m _ hin ih => simpa using hclosed n ih m hin

theorem run_final_spec (checks : List LocalGraphInvariant) (C : Compile) :
    ∃ st, GraphInvariantChecker.run_final checks C = some st ∧
      GraphInvariantChecker.run_loop checks C.nodes (GraphInvariantChecker.max_iterations C)
        (GraphInvariantChecker.run_init C) = some st ∧
      st.worklist = [] ∧ TraversalInv checks C st := by
  obtain ⟨st, hl, hw, hinv⟩ := run_loop_spec checks C.nodes (TraversalInv checks C)
    (traversal_inv_step checks C) (GraphInvariantChecker.max_iterations C)
    (GraphInvariantChecker.run_init C) (Nat.le_of_eq (potential_init C))
    (traversal_inv_init checks C)
  exact ⟨st, by simp [GraphInvariantChecker.run_final, hl, hw], hl, hw, hinv⟩

theorem print_path_text (g : Graph) (center : Nat) (steps : List Nat) (path : List Int)
    (ss : String) (h1 : steps.length = path.length + 1) (h2 : steps.getLast? = some center)
    (msg : String) :
    ∃ p, print_path g center steps path ss = some p ∧
      ss ++ (path_text g center steps path ++ msg ++ "\n") = p ++ msg ++ "\n" :=
  ⟨_, print_path_eq g center steps path ss h1 h2, by simp [String.append_assoc]⟩

theorem contains_text_of_eq (text pre msg post : String) (h : text = pre ++ msg ++ post) :
    contains_text text msg :=
  ⟨pre.data, post.data, by rw [h]; simp⟩

theorem failed_checks_eq_zero_iff (g : Graph) (checks : List LocalGraphInvariant) (v : Nat) :
    failed_checks g checks v = 0 ↔
      ∀ chk ∈ checks, ∀ (b : Bindings) (r : CheckResult) (st1 : CheckState),
        chk.check g v { steps := [v], path := [], ss := "", binds := b } = some (r, st1) →
        r ≠ CheckResult.FAILED := by
  simp only [failed_checks, List.countP_eq_zero, decide_eq_true_eq]
  constructor
  · intro h chk hchk b r st1 hc hr
    obtain ⟨r0, st0, hc0, hres⟩ := check_driver_result g chk v b
    rw [hc] at hc0
    cases hc0
    exact h chk hchk (by rw [hres, hr])
  · intro h chk hchk hres
    obtain ⟨r0, st0, hc0, hres0⟩ := check_driver_result g chk v {}
    rw [hres] at hres0
    cases hres0
    exact h chk hchk {} _ st0 hc0 rfl

theorem run_eq_success (C : Compile) (st : RunState)
    (h : GraphInvariantChecker.run_final GraphInvariantChecker.make_default C = some st) :
    GraphInvariantChecker.run GraphInvariantChecker.make_default C = some st.success := by
  have he : GraphInvariantChecker.make_default.isEmpty = false := rfl
  simp only [GraphInvariantChecker.run, he, Bool.false_eq_true, if_false, h]

theorem fail_at_frame (g : Graph) (center : Nat) (st : CheckState) (msg : String) (b : Bool)
    (st1 : CheckState) (h : fail_at g center st msg = some (b, st1)) :
    b = false ∧ st1.steps = st.steps ∧ st1.path = st.path ∧ st1.binds = st.binds := by
  unfold fail_at at h
  split at h
  · simp at h
  · simp only [Option.some.injEq, Prod.mk.injEq] at h
    obtain ⟨hb, hs⟩ := h
    subst hs
    exact ⟨hb.symm, rfl, rfl, rfl⟩

mutual
theorem check_frame (g : Graph) : ∀ (p : Pattern) (center : Nat) (st : CheckState) (b : Bool)
    (st1 : CheckState), Pattern.check g p center st = some (b, st1) →
    st1.steps = st.steps ∧ st1.path = st.path
  | .True, center, st, b, st1, h => by
    simp only [Pattern.check, Option.some.injEq, Prod.mk.injEq] at h
    rw [← h.2]; exact ⟨rfl, rfl⟩
  | .Bind s, center, st, b, st1, h => by
    simp only [Pattern.check, Option.some.injEq, Prod.mk.injEq] at h
    rw [← h.2]; exact ⟨rfl, rfl⟩
  | .And ps, center, st, b, st1, h => by
    simp only [Pattern.check] at h
    exact check_list_frame g ps center st b st1 h
  | .HasExactlyNInputs n, center, st, b, st1, h => by
    simp only [Pattern.check] at h
    split at h
    · exact ⟨(fail_at_frame g center st _ b st1 h).2.1, (fail_at_frame g center st _ b st1 h).2.2.1⟩
    · simp only [Option.some.injEq, Prod.mk.injEq] at h
      rw [← h.2]; exact ⟨rfl, rfl⟩
  | .HasAtLeastNInputs n, center, st, b, st1, h => by
    simp only [Pattern.check] at h
    split at h
    · exact ⟨(fail_at_frame g center st _ b st1 h).2.1, (fail_at_frame g center st _ b st1 h).2.2.1⟩
    · simp only [Option.some.injEq, Prod.mk.injEq] at h
      rw [← h.2]; exact ⟨rfl, rfl⟩
  | .HasType tc, center, st, b, st1, h => by
    simp only [Pattern.check] at h
    split at h
    · exact ⟨(fail_at_frame g center st _ b st1 h).2.1, (fail_at_frame g center st _ b st1 h).2.2.1⟩
    · simp only [Option.some.injEq, Prod.mk.injEq] at h
      rw [← h.2]; exact ⟨rfl, rfl⟩
  | .HasNOutputs n, center, st, b, st1, h => by
    simp only [Pattern.check] at h
    split at h
    · exact ⟨(fail_at_frame g center st _ b st1 h).2.1, (fail_at_frame g center st _ b st1 h).2.2.1⟩
    · simp only [Option.some.injEq, Prod.mk.injEq] at h
      rw [← h.2]; exact ⟨rfl, rfl⟩
  | .AtInput k p, center, st, b, st1, h => by
    simp only [Pattern.check] at h
    split at h
    · simp at h
    · split at h
      · exact ⟨(fail_at_frame g center st _ b st1 h).2.1, (fail_at_frame g center st _ b st1 h).2.2.1⟩
      · rename_i input hin
        split at h
        · simp at h
        · rename_i result st2 hc
          have ih := check_frame g p input _ result st2 hc
          simp only [Option.some.injEq, Prod.mk.injEq] at h
          rw [← h.2]
          simp [ih.1, ih.2]
  | .AtSingleOutputOfType tc p, center, st, b, st1, h => by
    simp only [Pattern.check] at h
    split at h
    · rename_i out hout
      split at h
      · simp at h
      · rename_i result st2 hc
        have ih := check_frame g p out _ result st2 hc
        simp only [Option.some.injEq, Prod.mk.injEq] at h
        rw [← h.2]
        simp [ih.1, ih.2]
    · split at h
      · simp at h
      · rename_i result st2 hc
        have hf := fail_at_frame g center st _ result st2 hc
        simp only [Option.some.injEq, Prod.mk.injEq] at h
        rw [← h.2]
        exact ⟨hf.2.1, hf.2.2.1⟩
theorem check_list_frame (g : Graph) : ∀ (ps : List Pattern) (center : Nat) (st : CheckState)
    (b : Bool) (st1 : CheckState), Pattern.check_list g ps center st = some (b, st1) →
    st1.steps = st.steps ∧ st1.path = st.path
  | [], center, st, b, st1, h => by
    simp only [Pattern.check_list, Option.some.injEq, Prod.mk.injEq] at h
    rw [← h.2]; exact ⟨rfl, rfl⟩
  | p :: ps, center, st, b, st1, h => by
    simp only [Pattern.check_list] at h
    split at h
    · simp at h
    · rename_i st2 hc
      have ih := check_frame g p center st false st2 hc
      simp only [Option.some.injEq, Prod.mk.injEq] at h
      rw [← h.2]; exact ih
    · rename_i st2 hc
      have ih := check_frame g p center st true st2 hc
      have ih2 := check_list_frame g ps center st2 b st1 h
      exact ⟨ih2.1.trans ih.1, ih2.2.trans ih.2⟩
end

theorem fail_at_traced_drop (g : Graph) (center : Nat) (st : CheckState) (msg : String) :
    drop_events (fail_at_traced g center st msg) = fail_at g center st msg := by
  unfold fail_at_traced drop_events
  cases fail_at g center st msg <;> rfl

theorem drop_events_eq_some {α : Type} (r : Option (α × CheckState × List Event)) (a : α)
    (st1 : CheckState) (events : List Event) (h : r = some (a, st1, events)) :
    drop_events r = some (a, st1) := by
  rw [h]; rfl

theorem drop_events_eq_none {α : Type} (r : Option (α × CheckState × List Event))
    (h : r = none) : drop_events r = none := by
  rw [h]; rfl

mutual
theorem check_traced_drop (g : Graph) : ∀ (p : Pattern) (center : Nat) (st : CheckState),
    drop_events (Pattern.check_traced g p center st) = Pattern.check g p center st
  | .True, center, st => rfl
  | .Bind s, center, st => rfl
  | .And ps, center, st => by
    simp only [Pattern.check_traced, Pattern.check]
    exact check_list_traced_drop g ps center st
  | .HasExactlyNInputs n, center, st => by
    simp only [Pattern.check_traced, Pattern.check]
    split
    · exact fail_at_traced_drop g center st _
    · rfl
  | .HasAtLeastNInputs n, center, st => by
    simp only [Pattern.check_traced, Pattern.check]
    split
    · exact fail_at_traced_drop g center st _
    · rfl
  | .HasType tc, center, st => by
    simp only [Pattern.check_traced, Pattern.check]
    split
    · exact fail_at_traced_drop g center st _
    · rfl
  | .HasNOutputs n, center, st => by
    simp only [Pattern.check_traced, Pattern.check]
    split
    · exact fail_at_traced_drop g center st _
    · rfl
  | .AtInput k p, center, st => by
    simp only [Pattern.check_traced, Pattern.check]
    split
    · rfl
    · cases hin : (g.node center).in_ k with
      | none =>
        simp only []
        rw [← fail_at_traced_drop g center st]
        cases fail_at_traced g center st _ <;> rfl
      | some input =>
        simp only []
        rw [← check_traced_drop g p input]
        cases Pattern.check_traced g p input _ <;> rfl
  | .AtSingleOutputOfType tc p, center, st => by
    simp only [Pattern.check_traced, Pattern.check]
    generalize outputs_of_type g tc center = l
    rcases l with _ | ⟨a, _ | ⟨a2, l⟩⟩
    · simp only []
      rw [← fail_at_traced_drop g center st]
      cases fail_at_traced g center st _ <;> rfl
    · simp only []
      rw [← check_traced_drop g p a]
      cases Pattern.check_traced g p a _ <;> rfl
    · simp only []
      rw [← fail_at_traced_drop g center st]
      cases fail_at_traced g center st _ <;> rfl
theorem check_list_traced_drop (g : Graph) : ∀ (ps : List Pattern) (center : Nat)
    (st : CheckState),
    drop_events (Pattern.check_list_traced g ps center st) = Pattern.check_list g ps center st
  | [], center, st => rfl
  | p :: ps, center, st => by
    simp only [Pattern.check_list_traced, Pattern.check_list]
    rw [← check_traced_drop g p center st]
    cases h : Pattern.check_traced g p center st with
    | none => rfl
    | some r =>
      obtain ⟨b, st1, events⟩ := r
      cases b with
      | false => rfl
      | true =>
        simp only [drop_events, Option.map_some']
        rw [← check_list_traced_drop g ps center st1]
        cases Pattern.check_list_traced g ps center st1 <;> rfl
end

theorem print_path_asserts (g : Graph) (center : Nat) (steps : List Nat) (path : List Int)
    (ss p : String) (h : print_path g center steps path ss = some p) :
    steps.length = path.length + 1 ∧ steps.getLast? = some center := by
  unfold print_path at h
  split at h
  · simp at h
  · rename_i h1
    split at h
    · simp at h
    · rename_i h2
      exact ⟨not_not.mp h1, not_not.mp h2⟩

theorem fail_at_traced_events (g : Graph) (center : Nat) (st : CheckState) (msg : String)
    (b : Bool) (st1 : CheckState) (events : List Event)
    (h : fail_at_traced g center st msg = some (b, st1, events)) :
    ∀ e ∈ events, e.ok g st.steps.head? := by
  unfold fail_at_traced fail_at at h
  cases hp : print_path g center st.steps st.path st.ss with
  | none => simp [hp] at h
  | some p =>
    simp only [hp, Option.some.injEq, Prod.mk.injEq] at h
    obtain ⟨h1, h2⟩ := print_path_asserts g center st.steps st.path st.ss p hp
    intro e he
    rw [← h.2.2] at he
    simp only [List.mem_singleton] at he
    subst he
    exact ⟨h1, rfl, h2⟩

theorem head_push (steps : List Nat) (n : Nat) (h : steps ≠ []) :
    (steps ++ [n]).head? = steps.head? := by
  cases steps with
  | nil => exact absurd rfl h
  | cons a l => rfl

mutual
theorem check_traced_events (g : Graph) : ∀ (p : Pattern) (center : Nat) (st : CheckState)
    (b : Bool) (st1 : CheckState) (events : List Event),
    Pattern.check_traced g p center st = some (b, st1, events) → st.steps ≠ [] →
    ∀ e ∈ events, e.ok g st.steps.head?
  | .True, center, st, b, st1, events, h, _ => by
    simp only [Pattern.check_traced, Option.some.injEq, Prod.mk.injEq] at h
    rw [← h.2.2]; simp
  | .Bind s, center, st, b, st1, events, h, _ => by
    simp only [Pattern.check_traced, Option.some.injEq, Prod.mk.injEq] at h
    rw [← h.2.2]; simp
  | .And ps, center, st, b, st1, events, h, hne => by
    simp only [Pattern.check_traced] at h
    exact check_list_traced_events g ps center st b st1 events h hne
  | .HasExactlyNInputs n, center, st, b, st1, events, h, _ => by
    simp only [Pattern.check_traced] at h
    split at h
    · exact fail_at_traced_events g center st _ b st1 events h
    · simp only [Option.some.injEq, Prod.mk.injEq] at h
      rw [← h.2.2]; simp
  | .HasAtLeastNInputs n, center, st, b, st1, events, h, _ => by
    simp only [Pattern.check_traced] at h
    split at h
    · exact fail_at_traced_events g center st _ b st1 events h
    · simp only [Option.some.injEq, Prod.mk.injEq] at h
      rw [← h.2.2]; simp
  | .HasType tc, center, st, b, st1, events, h, _ => by
    simp only [Pattern.check_traced] at h
    split at h
    · exact fail_at_traced_events g center st _ b st1 events h
    · simp only [Option.some.injEq, Prod.mk.injEq] at h
      rw [← h.2.2]; simp
  | .HasNOutputs n, center, st, b, st1, events, h, _ => by
    simp only [Pattern.check_traced] at h
    split at h
    · exact fail_at_traced_events g center st _ b st1 events h
    · simp only [Option.some.injEq, Prod.mk.injEq] at h
      rw [← h.2.2]; simp
  | .AtInput k p, center, st, b, st1, events, h, hne => by
    simp only [Pattern.check_traced] at h
    split at h
    · simp at h
    · rename_i hk
      have hk1 : k < (g.node center).req := not_not.mp hk
      cases hin : (g.node center).in_ k with
      | none =>
        simp only [hin] at h
        cases hf : fail_at_traced g center st
            ("Input at index " ++ fmt_u k ++ " is nullptr.") with
        | none => simp [hf] at h
        | some r =>
          obtain ⟨b2, st2, ev2⟩ := r
          simp only [hf, Option.some.injEq, Prod.mk.injEq] at h
          intro e he
          rw [← h.2.2] at he
          rcases List.mem_cons.mp he with he | he
          · subst he; exact hk1
          · exact fail_at_traced_events g center st _ b2 st2 ev2 hf e he
      | some input =>
        simp only [hin] at h
        cases hc : Pattern.check_traced g p input
            { st with steps := st.steps ++ [input], path := st.path ++ [to_int k] } with
        | none => simp [hc] at h
        | some r =>
          obtain ⟨b2, st2, ev2⟩ := r
          simp only [hc, Option.some.injEq, Prod.mk.injEq] at h
          have ih := check_traced_events g p input _ b2 st2 ev2 hc (by simp)
          simp only [head_push st.steps input hne] at ih
          intro e he
          rw [← h.2.2] at he
          rcases List.mem_cons.mp he with he | he
          · subst he; exact hk1
          · exact ih e he
  | .AtSingleOutputOfType tc p, center, st, b, st1, events, h, hne => by
    simp only [Pattern.check_traced] at h
    generalize outputs_of_type g tc center = l at h
    rcases l with _ | ⟨a, _ | ⟨a2, l⟩⟩
    · simp only [] at h
      split at h
      · simp at h
      · rename_i b2 st2 ev2 hf
        simp only [Option.some.injEq, Prod.mk.injEq] at h
        rw [← h.2.2]
        exact fail_at_traced_events g center st _ b2 st2 ev2 hf
    · simp only [] at h
      cases hc : Pattern.check_traced g p a
          { st with steps := st.steps ++ [a], path := st.path ++ [OUTPUT_STEP] } with
      | none => simp [hc] at h
      | some r =>
        obtain ⟨b2, st2, ev2⟩ := r
        simp only [hc, Option.some.injEq, Prod.mk.injEq] at h
        have ih := check_traced_events g p a _ b2 st2 ev2 hc (by simp)
        simp only [head_push st.steps a hne] at ih
        rw [← h.2.2]
        exact ih
    · simp only [] at h
      split at h
      · simp at h
      · rename_i b2 st2 ev2 hf
        simp only [Option.some.injEq, Prod.mk.injEq] at h
        rw [← h.2.2]
        exact fail_at_traced_events g center st _ b2 st2 ev2 hf
theorem check_list_traced_events (g : Graph) : ∀ (ps : List Pattern) (center : Nat)
    (st : CheckState) (b : Bool) (st1 : CheckState) (events : List Event),
    Pattern.check_list_traced g ps center st = some (b, st1, events) → st.steps ≠ [] →
    ∀ e ∈ events, e.ok g st.steps.head?
  | [], center, st, b, st1, events, h, _ => by
    simp only [Pattern.check_list_traced, Option.some.injEq, Prod.mk.injEq] at h
    rw [← h.2.2]; simp
  | p :: ps, center, st, b, st1, events, h, hne => by
    simp only [Pattern.check_list_traced] at h
    cases hc : Pattern.check_traced g p center st with
    | none => simp [hc] at h
    | some r =>
      obtain ⟨b2, st2, ev2⟩ := r
      have ih := check_traced_events g p center st b2 st2 ev2 hc hne
      cases b2 with
      | false =>
        simp only [hc, Option.some.injEq, Prod.mk.injEq] at h
        rw [← h.2.2]; exact ih
      | true =>
        simp only [hc] at h
        cases hl : Pattern.check_list_traced g ps center st2 with
        | none => simp [hl] at h
        | some r2 =>
          obtain ⟨b3, st3, ev3⟩ := r2
          simp only [hl, Option.some.injEq, Prod.mk.injEq] at h
          have hfr := check_frame g p center st true st2
            (by rw [← check_traced_drop g p center st, hc]; rfl)
          have ih2 := check_list_traced_events g ps center st2 b3 st3 ev3 hl
            (by rw [hfr.1]; exact hne)
          rw [hfr.1] at ih2
          intro e he
          rw [← h.2.2] at he
          rcases List.mem_append.mp he with he | he
          · exact ih e he
          · exact ih2 e he
end

theorem PatternBasedCheck_traced_drop (g : Graph) (p : Pattern) (center : Nat)
    (st : CheckState) :
    drop_events (PatternBasedCheck.check_traced g p center st)
      = PatternBasedCheck.check g p center st := by
  unfold PatternBasedCheck.check_traced PatternBasedCheck.check
  rw [← check_traced_drop g p center st]
  cases Pattern.check_traced g p center st with
  | none => rfl
  | some r =>
    obtain ⟨b, st1, events⟩ := r
    cases b <;> rfl

theorem PatternBasedCheck_traced_some (g : Graph) (p : Pattern) (center : Nat)
    (st : CheckState) (r : CheckResult) (st1 : CheckState) (events : List Event)
    (h : PatternBasedCheck.check_traced g p center st = some (r, st1, events)) :
    ∃ b, Pattern.check_traced g p center st = some (b, st1, events) ∧
      r = (if b = true then CheckResult.VALID else CheckResult.FAILED) := by
  unfold PatternBasedCheck.check_traced at h
  cases hc : Pattern.check_traced g p center st with
  | none => simp [hc] at h
  | some x =>
    obtain ⟨b, st2, ev2⟩ := x
    cases b <;> simp only [hc, Option.some.injEq, Prod.mk.injEq] at h <;>
      exact ⟨_, by rw [h.2.1, h.2.2], by simp [h.1]⟩

theorem PatternBasedCheck_traced_events (g : Graph) (p : Pattern) (center : Nat)
    (st : CheckState) (r : CheckResult) (st1 : CheckState) (events : List Event)
    (h : PatternBasedCheck.check_traced g p center st = some (r, st1, events))
    (hne : st.steps ≠ []) :
    (∀ e ∈ events, e.ok g st.steps.head?) ∧ st1.steps = st.steps ∧ st1.path = st.path := by
  obtain ⟨b, hc, -⟩ := PatternBasedCheck_traced_some g p center st r st1 events h
  refine ⟨check_traced_events g p center st b st1 events hc hne, ?_⟩
  exact check_frame g p center st b st1 (by rw [← check_traced_drop g p center st, hc]; rfl)

theorem PhiArity_traced_drop (g : Graph) (center : Nat) (st : CheckState) :
    drop_events (PhiArity.check_traced g center st) = PhiArity.check g center st := by
  unfold PhiArity.check_traced PhiArity.check
  split
  · rfl
  · rw [← PatternBasedCheck_traced_drop g PhiArity.pattern center st]
    cases PatternBasedCheck.check_traced g PhiArity.pattern center st with
    | none => rfl
    | some x =>
      obtain ⟨r, st1, events⟩ := x
      cases r with
      | VALID =>
        simp only [drop_events, Option.map_some']
        cases st1.binds.region_node with
        | none => rfl
        | some region =>
          simp only []
          split
          · cases print_path g center st1.steps st1.path st1.ss <;> rfl
          · rfl
      | FAILED => rfl
      | NOT_APPLICABLE => rfl

theorem CountedLoopInvariants_traced_drop (g : Graph) (center : Nat) (st : CheckState) :
    drop_events (CountedLoopInvariants.check_traced g center st)
      = CountedLoopInvariants.check g center st := by
  unfold CountedLoopInvariants.check_traced CountedLoopInvariants.check
  split
  · rfl
  · simp only []
    rw [← PatternBasedCheck_traced_drop g CountedLoopInvariants.pattern center st]
    cases PatternBasedCheck.check_traced g CountedLoopInvariants.pattern center st with
    | none => rfl
    | some x =>
      obtain ⟨r, st1, events⟩ := x
      cases r with
      | VALID =>
        simp only [drop_events, Option.map_some']
        cases st1.binds.counted_loop with
        | none => rfl
        | some loop_end =>
          simp only []
          split <;> split <;> rfl
      | FAILED => rfl
      | NOT_APPLICABLE => rfl

theorem no_events_drop (r : Option (CheckResult × CheckState)) :
    drop_events (no_events r) = r := by
  cases r <;> rfl

theorem catalog_traced_drop (g : Graph) (chk : LocalGraphInvariant) (center : Nat)
    (st : CheckState) :
    drop_events (chk.check_traced g center st) = chk.check g center st := by
  cases chk with
  | IfProjections =>
    simp only [LocalGraphInvariant.check_traced, LocalGraphInvariant.check, IfProjections.check]
    split
    · rfl
    · exact PatternBasedCheck_traced_drop g _ center st
  | PhiArity => exact PhiArity_traced_drop g center st
  | ControlSuccessor => exact no_events_drop _
  | RegionSelfLoop => exact no_events_drop _
  | CountedLoopInvariants => exact CountedLoopInvariants_traced_drop g center st
  | OuterStripMinedLoopInvariants =>
    simp only [LocalGraphInvariant.check_traced, LocalGraphInvariant.check,
      OuterStripMinedLoopInvariants.check]
    split
    · rfl
    · exact PatternBasedCheck_traced_drop g _ center st
  | MultiBranchNodeOut => exact no_events_drop _

theorem no_events_some (r : Option (CheckResult × CheckState)) (x : CheckResult)
    (st1 : CheckState) (events : List Event) (h : no_events r = some (x, st1, events)) :
    events = [] := by
  cases r with
  | none => simp [no_events] at h
  | some y =>
    simp only [no_events, Option.map_some', Option.some.injEq, Prod.mk.injEq] at h
    exact h.2.2.symm

theorem catalog_traced_events (g : Graph) (chk : LocalGraphInvariant) (center : Nat)
    (st : CheckState) (r : CheckResult) (st1 : CheckState) (events : List Event)
    (h : chk.check_traced g center st = some (r, st1, events)) (hne : st.steps ≠ []) :
    ∀ e ∈ events, e.ok g st.steps.head? := by
  cases chk with
  | IfProjections =>
    simp only [LocalGraphInvariant.check_traced] at h
    split at h
    · simp only [Option.some.injEq, Prod.mk.injEq] at h
      rw [← h.2.2]; simp
    · exact (PatternBasedCheck_traced_events g _ center st r st1 events h hne).1
  | PhiArity =>
    simp only [LocalGraphInvariant.check_traced, PhiArity.check_traced] at h
    split at h
    · simp only [Option.some.injEq, Prod.mk.injEq] at h
      rw [← h.2.2]; simp
    · cases hc : PatternBasedCheck.check_traced g PhiArity.pattern center st with
      | none => simp [hc] at h
      | some x =>
        obtain ⟨r2, st2, ev2⟩ := x
        obtain ⟨hev, hs, hp⟩ := PatternBasedCheck_traced_events g _ center st r2 st2 ev2 hc hne
        cases r2 with
        | VALID =>
          simp only [hc] at h
          cases hb : st2.binds.region_node with
          | none => simp [hb] at h
          | some region =>
            simp only [hb] at h
            split at h
            · cases hpp : print_path g center st2.steps st2.path st2.ss with
              | none => simp [hpp] at h
              | some p =>
                simp only [hpp, Option.some.injEq, Prod.mk.injEq] at h
                obtain ⟨h1, h2⟩ := print_path_asserts g center st2.steps st2.path st2.ss p hpp
                intro e he
                rw [← h.2.2] at he
                rcases List.mem_append.mp he with he | he
                · exact hev e he
                · simp only [List.mem_singleton] at he
                  subst he
                  exact ⟨h1, by rw [hs], h2⟩
            · simp only [Option.some.injEq, Prod.mk.injEq] at h
              rw [← h.2.2]; exact hev
        | FAILED =>
          simp only [hc, Option.some.injEq, Prod.mk.injEq] at h
          rw [← h.2.2]; exact hev
        | NOT_APPLICABLE =>
          simp only [hc, Option.some.injEq, Prod.mk.injEq] at h
          rw [← h.2.2]; exact hev
  | ControlSuccessor =>
    rw [no_events_some _ r st1 events h]; simp
  | RegionSelfLoop =>
    rw [no_events_some _ r st1 events h]; simp
  | CountedLoopInvariants =>
    simp only [LocalGraphInvariant.check_traced, CountedLoopInvariants.check_traced] at h
    split at h
    · simp only [Option.some.injEq, Prod.mk.injEq] at h
      rw [← h.2.2]; simp
    · cases hc : PatternBasedCheck.check_traced g CountedLoopInvariants.pattern center st with
      | none => simp [hc] at h
      | some x =>
        obtain ⟨r2, st2, ev2⟩ := x
        obtain ⟨hev, -, -⟩ := PatternBasedCheck_traced_events g _ center st r2 st2 ev2 hc hne
        cases r2 with
        | VALID =>
          simp only [hc] at h
          cases hb : st2.binds.counted_loop with
          | none => simp [hb] at h
          | some loop_end =>
            simp only [hb] at h
            split at h <;> split at h <;>
              simp only [Option.some.injEq, Prod.mk.injEq] at h <;>
              (rw [← h.2.2]; exact hev)
        | FAILED =>
          simp only [hc, Option.some.injEq, Prod.mk.injEq] at h
          rw [← h.2.2]; exact hev
        | NOT_APPLICABLE =>
          simp only [hc, Option.some.injEq, Prod.mk.injEq] at h
          rw [← h.2.2]; exact hev
  | OuterStripMinedLoopInvariants =>
    simp only [LocalGraphInvariant.check_traced] at h
    split at h
    · simp only [Option.some.injEq, Prod.mk.injEq] at h
      rw [← h.2.2]; simp
    · exact (PatternBasedCheck_traced_events g _ center st r st1 events h hne).1
  | MultiBranchNodeOut =>
    rw [no_events_some _ r st1 events h]; simp

theorem traced_of_drop {α : Type} (x : Option (α × CheckState × List Event)) (a : α)
    (st1 : CheckState) (h : drop_events x = some (a, st1)) :
    ∃ events, x = some (a, st1, events) := by
  cases x with
  | none => simp [drop_events] at h
  | some y =>
    obtain ⟨a2, st2, ev2⟩ := y
    simp only [drop_events, Option.map_some', Option.some.injEq, Prod.mk.injEq] at h
    exact ⟨ev2, by rw [h.1, h.2]⟩

theorem fail_at_slots (g : Graph) (center : Nat) (st : CheckState) (msg : String)
    (b : Bindings) :
    (fail_at g center { st with binds := b } msg).map observe
      = (fail_at g center st msg).map observe := by
  unfold fail_at
  simp only []
  cases print_path g center st.steps st.path st.ss <;> rfl

theorem observe_eq {α : Type} (x y : Option (α × CheckState))
    (h : x.map observe = y.map observe) :
    (x = none ∧ y = none) ∨
      ∃ r s1 s2, x = some (r, s1) ∧ y = some (r, s2) ∧ s1 = { s2 with binds := s1.binds } := by
  cases x with
  | none =>
    cases y with
    | none => exact Or.inl ⟨rfl, rfl⟩
    | some b => simp at h
  | some a =>
    cases y with
    | none => simp at h
    | some b =>
      obtain ⟨r1, s1⟩ := a
      obtain ⟨r2, s2⟩ := b
      simp only [Option.map_some', observe, Option.some.injEq, Prod.mk.injEq] at h
      obtain ⟨hr, hs, hp, hss⟩ := h
      subst hr
      refine Or.inr ⟨r1, s1, s2, rfl, rfl, ?_⟩
      cases s1
      simp only at hs hp hss
      simp [hs, hp, hss]

mutual
theorem check_slots (g : Graph) : ∀ (p : Pattern) (center : Nat) (st : CheckState)
    (b : Bindings),
    (Pattern.check g p center { st with binds := b }).map observe
      = (Pattern.check g p center st).map observe
  | .True, center, st, b => rfl
  | .Bind s, center, st, b => rfl
  | .And ps, center, st, b => by
    simp only [Pattern.check]
    exact check_list_slots g ps center st b
  | .HasExactlyNInputs n, center, st, b => by
    simp only [Pattern.check]
    split
    · exact fail_at_slots g center st _ b
    · rfl
  | .HasAtLeastNInputs n, center, st, b => by
    simp only [Pattern.check]
    split
    · exact fail_at_slots g center st _ b
    · rfl
  | .HasType tc, center, st, b => by
    simp only [Pattern.check]
    split
    · exact fail_at_slots g center st _ b
    · rfl
  | .HasNOutputs n, center, st, b => by
    simp only [Pattern.check]
    split
    · exact fail_at_slots g center st _ b
    · rfl
  | .AtInput k p, center, st, b => by
    simp only [Pattern.check]
    split
    · rfl
    · cases hin : (g.node center).in_ k with
      | none =>
        simp only []
        exact fail_at_slots g center st _ b
      | some input =>
        simp only []
        have ih := check_slots g p input
          { st with steps := st.steps ++ [input], path := st.path ++ [to_int k] } b
        rcases observe_eq _ _ ih with ⟨e1, e2⟩ | ⟨r, s1, s2, e1, e2, e3⟩
        · rw [e2]
          simp only [] at e1
          rw [e1]
        · rw [e2]
          simp only [] at e1
          rw [e1, e3]
          rfl
  | .AtSingleOutputOfType tc p, center, st, b => by
    simp only [Pattern.check]
    generalize outputs_of_type g tc center = l
    rcases l with _ | ⟨a, _ | ⟨a2, l⟩⟩
    · simp only []
      rcases observe_eq _ _ (fail_at_slots g center st
          ("Non-unique output of expected type. Found: " ++ fmt_u ([] : List Nat).length ++ ".")
          b) with ⟨e1, e2⟩ | ⟨r, s1, s2, e1, e2, e3⟩
      · rw [e1, e2]
      · rw [e1, e2, e3]; rfl
    · simp only []
      have ih := check_slots g p a
        { st with steps := st.steps ++ [a], path := st.path ++ [OUTPUT_STEP] } b
      rcases observe_eq _ _ ih with ⟨e1, e2⟩ | ⟨r, s1, s2, e1, e2, e3⟩
      · rw [e2]
        simp only [] at e1
        rw [e1]
      · rw [e2]
        simp only [] at e1
        rw [e1, e3]
        rfl
    · simp only []
      rcases observe_eq _ _ (fail_at_slots g center st
          ("Non-unique output of expected type. Found: " ++ fmt_u (a :: a2 :: l).length ++ ".")
          b) with ⟨e1, e2⟩ | ⟨r, s1, s2, e1, e2, e3⟩
      · rw [e1, e2]
      · rw [e1, e2, e3]; rfl
theorem check_list_slots (g : Graph) : ∀ (ps : List Pattern) (center : Nat) (st : CheckState)
    (b : Bindings),
    (Pattern.check_list g ps center { st with binds := b }).map observe
      = (Pattern.check_list g ps center st).map observe
  | [], center, st, b => rfl
  | p :: ps, center, st, b => by
    simp only [Pattern.check_list]
    rcases observe_eq _ _ (check_slots g p center st b) with
      ⟨e1, e2⟩ | ⟨r, s1, s2, e1, e2, e3⟩
    · rw [e1, e2]
    · rw [e1, e2]
      cases r with
      | false => simp only [Option.map_some', observe]; rw [e3]
      | true =>
        simp only []
        rw [e3]
        exact check_list_slots g ps center s2 s1.binds
end

theorem PatternBasedCheck_slots (g : Graph) (p : Pattern) (center : Nat) (st : CheckState)
    (b : Bindings) :
    (PatternBasedCheck.check g p center { st with binds := b }).map observe
      = (PatternBasedCheck.check g p center st).map observe := by
  unfold PatternBasedCheck.check
  rcases observe_eq _ _ (check_slots g p center st b) with ⟨e1, e2⟩ | ⟨r, s1, s2, e1, e2, e3⟩
  · rw [e1, e2]
  · rw [e1, e2]
    cases r <;> simp only [Option.map_some', observe] <;> rw [e3]

theorem ControlSuccessor_slots (g : Graph) (center : Nat) (st : CheckState) (b : Bindings) :
    (ControlSuccessor.check g center { st with binds := b }).map observe
      = (ControlSuccessor.check g center st).map observe := by
  simp only [ControlSuccessor.check]
  split_ifs <;> rfl

theorem RegionSelfLoop_slots (g : Graph) (center : Nat) (st : CheckState) (b : Bindings) :
    (RegionSelfLoop.check g center { st with binds := b }).map observe
      = (RegionSelfLoop.check g center st).map observe := by
  simp only [RegionSelfLoop.check]
  split_ifs <;> rfl

theorem MultiBranchNodeOut_slots (g : Graph) (center : Nat) (st : CheckState) (b : Bindings) :
    (MultiBranchNodeOut.check g center { st with binds := b }).map observe
      = (MultiBranchNodeOut.check g center st).map observe := by
  simp only [MultiBranchNodeOut.check]
  split_ifs <;> rfl

theorem PhiArity_slots (g : Graph) (center : Nat) (st : CheckState) (b : Bindings)
    (h1 : st.steps.length = st.path.length + 1) (h2 : st.steps.getLast? = some center) :
    (PhiArity.check g center { st with binds := b }).map observe
      = (PhiArity.check g center st).map observe := by
  cases hPhi : (g.node center).is_Phi with
  | false => simp [PhiArity.check, hPhi, observe]
  | true =>
    by_cases hm : 1 ≤ (g.node center).req ∧
        ∃ region, (g.node center).in_ 0 = some region ∧ (g.node region).is_Region = true
    · obtain ⟨hreq, region, hin, hR⟩ := hm
      rw [PhiArity_check_of_match g center region st hPhi h1 h2 hreq hin hR,
        PhiArity_check_of_match g center region { st with binds := b } hPhi h1 h2 hreq hin hR]
      split <;> rfl
    · obtain ⟨bb, hb, hiff⟩ := PhiArity_pattern_holds g center
      have hbf : bb = false := by
        cases bb with
        | false => rfl
        | true => exact absurd (hiff.mp rfl) hm
      subst hbf
      have key : ∀ s : CheckState, s.steps.length = s.path.length + 1 →
          s.steps.getLast? = some center →
          PhiArity.check g center s = PatternBasedCheck.check g PhiArity.pattern center s := by
        intro s hs1 hs2
        obtain ⟨s1, hc, -⟩ := PatternBasedCheck_of_spec g _ center _ _ hb s hs1 hs2
        simp only [PhiArity.check, hPhi, not_true_eq_false, if_false, hc]
        rfl
      rw [key st h1 h2, key { st with binds := b } h1 h2]
      exact PatternBasedCheck_slots g _ center st b

theorem CountedLoopInvariants_slots (g : Graph) (center : Nat) (st : CheckState)
    (b : Bindings)
    (h1 : st.steps.length = st.path.length + 1) (h2 : st.steps.getLast? = some center) :
    (CountedLoopInvariants.check g center { st with binds := b }).map observe
      = (CountedLoopInvariants.check g center st).map observe := by
  by_cases hna : ¬ (g.node center).is_CountedLoop = true ∧
      ¬ (g.node center).is_LongCountedLoop = true
  · simp only [CountedLoopInvariants.check]
    rw [if_pos hna, if_pos hna]
    rfl
  · by_cases hm : (g.node center).req = 3 ∧
        ∃ proj, (g.node center).in_ LoopNode.LoopBackControl = some proj ∧
          (g.node proj).is_IfTrue = true ∧ 1 ≤ (g.node proj).req ∧
          ∃ loop_end, (g.node proj).in_ 0 = some loop_end ∧
            (g.node loop_end).is_BaseCountedLoopEnd = true
    · obtain ⟨hreq, proj, hproj, hT, hpr, loop_end, hle, hB⟩ := hm
      rw [CountedLoopInvariants_check_of_match g center proj loop_end st hna h1 h2 hreq hproj
          hT hpr hle hB,
        CountedLoopInvariants_check_of_match g center proj loop_end { st with binds := b } hna
          h1 h2 hreq hproj hT hpr hle hB]
      split <;> split <;> rfl
    · obtain ⟨bb, hb, hiff⟩ := CountedLoopInvariants_pattern_holds g center
      have hbf : bb = false := by
        cases bb with
        | false => rfl
        | true => exact absurd (hiff.mp rfl) hm
      subst hbf
      have key : ∀ s : CheckState, s.steps.length = s.path.length + 1 →
          s.steps.getLast? = some center →
          CountedLoopInvariants.check g center s
            = PatternBasedCheck.check g CountedLoopInvariants.pattern center s := by
        intro s hs1 hs2
        obtain ⟨s1, hc, -⟩ := PatternBasedCheck_of_spec g _ center _ _ hb s hs1 hs2
        simp only [CountedLoopInvariants.check]
        rw [if_neg hna, hc]
        rfl
      rw [key st h1 h2, key { st with binds := b } h1 h2]
      exact PatternBasedCheck_slots g _ center st b

theorem catalog_slots (g : Graph) (chk : LocalGraphInvariant) (center : Nat) (st : CheckState)
    (b : Bindings)
    (h1 : st.steps.length = st.path.length + 1) (h2 : st.steps.getLast? = some center) :
    (chk.check g center { st with binds := b }).map observe
      = (chk.check g center st).map observe := by
  cases chk with
  | IfProjections =>
    simp only [LocalGraphInvariant.check, IfProjections.check]
    split
    · rfl
    · exact PatternBasedCheck_slots g _ center st b
  | PhiArity => exact PhiArity_slots g center st b h1 h2
  | ControlSuccessor => exact ControlSuccessor_slots g center st b
  | RegionSelfLoop => exact RegionSelfLoop_slots g center st b
  | CountedLoopInvariants => exact CountedLoopInvariants_slots g center st b h1 h2
  | OuterStripMinedLoopInvariants =>
    simp only [LocalGraphInvariant.check, OuterStripMinedLoopInvariants.check]
    split
    · rfl
    · exact PatternBasedCheck_slots g _ center st b
  | MultiBranchNodeOut => exact MultiBranchNodeOut_slots g center st b

theorem catalog_same_result (g : Graph) (chk : LocalGraphInvariant) (center : Nat)
    (b1 b2 : Bindings) :
    ∃ r s1 s2,
      chk.check g center { steps := [center], path := [], ss := "", binds := b1 }
        = some (r, s1) ∧
      chk.check g center { steps := [center], path := [], ss := "", binds := b2 }
        = some (r, s2) ∧
      s1.ss = s2.ss ∧ chk.result g center = some r := by
  obtain ⟨r, s2, hc2, hres⟩ := check_driver_result g chk center b2
  have h := catalog_slots g chk center
    { steps := [center], path := [], ss := "", binds := b2 } b1 rfl rfl
  rcases observe_eq _ _ h with ⟨-, e2⟩ | ⟨r1, s1, s3, e1, e2, e3⟩
  · rw [hc2] at e2
    cases e2
  · rw [hc2] at e2
    cases e2
    exact ⟨r, s1, s2, e1, hc2, by rw [e3], hres⟩

theorem run_checks_same_output (g : Graph) (center : Nat) (checks : List LocalGraphInvariant) :
    ∀ (st st1 : RunState) (failures : Nat) (ss : String), st.same_output st1 →
      ∃ (st2 st3 : RunState) (failures1 : Nat) (ss1 : String),
        GraphInvariantChecker.run_checks g center checks st failures ss
          = some (st2, failures1, ss1) ∧
        GraphInvariantChecker.run_checks g center checks st1 failures ss
          = some (st3, failures1, ss1) ∧
        st2.same_output st3 := by
  induction checks with
  | nil =>
    intro st st1 failures ss h
    exact ⟨st, st1, failures, ss, rfl, rfl, h⟩
  | cons chk rest ih =>
    intro st st1 failures ss h
    obtain ⟨r, s1, s2, hc1, hc2, hss, -⟩ := catalog_same_result g chk center st.binds st1.binds
    obtain ⟨hv, hw, hsu, ht, hck⟩ := h
    cases r with
    | FAILED =>
      obtain ⟨st2, st3, f1, ss1, e1, e2, e3⟩ := ih
        { st with steps := s1.steps, path := s1.path, binds := s1.binds }
        { st1 with steps := s2.steps, path := s2.path, binds := s2.binds } (failures + 1)
        (ss ++ "# " ++ chk.name ++ ":" ++ "\n" ++ s1.ss ++ "\n") ⟨hv, hw, hsu, ht, hck⟩
      refine ⟨st2, st3, f1, ss1, ?_, ?_, e3⟩
      · simp only [GraphInvariantChecker.run_checks, hc1]
        exact e1
      · simp only [GraphInvariantChecker.run_checks, hc2]
        rw [← hss]
        exact e2
    | VALID =>
      obtain ⟨st2, st3, f1, ss1, e1, e2, e3⟩ := ih
        { st with steps := s1.steps, path := s1.path, binds := s1.binds }
        { st1 with steps := s2.steps, path := s2.path, binds := s2.binds } failures ss
        ⟨hv, hw, hsu, ht, hck⟩
      refine ⟨st2, st3, f1, ss1, ?_, ?_, e3⟩
      · simp only [GraphInvariantChecker.run_checks, hc1]
        exact e1
      · simp only [GraphInvariantChecker.run_checks, hc2]
        exact e2
    | NOT_APPLICABLE =>
      obtain ⟨st2, st3, f1, ss1, e1, e2, e3⟩ := ih
        { st with steps := s1.steps, path := s1.path, binds := s1.binds }
        { st1 with steps := s2.steps, path := s2.path, binds := s2.binds } failures ss
        ⟨hv, hw, hsu, ht, hck⟩
      refine ⟨st2, st3, f1, ss1, ?_, ?_, e3⟩
      · simp only [GraphInvariantChecker.run_checks, hc1]
        exact e1
      · simp only [GraphInvariantChecker.run_checks, hc2]
        exact e2

theorem run_body_same_output (checks : List LocalGraphInvariant) (g : Graph)
    (st st1 : RunState) (h : st.same_output st1) :
    ∃ st2 st3, GraphInvariantChecker.run_body checks g st = some st2 ∧
      GraphInvariantChecker.run_body checks g st1 = some st3 ∧ st2.same_output st3 := by
  obtain ⟨hv, hw, hsu, ht, hck⟩ := h
  cases hwl : st.worklist with
  | nil =>
    refine ⟨st, st1, ?_, ?_, hv, hw, hsu, ht, hck⟩
    · simp [GraphInvariantChecker.run_body, hwl]
    · simp [GraphInvariantChecker.run_body, ← hw, hwl]
  | cons center rest =>
    have hwl1 : st1.worklist = center :: rest := by rw [← hw, hwl]
    by_cases hvis : center ∈ st.visited
    · refine ⟨_, _, run_body_visited checks g st center rest hwl hvis,
        run_body_visited checks g st1 center rest hwl1 (hv ▸ hvis), hv, rfl, hsu, ht, hck⟩
    · have hvis1 : center ∉ st1.visited := hv ▸ hvis
      obtain ⟨st2, st3, f1, ss1, e1, e2, e3⟩ := run_checks_same_output g center checks
        { st with
          worklist := push_inputs (g.node center).ins rest
          visited := st.visited ++ [center]
          checked := st.checked ++ [center] }
        { st1 with
          worklist := push_inputs (g.node center).ins rest
          visited := st1.visited ++ [center]
          checked := st1.checked ++ [center] } 0 ""
        ⟨by simp [hv], rfl, hsu, ht, by simp [hck]⟩
      obtain ⟨h1, h2, h3, h4, h5⟩ := e3
      simp only [GraphInvariantChecker.run_body, hwl, hwl1, hvis, hvis1, if_false, e1, e2]
      split
      · exact ⟨_, _, rfl, rfl, h1, h2, rfl, by simp [h4], h5⟩
      · exact ⟨_, _, rfl, rfl, h1, h2, h3, h4, h5⟩

theorem run_loop_same_output (checks : List LocalGraphInvariant) (g : Graph) :
    ∀ (fuel : Nat) (st st1 : RunState), st.same_output st1 →
      ∃ st2 st3, GraphInvariantChecker.run_loop checks g fuel st = some st2 ∧
        GraphInvariantChecker.run_loop checks g fuel st1 = some st3 ∧ st2.same_output st3 := by
  intro fuel
  induction fuel with
  | zero =>
    intro st st1 h
    exact ⟨st, st1, rfl, rfl, h⟩
  | succ fuel ih =>
    intro st st1 h
    obtain ⟨st2, st3, e1, e2, e3⟩ := run_body_same_output checks g st st1 h
    obtain ⟨st4, st5, e4, e5, e6⟩ := ih st2 st3 e3
    have hw := h.2.1
    simp only [GraphInvariantChecker.run_loop, ← hw]
    split
    · exact ⟨st4, st5, by simp only [e1, e4], by simp only [e2, e5], e6⟩
    · exact ⟨st, st1, rfl, rfl, h⟩

theorem join_concat (l : List String) (s : String) :
    String.join (l ++ [s]) = String.join l ++ s := by
  simp [String.join, List.foldl_append]

theorem join_empty (l : List String) (h : ∀ s ∈ l, s = "") : String.join l = "" := by
  induction l using List.reverseRecOn with
  | nil => rfl
  | append_singleton l s ih =>
    rw [join_concat, ih (fun x hx => h x (List.mem_append_left _ hx)),
      h s (List.mem_append_right _ (List.mem_singleton_self s))]
    rfl

theorem in_some_lt_req (n : Node) (i m : Nat) (h : n.in_ i = some m) : i < n.req := by
  unfold Node.in_ at h
  unfold Node.req
  by_contra hlt
  rw [List.getD_eq_default _ _ (Nat.le_of_not_lt hlt)] at h
  simp at h

theorem check_list_true_iff (g : Graph) (center : Nat) (ps : List Pattern) :
    ∀ st st1, Pattern.check_list g ps center st = some (true, st1) ↔
      AllTrue g center ps st st1 := by
  induction ps with
  | nil =>
    intro st st1
    simp only [Pattern.check_list, Option.some.injEq, Prod.mk.injEq, true_and]
    constructor
    · intro h; subst h; exact AllTrue.nil st
    · intro h; cases h; rfl
  | cons p ps ih =>
    intro st st1
    constructor
    · intro h
      simp only [Pattern.check_list] at h
      split at h
      · simp at h
      · simp at h
      · rename_i st2 hc
        exact AllTrue.cons p ps st st2 st1 hc ((ih st2 st1).mp h)
    · intro h
      cases h with
      | cons _ _ _ st2 _ hc hrest =>
        simp only [Pattern.check_list, hc]
        exact (ih st2 st1).mpr hrest

theorem check_list_false_iff (g : Graph) (center : Nat) (ps : List Pattern) :
    ∀ st st1, Pattern.check_list g ps center st = some (false, st1) ↔
      ∃ pre p post st0, ps = pre ++ p :: post ∧ AllTrue g center pre st st0 ∧
        Pattern.check g p center st0 = some (false, st1) := by
  induction ps with
  | nil =>
    intro st st1
    simp [Pattern.check_list]
  | cons q ps ih =>
    intro st st1
    constructor
    · intro h
      simp only [Pattern.check_list] at h
      split at h
      · simp at h
      · rename_i st2 hc
        simp only [Option.some.injEq, Prod.mk.injEq, true_and] at h
        subst h
        exact ⟨[], q, ps, st, rfl, AllTrue.nil st, hc⟩
      · rename_i st2 hc
        obtain ⟨pre, p, post, st0, hps, hall, hp⟩ := (ih st2 st1).mp h
        exact ⟨q :: pre, p, post, st0, by rw [hps]; rfl, AllTrue.cons q pre st st2 st0 hc hall, hp⟩
    · rintro ⟨pre, p, post, st0, hps, hall, hp⟩
      cases pre with
      | nil =>
        simp only [List.nil_append, List.cons.injEq] at hps
        obtain ⟨rfl, rfl⟩ := hps
        cases hall
        simp only [Pattern.check_list, hp]
      | cons q2 pre =>
        simp only [List.cons_append, List.cons.injEq] at hps
        obtain ⟨rfl, rfl⟩ := hps
        cases hall with
        | cons _ _ _ st2 _ hc hrest =>
          simp only [Pattern.check_list, hc]
          exact (ih st2 st1).mpr ⟨pre, p, post, st0, rfl, hrest, hp⟩

theorem pattern_total_of_holds (g : Graph) (p : Pattern) (center : Nat) (φ : Prop)
    (f : Bindings → Bindings) (h : PatternHolds g p center φ f) (st : CheckState)
    (h1 : st.steps.length = st.path.length + 1) (h2 : st.steps.getLast? = some center) :
    ∃ b st1 events, Pattern.check_traced g p center st = some (b, st1, events) ∧
      Pattern.check g p center st = some (b, st1) ∧
      ∀ e ∈ events, e.ok g st.steps.head? := by
  obtain ⟨b, hb, -⟩ := h
  obtain ⟨st1, hc, -⟩ := hb st h1 h2
  obtain ⟨events, ht⟩ := traced_of_drop _ b st1 ((check_traced_drop g p center st).trans hc)
  have hne : st.steps ≠ [] := by
    intro h0
    rw [h0] at h1
    simp at h1
  exact ⟨b, st1, events, ht, hc, check_traced_events g p center st b st1 events ht hne⟩

theorem PatternBasedCheck_valid_slots (g : Graph) (p : Pattern) (center : Nat) (φ : Prop)
    (f : Bindings → Bindings) (h : PatternHolds g p center φ f) (st st1 : CheckState)
    (h1 : st.steps.length = st.path.length + 1) (h2 : st.steps.getLast? = some center)
    (hc : PatternBasedCheck.check g p center st = some (CheckResult.VALID, st1)) :
    φ ∧ st1.binds = f st.binds := by
  obtain ⟨b, hb, hiff⟩ := h
  obtain ⟨st2, hc2, -, -, ht, -⟩ := PatternBasedCheck_of_spec g p center b f hb st h1 h2
  rw [hc] at hc2
  cases b with
  | false => simp at hc2
  | true =>
    simp only [if_true, Option.some.injEq, Prod.mk.injEq, true_and] at hc2
    subst hc2
    exact ⟨hiff.mp rfl, (ht rfl).2⟩

theorem failed_checks_eq_countP (g : Graph) (checks : List LocalGraphInvariant) (v : Nat)
    (b : Bindings) :
    failed_checks g checks v = checks.countP (fun chk =>
      decide ((chk.check g v { steps := [v], path := [], ss := "", binds := b }).map Prod.fst
        = some CheckResult.FAILED)) := by
  unfold failed_checks
  apply List.countP_congr
  intro chk _
  obtain ⟨r, s1, s2, hc1, -, -, hres⟩ := catalog_same_result g chk v b b
  simp [hres, hc1]

theorem to_int_small (n : Nat) (h : n < 2 ^ 31) : to_int n = (n : Int) := by
  have h2 : n % 2 ^ 32 = n := Nat.mod_eq_of_lt (by omega)
  unfold to_int
  rw [h2, if_pos h]

theorem failed_checks_le (g : Graph) (checks : List LocalGraphInvariant) (v : Nat) :
    failed_checks g checks v ≤ checks.length :=
  List.countP_le_length _

theorem appended_none (s : String) : Appended s s false :=
  ⟨"", by simp, by simp, fun _ => rfl⟩

theorem appended_eq (s s1 : String) (h : Appended s s1 false) : s1 = s := by
  obtain ⟨t, ht, -, h0⟩ := h
  rw [ht, h0 rfl]
  simp

theorem appended_text (s t : String) (h : 0 < t.length) : Appended s (s ++ t) true :=
  ⟨t, rfl, fun _ => h, by simp⟩

theorem appended_more (s s1 u : String) (h : Appended s s1 true) : Appended s (s1 ++ u) true := by
  obtain ⟨t, ht, hpos, -⟩ := h
  refine ⟨t ++ u, by rw [ht, String.append_assoc], fun _ => ?_, by simp⟩
  rw [String.length_append]
  exact Nat.lt_of_lt_of_le (hpos rfl) (Nat.le_add_right _ _)

theorem appended_path_msg (s pt msg : String) : Appended s (s ++ pt ++ msg ++ "\n") true :=
  ⟨pt ++ msg ++ "\n", by simp only [String.append_assoc], fun _ => length_append_newline_pos _,
    by simp⟩

theorem appended_msg (s msg : String) : Appended s (s ++ msg ++ "\n") true :=
  ⟨msg ++ "\n", by simp only [String.append_assoc], fun _ => length_append_newline_pos _,
    by simp⟩

theorem dump_all_ss (st : CheckState) (g : Graph) (l : List Nat) :
    (st.dump_all g l).ss = st.ss ++ g.dump_all l "" :=
  dump_all_eq g l st.ss

theorem fail_at_text (g : Graph) (center : Nat) (st : CheckState) (msg : String) (b : Bool)
    (st1 : CheckState) (h : fail_at g center st msg = some (b, st1)) :
    b = false ∧ Appended st.ss st1.ss true := by
  have hb := (fail_at_frame g center st msg b st1 h).1
  refine ⟨hb, ?_⟩
  have h0 := h
  unfold fail_at at h0
  split at h0
  · simp at h0
  · rename_i ss hp
    obtain ⟨h1, h2⟩ := print_path_asserts g center st.steps st.path st.ss ss hp
    rw [fail_at_eq g center st msg h1 h2] at h
    simp only [Option.some.injEq, Prod.mk.injEq] at h
    rw [← h.2]
    exact appended_text _ _ (length_append_newline_pos _)

mutual
theorem check_text (g : Graph) : ∀ (p : Pattern) (center : Nat) (st : CheckState) (b : Bool)
    (st1 : CheckState), Pattern.check g p center st = some (b, st1) →
    Appended st.ss st1.ss (!b)
  | .True, center, st, b, st1, h => by
    simp only [Pattern.check, Option.some.injEq, Prod.mk.injEq] at h
    rw [← h.1, ← h.2]; exact appended_none _
  | .Bind s, center, st, b, st1, h => by
    simp only [Pattern.check, Option.some.injEq, Prod.mk.injEq] at h
    rw [← h.1, ← h.2]; exact appended_none _
  | .And ps, center, st, b, st1, h => by
    simp only [Pattern.check] at h
    exact check_list_text g ps center st b st1 h
  | .HasExactlyNInputs n, center, st, b, st1, h => by
    simp only [Pattern.check] at h
    split at h
    · have hf := fail_at_text g center st _ b st1 h
      rw [hf.1]; exact hf.2
    · simp only [Option.some.injEq, Prod.mk.injEq] at h
      rw [← h.1, ← h.2]; exact appended_none _
  | .HasAtLeastNInputs n, center, st, b, st1, h => by
    simp only [Pattern.check] at h
    split at h
    · have hf := fail_at_text g center st _ b st1 h
      rw [hf.1]; exact hf.2
    · simp only [Option.some.injEq, Prod.mk.injEq] at h
      rw [← h.1, ← h.2]; exact appended_none _
  | .HasType tc, center, st, b, st1, h => by
    simp only [Pattern.check] at h
    split at h
    · have hf := fail_at_text g center st _ b st1 h
      rw [hf.1]; exact hf.2
    · simp only [Option.some.injEq, Prod.mk.injEq] at h
      rw [← h.1, ← h.2]; exact appended_none _
  | .HasNOutputs n, center, st, b, st1, h => by
    simp only [Pattern.check] at h
    split at h
    · have hf := fail_at_text g center st _ b st1 h
      rw [hf.1]; exact hf.2
    · simp only [Option.some.injEq, Prod.mk.injEq] at h
      rw [← h.1, ← h.2]; exact appended_none _
  | .AtInput k p, center, st, b, st1, h => by
    simp only [Pattern.check] at h
    split at h
    · simp at h
    · split at h
      · have hf := fail_at_text g center st _ b st1 h
        rw [hf.1]; exact hf.2
      · rename_i input hin
        split at h
        · simp at h
        · rename_i result st2 hc
          have ih := check_text g p input _ result st2 hc
          simp only [Option.some.injEq, Prod.mk.injEq] at h
          rw [← h.1, ← h.2]
          exact ih
  | .AtSingleOutputOfType tc p, center, st, b, st1, h => by
    simp only [Pattern.check] at h
    split at h
    · rename_i out hout
      split at h
      · simp at h
      · rename_i result st2 hc
        have ih := check_text g p out _ result st2 hc
        simp only [Option.some.injEq, Prod.mk.injEq] at h
        rw [← h.1, ← h.2]
        exact ih
    · split at h
      · simp at h
      · rename_i result st2 hc
        have hf := fail_at_text g center st _ result st2 hc
        simp only [Option.some.injEq, Prod.mk.injEq] at h
        rw [← h.1, ← h.2, hf.1]
        rw [dump_all_ss]
        exact appended_more _ _ _ hf.2
theorem check_list_text (g : Graph) : ∀ (ps : List Pattern) (center : Nat) (st : CheckState)
    (b : Bool) (st1 : CheckState), Pattern.check_list g ps center st = some (b, st1) →
    Appended st.ss st1.ss (!b)
  | [], center, st, b, st1, h => by
    simp only [Pattern.check_list, Option.some.injEq, Prod.mk.injEq] at h
    rw [← h.1, ← h.2]; exact appended_none _
  | p :: ps, center, st, b, st1, h => by
    simp only [Pattern.check_list] at h
    split at h
    · simp at h
    · rename_i st2 hc
      have ih := check_text g p center st false st2 hc
      simp only [Option.some.injEq, Prod.mk.injEq] at h
      rw [← h.1, ← h.2]; exact ih
    · rename_i st2 hc
      have ih := check_text g p center st true st2 hc
      have ih2 := check_list_text g ps center st2 b st1 h
      rw [appended_eq _ _ ih] at ih2
      exact ih2
end

theorem PatternBasedCheck_text (g : Graph) (p : Pattern) (center : Nat) (st : CheckState)
    (r : CheckResult) (st1 : CheckState)
    (h : PatternBasedCheck.check g p center st = some (r, st1)) :
    r ≠ CheckResult.NOT_APPLICABLE ∧ Appended st.ss st1.ss (decide (r = CheckResult.FAILED)) := by
  unfold PatternBasedCheck.check at h
  split at h
  · simp at h
  · rename_i st2 hc
    simp only [Option.some.injEq, Prod.mk.injEq] at h
    rw [← h.1, ← h.2]
    exact ⟨by simp, check_text g p center st true st2 hc⟩
  · rename_i st2 hc
    simp only [Option.some.injEq, Prod.mk.injEq] at h
    rw [← h.1, ← h.2]
    exact ⟨by simp, check_text g p center st false st2 hc⟩

theorem check_all_text (check : Nat → CheckState → Option (CheckResult × CheckState))
    (center : Nat) (r0 : CheckResult) (hs : CheckSpecAll check center r0) (st : CheckState)
    (r : CheckResult) (st1 : CheckState) (h : check center st = some (r, st1)) :
    Appended st.ss st1.ss (decide (r = CheckResult.FAILED)) := by
  obtain ⟨st2, hc, -, -, hv, hf⟩ := hs st
  rw [hc] at h
  simp only [Option.some.injEq, Prod.mk.injEq] at h
  rw [← h.1, ← h.2]
  by_cases hr : r0 = CheckResult.FAILED
  · obtain ⟨t, ht, he⟩ := hf hr
    rw [he]
    simpa [hr] using appended_text st.ss t ht
  · rw [hv hr]
    simpa [hr] using appended_none st.ss

theorem PhiArity_text (g : Graph) (center : Nat) (st : CheckState) (r : CheckResult)
    (st1 : CheckState) (h : PhiArity.check g center st = some (r, st1)) :
    Appended st.ss st1.ss (decide (r = CheckResult.FAILED)) := by
  unfold PhiArity.check at h
  split at h
  · simp only [Option.some.injEq, Prod.mk.injEq] at h
    rw [← h.1, ← h.2]; exact appended_none _
  · split at h
    · simp at h
    · rename_i st2 hc
      have hp := (PatternBasedCheck_text g _ center st _ st2 hc).2
      have hss : st2.ss = st.ss := appended_eq _ _ (by simpa using hp)
      split at h
      · simp at h
      · split at h
        · split at h
          · simp at h
          · rename_i ss hpp
            obtain ⟨h1, h2⟩ := print_path_asserts g center st2.steps st2.path st2.ss ss hpp
            rw [print_path_eq g center st2.steps st2.path st2.ss h1 h2] at hpp
            simp only [Option.some.injEq] at hpp
            simp only [Option.some.injEq, Prod.mk.injEq] at h
            rw [← h.1, ← h.2, ← hpp, hss]
            simp only [CheckState.print_cr, decide_True]
            exact appended_path_msg _ _ _
        · simp only [Option.some.injEq, Prod.mk.injEq] at h
          rw [← h.1, ← h.2, hss]; exact appended_none _
    · rename_i result st2 hne hc
      simp only [Option.some.injEq, Prod.mk.injEq] at h
      rw [← h.1, ← h.2]
      exact (PatternBasedCheck_text g _ center st _ st2 hc).2

theorem CountedLoopInvariants_text (g : Graph) (center : Nat) (st : CheckState)
    (r : CheckResult) (st1 : CheckState)
    (h : CountedLoopInvariants.check g center st = some (r, st1)) :
    Appended st.ss st1.ss (decide (r = CheckResult.FAILED)) := by
  unfold CountedLoopInvariants.check at h
  split at h
  · simp only [Option.some.injEq, Prod.mk.injEq] at h
    rw [← h.1, ← h.2]; exact appended_none _
  · simp only [] at h
    split at h
    · simp at h
    · rename_i st2 hc
      have hp := (PatternBasedCheck_text g _ center st _ st2 hc).2
      have hss : st2.ss = st.ss := appended_eq _ _ (by simpa using hp)
      split at h
      · simp at h
      · split at h
        · split at h
          · simp only [Option.some.injEq, Prod.mk.injEq] at h
            rw [← h.1, ← h.2]
            simp only [CheckState.print_cr, decide_True, hss]
            exact appended_msg _ _
          · simp only [Option.some.injEq, Prod.mk.injEq] at h
            rw [← h.1, ← h.2, hss]; exact appended_none _
        · split at h
          · simp only [Option.some.injEq, Prod.mk.injEq] at h
            rw [← h.1, ← h.2]
            simp only [CheckState.print_cr, decide_True, hss]
            exact appended_msg _ _
          · simp only [Option.some.injEq, Prod.mk.injEq] at h
            rw [← h.1, ← h.2, hss]; exact appended_none _
    · rename_i result st2 hne hc
      simp only [Option.some.injEq, Prod.mk.injEq] at h
      rw [← h.1, ← h.2]
      exact (PatternBasedCheck_text g _ center st _ st2 hc).2

theorem IfProjections_text (g : Graph) (center : Nat) (st : CheckState) (r : CheckResult)
    (st1 : CheckState) (h : IfProjections.check g center st = some (r, st1)) :
    Appended st.ss st1.ss (decide (r = CheckResult.FAILED)) := by
  unfold IfProjections.check at h
  split at h
  · simp only [Option.some.injEq, Prod.mk.injEq] at h
    rw [← h.1, ← h.2]; exact appended_none _
  · exact (PatternBasedCheck_text g _ center st r st1 h).2

theorem OuterStripMinedLoopInvariants_text (g : Graph) (center : Nat) (st : CheckState)
    (r : CheckResult) (st1 : CheckState)
    (h : OuterStripMinedLoopInvariants.check g center st = some (r, st1)) :
    Appended st.ss st1.ss (decide (r = CheckResult.FAILED)) := by
  unfold OuterStripMinedLoopInvariants.check at h
  split at h
  · simp only [Option.some.injEq, Prod.mk.injEq] at h
    rw [← h.1, ← h.2]; exact appended_none _
  · exact (PatternBasedCheck_text g _ center st r st1 h).2

theorem catalog_text (g : Graph) (chk : LocalGraphInvariant) (center : Nat) (st : CheckState)
    (r : CheckResult) (st1 : CheckState) (h : chk.check g center st = some (r, st1)) :
    Appended st.ss st1.ss (decide (r = CheckResult.FAILED)) := by
  cases chk with
  | IfProjections => exact IfProjections_text g center st r st1 h
  | PhiArity => exact PhiArity_text g center st r st1 h
  | ControlSuccessor =>
    obtain ⟨r0, hs, -⟩ := ControlSuccessor_check_spec g center
    exact check_all_text _ center r0 hs st r st1 h
  | RegionSelfLoop =>
    obtain ⟨r0, hs, -⟩ := RegionSelfLoop_check_spec g center
    exact check_all_text _ center r0 hs st r st1 h
  | CountedLoopInvariants => exact CountedLoopInvariants_text g center st r st1 h
  | OuterStripMinedLoopInvariants => exact OuterStripMinedLoopInvariants_text g center st r st1 h
  | MultiBranchNodeOut =>
    obtain ⟨r0, hs, -⟩ := MultiBranchNodeOut_check_spec g center
    exact check_all_text _ center r0 hs st r st1 h

theorem RegionSelfLoop_valid_self (g : Graph) (center : Nat) (st st1 : CheckState)
    (h : RegionSelfLoop.check g center st = some (CheckResult.VALID, st1)) :
    st1 = st ∧ 1 ≤ (g.node center).req ∧ (g.node center).in_ LoopNode.Self = some center := by
  obtain ⟨r0, hs, hna, happ⟩ := RegionSelfLoop_check_spec g center
  obtain ⟨st2, hc, -⟩ := hs st
  rw [hc] at h
  simp only [Option.some.injEq, Prod.mk.injEq] at h
  by_cases ha : (g.node center).is_Region = true ∨ (g.node center).is_Start = true ∨
      (g.node center).is_Root = true
  · obtain ⟨hreq, hself⟩ := ((happ ha).1).mp h.1
    have hv := RegionSelfLoop_check_self g center st ha hreq hself
    rw [hc] at hv
    simp only [Option.some.injEq, Prod.mk.injEq] at hv
    exact ⟨by rw [← h.2, hv.2], by omega, hself⟩
  · rw [hna ha] at h
    simp at h

theorem foldl_append_left (l : List String) (a b : String) :
    l.foldl (fun r s => r ++ s) (a ++ b) = a ++ l.foldl (fun r s => r ++ s) b := by
  induction l generalizing b with
  | nil => rfl
  | cons s l ih => simp only [List.foldl_cons, String.append_assoc, ih]

theorem join_cons (a : String) (l : List String) :
    String.join (a :: l) = a ++ String.join l := by
  have h := foldl_append_left l a ""
  simp only [String.append_empty] at h
  simpa [String.join] using h

theorem check_driver_text (g : Graph) (chk : LocalGraphInvariant) (center : Nat)
    (b : Bindings) :
    ∃ r st1, chk.check g center { steps := [center], path := [], ss := "", binds := b }
        = some (r, st1) ∧ chk.result g center = some r ∧ chk.text g center = st1.ss := by
  obtain ⟨r, s1, s2, hc1, hc2, hss, hres⟩ := catalog_same_result g chk center b {}
  exact ⟨r, s1, hc1, hres, by simp [LocalGraphInvariant.text, hc2, hss]⟩

theorem run_checks_text (g : Graph) (center : Nat) (checks : List LocalGraphInvariant) :
    ∀ (st : RunState) (failures : Nat) (ss : String),
      ∃ st1, GraphInvariantChecker.run_checks g center checks st failures ss
          = some (st1, failures + failed_checks g checks center,
              ss ++ String.join (checks.map (entry_lines g center))) ∧
        st1.visited = st.visited ∧ st1.worklist = st.worklist ∧ st1.success = st.success ∧
        st1.tty = st.tty ∧ st1.checked = st.checked := by
  induction checks with
  | nil =>
    intro st failures ss
    exact ⟨st, by simp [GraphInvariantChecker.run_checks, failed_checks, String.join], rfl, rfl,
      rfl, rfl, rfl⟩
  | cons chk rest ih =>
    intro st failures ss
    obtain ⟨r, st1, hc, hres, htext⟩ := check_driver_text g chk center st.binds
    by_cases hr : r = CheckResult.FAILED
    · subst hr
      obtain ⟨st2, h2, hv, hw, hs, ht, hk⟩ := ih
        { st with steps := st1.steps, path := st1.path, binds := st1.binds } (failures + 1)
        (ss ++ "# " ++ chk.name ++ ":" ++ "\n" ++ st1.ss ++ "\n")
      refine ⟨st2, ?_, hv, hw, hs, ht, hk⟩
      simp only [GraphInvariantChecker.run_checks, hc, h2, failed_checks, List.countP_cons, hres,
        decide_True, if_true, List.map_cons, join_cons, entry_lines, htext]
      congr 2
      rw [Prod.mk.injEq]
      refine ⟨by omega, ?_⟩
      simp only [String.append_assoc]
    · obtain ⟨st2, h2, hv, hw, hs, ht, hk⟩ := ih
        { st with steps := st1.steps, path := st1.path, binds := st1.binds } failures ss
      refine ⟨st2, ?_, hv, hw, hs, ht, hk⟩
      have hne : ¬ (some r = some CheckResult.FAILED) := by simpa using hr
      simp only [failed_checks, List.countP_cons, hres, hne, decide_False, Bool.false_eq_true,
        if_false, Nat.add_zero, List.map_cons, join_cons, entry_lines, String.empty_append]
      simp only [GraphInvariantChecker.run_checks, hc]
      cases r with
      | FAILED => exact absurd rfl hr
      | VALID => exact h2
      | NOT_APPLICABLE => exact h2

theorem run_body_unvisited_text (checks : List LocalGraphInvariant) (g : Graph) (st : RunState)
    (center : Nat) (rest : List Nat) (hw : st.worklist = center :: rest)
    (hv : center ∉ st.visited) :
    ∃ st1, GraphInvariantChecker.run_body checks g st = some st1 ∧
      st1.checked = st.checked ++ [center] ∧
      st1.tty = st.tty ++ report_at g checks center := by
  obtain ⟨st1, hc, h1, h2, h3, h4, h5⟩ := run_checks_text g center checks
    { st with
      worklist := push_inputs (g.node center).ins rest
      visited := st.visited ++ [center]
      checked := st.checked ++ [center] } 0 ""
  simp only [GraphInvariantChecker.run_body, hw, hv, if_false, hc, Nat.zero_add,
    String.empty_append]
  by_cases hf : failed_checks g checks center = 0
  · rw [if_neg (by omega)]
    exact ⟨st1, rfl, h5, by simp [report_at, hf, h4]⟩
  · have hpos : 0 < failed_checks g checks center := Nat.pos_of_ne_zero hf
    rw [if_pos hpos]
    exact ⟨_, rfl, h5, by simp [report_at, hf, h4]⟩

theorem tty_exact_step (checks : List LocalGraphInvariant) (C : Compile)
    (st st1 : RunState) (hinv : TraversalInv checks C st ∧ TtyExact checks C st)
    (hne : st.worklist ≠ [])
    (hb : GraphInvariantChecker.run_body checks C.nodes st = some st1) :
    TraversalInv checks C st1 ∧ TtyExact checks C st1 := by
  refine ⟨traversal_inv_step checks C st st1 hinv.1 hne hb, ?_⟩
  obtain ⟨-, htty⟩ := hinv
  cases hw : st.worklist with
  | nil => exact absurd hw hne
  | cons c rest =>
    by_cases hv : c ∈ st.visited
    · rw [run_body_visited checks C.nodes st c rest hw hv] at hb
      cases hb
      exact htty
    · obtain ⟨st2, hb2, h3, h4⟩ := run_body_unvisited_text checks C.nodes st c rest hw hv
      rw [hb2] at hb
      cases hb
      unfold TtyExact at htty ⊢
      rw [h4, h3, List.map_append, List.map_singleton, join_concat, ← htty]

theorem run_final_tty_exact (checks : List LocalGraphInvariant) (C : Compile) :
    ∃ st, GraphInvariantChecker.run_final checks C = some st ∧ st.worklist = [] ∧
      TraversalInv checks C st ∧ TtyExact checks C st := by
  obtain ⟨st, hl, hw, hinv⟩ := run_loop_spec checks C.nodes
    (fun st => TraversalInv checks C st ∧ TtyExact checks C st)
    (tty_exact_step checks C) (GraphInvariantChecker.max_iterations C)
    (GraphInvariantChecker.run_init C) (Nat.le_of_eq (potential_init C))
    ⟨traversal_inv_init checks C, rfl⟩
  exact ⟨st, by simp [GraphInvariantChecker.run_final, hl, hw], hw, hinv⟩

theorem report_eq (g : Graph) (v n : Nat) (ss : String) (h : n < 2 ^ 31) :
    GraphInvariantChecker.report g v n ss
      = toString n ++ " failure" ++ (if n = 1 then "" else "s") ++ " for node\n"
        ++ (g.node v).dump_text ++ "\n" ++ ss ++ "\n" := by
  unfold GraphInvariantChecker.report Graph.dump fmt_u fmt_d
  rw [to_int_small n h]
  rfl

/-- The nodes checked, the result and the text written by `run` on the copy Region of scenario E:
the Region has two failing entries, the IfTrue none. -/
theorem run_final_at_copy_region :
    (GraphInvariantChecker.run_final GraphInvariantChecker.make_default
        { nodes := copy_region, root := 0 }).map (fun st => (st.checked, st.success, st.tty))
      = some ([0, 1], false,
          "2 failures for node\n0 Region\n# ControlSuccessor:\nRegion node must have exactly two control successors. Found 0.\n\n# RegionSelfLoop:\nRegion nodes' 0-th input must be itself or nullptr (for a copy Region).\n\n\n") := by
  rfl

/-! ## The claims -/

/-- Claim C1. On every graph, with the default catalog of seven entries, `run` returns, and it
returns `true` exactly when no node reachable from the root along non-null input edges makes a
catalog entry return `FAILED` (whatever the capture slots hold when the entry is invoked); and
the catalog is run on every reachable node, whether or not some node has failed. -/
theorem run_true_iff_no_reachable_failure (C : Compile) :
    (∃ b, GraphInvariantChecker.run GraphInvariantChecker.make_default C = some b) ∧
      (GraphInvariantChecker.run GraphInvariantChecker.make_default C = some true ↔
        ∀ v, Reachable C v → ∀ chk ∈ GraphInvariantChecker.make_default,
          ∀ (b : Bindings) (r : CheckResult) (st1 : CheckState),
            chk.check C.nodes v { steps := [v], path := [], ss := "", binds := b }
              = some (r, st1) →
            r ≠ CheckResult.FAILED) ∧
      ∃ st, GraphInvariantChecker.run_final GraphInvariantChecker.make_default C = some st ∧
        ∀ v, Reachable C v → v ∈ st.checked := by
  obtain ⟨st, hfin, -, hw, hinv⟩ := run_final_spec GraphInvariantChecker.make_default C
  have hclosed := traversal_inv_closed _ C st hinv hw
  obtain ⟨-, -, -, -, -, hchk, hsucc⟩ := hinv
  have hrun := run_eq_success C st hfin
  refine ⟨⟨_, hrun⟩, ?_, st, hfin, fun v hv => by rw [hchk]; exact (hclosed v).mpr hv⟩
  rw [hrun, Option.some.injEq, hsucc]
  constructor
  · intro h v hv
    exact (failed_checks_eq_zero_iff _ _ v).mp (h v ((hclosed v).mpr hv))
  · intro h v hv
    exact (failed_checks_eq_zero_iff _ _ v).mpr (h v ((hclosed v).mp hv))

/-- Claim C2. In one invocation of `run` the sequence of nodes on which the catalog is evaluated
has no node twice, and its nodes are exactly the nodes reachable from the root along non-null
input edges; this holds for every graph, so also with cycles, self-loops and shared inputs that
are pushed on the worklist several times. -/
theorem run_checks_reachable_nodes_once (C : Compile) :
    ∃ st, GraphInvariantChecker.run_final GraphInvariantChecker.make_default C = some st ∧
      st.checked.Nodup ∧ ∀ v, v ∈ st.checked ↔ Reachable C v := by
  obtain ⟨st, hfin, -, hw, hinv⟩ := run_final_spec GraphInvariantChecker.make_default C
  have hclosed := traversal_inv_closed _ C st hinv hw
  obtain ⟨hnd, -, -, -, -, hchk, -⟩ := hinv
  exact ⟨st, hfin, by rw [hchk]; exact hnd, fun v => by rw [hchk]; exact hclosed v⟩

/-- Claim C3. The worklist loop of `run` terminates on every graph: within `max_iterations`
iterations (and with any larger bound, in the same state) it reaches an empty worklist; and
every iteration either discards a worklist entry that is already visited or marks a new node
visited, and decreases the measure `potential`. -/
theorem run_loop_terminates (C : Compile) :
    (∃ st, st.worklist = [] ∧
      ∀ extra, GraphInvariantChecker.run_loop GraphInvariantChecker.make_default C.nodes
        (GraphInvariantChecker.max_iterations C + extra) (GraphInvariantChecker.run_init C)
          = some st) ∧
      ∀ (st : RunState) (center : Nat) (rest : List Nat),
        ∃ st1, GraphInvariantChecker.run_body GraphInvariantChecker.make_default C.nodes
            { st with worklist := center :: rest } = some st1 ∧
          potential C.nodes st1 < potential C.nodes { st with worklist := center :: rest } ∧
          if center ∈ st.visited then st1.visited = st.visited ∧ st1.worklist = rest
          else st1.visited = st.visited ++ [center] := by
  constructor
  · obtain ⟨st, -, hl, hw, -⟩ := run_final_spec GraphInvariantChecker.make_default C
    exact ⟨st, hw, fun extra => run_loop_more_fuel _ _ _ extra _ st hl hw⟩
  · intro st center rest
    obtain ⟨st1, hb, hlt⟩ := run_body_decreases GraphInvariantChecker.make_default C.nodes
      { st with worklist := center :: rest } (by simp)
    refine ⟨st1, hb, hlt, ?_⟩
    by_cases hv : center ∈ st.visited
    · rw [if_pos hv]
      rw [run_body_visited _ _ { st with worklist := center :: rest } center rest rfl hv] at hb
      cases hb
      exact ⟨rfl, rfl⟩
    · rw [if_neg hv]
      obtain ⟨st2, hb2, h1, -⟩ := run_body_unvisited GraphInvariantChecker.make_default C.nodes
        { st with worklist := center :: rest } center rest rfl hv
      rw [hb2] at hb
      cases hb
      exact h1

/-- Claim C4, at the input where the code departs from it: for a multi-way branch with
`required_outcnt() = 3` and two outputs `MultiBranchNodeOut::check` returns `VALID` and writes
nothing, since it fails only when `required_outcnt() < outcnt()`. -/
theorem MultiBranchNodeOut_check_at_required_3_outcnt_2 (st : CheckState) :
    (multibranch_3_2.node 0).is_MultiBranch = true ∧
      (multibranch_3_2.node 0).required_outcnt = 3 ∧ (multibranch_3_2.node 0).outcnt = 2 ∧
      MultiBranchNodeOut.check multibranch_3_2 0 st = some (CheckResult.VALID, st) :=
  ⟨rfl, rfl, rfl, rfl⟩

/-- Claim C5, at the input where the code departs from it: for a copy Region (input 0 unset,
exactly one non-null input) `RegionSelfLoop::check` returns `FAILED` with the message on the
0-th input, since the test `center != self` holds whenever input 0 is unset. -/
theorem RegionSelfLoop_check_at_copy_region (st : CheckState) :
    (copy_region.node 0).is_Region = true ∧ (copy_region.node 0).in_ 0 = none ∧
      (non_null_inputs copy_region 0).length = 1 ∧
      RegionSelfLoop.check copy_region 0 st = some (CheckResult.FAILED,
        st.print_cr "Region nodes' 0-th input must be itself or nullptr (for a copy Region).") :=
  ⟨rfl, rfl, rfl, rfl⟩

/-- Claim C6, at the input where the code departs from it: for a Region whose input 0 is unset
and which has two non-null inputs `RegionSelfLoop::check` returns `FAILED`, but the text it
writes is the message on the 0-th input and not the copy-node message that counts the non-null
inputs. -/
theorem RegionSelfLoop_check_at_region_two_inputs :
    (region_two_inputs.node 0).is_Region = true ∧ (region_two_inputs.node 0).in_ 0 = none ∧
      (non_null_inputs region_two_inputs 0).length = 2 ∧
      RegionSelfLoop.check region_two_inputs 0
          { steps := [0], path := [], ss := "", binds := {} }
        = some (CheckResult.FAILED,
          { steps := [0], path := [], binds := {},
            ss := "Region nodes' 0-th input must be itself or nullptr (for a copy Region).\n" }) :=
  ⟨rfl, rfl, rfl, rfl⟩

/-- Claim C7. For every If node `IfProjections::check` returns `VALID` exactly when the node has
two outputs, exactly one of them satisfies `is_IfTrue` and exactly one satisfies `is_IfFalse`;
otherwise it returns `FAILED`. -/
theorem IfProjections_check_valid_iff (g : Graph) (center : Nat) (st : CheckState)
    (hIf : (g.node center).is_If = true)
    (h1 : st.steps.length = st.path.length + 1) (h2 : st.steps.getLast? = some center) :
    ∃ result st1, IfProjections.check g center st = some (result, st1) ∧
      (result = CheckResult.VALID ↔
        (g.node center).outcnt = 2 ∧
        (g.node center).outs.countP (fun out => (g.node out).is_IfTrue) = 1 ∧
        (g.node center).outs.countP (fun out => (g.node out).is_IfFalse) = 1) ∧
      (result ≠ CheckResult.VALID → result = CheckResult.FAILED) := by
  obtain ⟨r, hr, -, hv⟩ := IfProjections_check_spec g center
  obtain ⟨st1, hc, -⟩ := hr st h1 h2
  exact ⟨r, st1, hc, hv hIf⟩

/-- The statement of claim C7 at a well-formed If. -/
theorem IfProjections_check_valid_iff_witness :
    (if_two_projections.node 0).is_If = true ∧
      ∃ result st1, IfProjections.check if_two_projections 0
          { steps := [0], path := [], ss := "", binds := {} } = some (result, st1) ∧
        (result = CheckResult.VALID ↔
          (if_two_projections.node 0).outcnt = 2 ∧
          (if_two_projections.node 0).outs.countP
            (fun out => (if_two_projections.node out).is_IfTrue) = 1 ∧
          (if_two_projections.node 0).outs.countP
            (fun out => (if_two_projections.node out).is_IfFalse) = 1) ∧
        (result ≠ CheckResult.VALID → result = CheckResult.FAILED) :=
  ⟨rfl, IfProjections_check_valid_iff if_two_projections 0
    { steps := [0], path := [], ss := "", binds := {} } rfl rfl rfl⟩

set_option maxRecDepth 100000 in
/-- Claim C8 fails as stated: an If whose only output is an IfTrue has exactly one true
projection and no false projection, and `IfProjections::check` returns `FAILED` for it with the
message on the number of outputs; the text does not contain
"Non-unique output of expected type. Found: 0.". -/
theorem IfProjections_check_one_projection_text :
    (if_one_projection.node 0).is_If = true ∧
      (if_one_projection.node 0).outs.countP
        (fun out => (if_one_projection.node out).is_IfTrue) = 1 ∧
      (if_one_projection.node 0).outs.countP
        (fun out => (if_one_projection.node out).is_IfFalse) = 0 ∧
      ∃ st1, IfProjections.check if_one_projection 0
          { steps := [0], path := [], ss := "", binds := {} } = some (CheckResult.FAILED, st1) ∧
        st1.ss = "At center node\n0 If\nUnexpected number of outputs. Expected: 2. Found: 1\n" ∧
        ¬ contains_text st1.ss "Non-unique output of expected type. Found: 0." :=
  ⟨rfl, rfl, rfl, _, rfl, rfl, by decide⟩

/-- Claim C8, amended. For every If node with exactly two outputs, exactly one of which is a
true projection and none a false projection, `IfProjections::check` returns `FAILED` and the
text it writes is the text of `print_path` followed by
"Non-unique output of expected type. Found: 0.". -/
theorem IfProjections_check_no_false_projection (g : Graph) (center : Nat) (st : CheckState)
    (hIf : (g.node center).is_If = true)
    (h1 : st.steps.length = st.path.length + 1) (h2 : st.steps.getLast? = some center)
    (hout : (g.node center).outcnt = 2)
    (hT : (g.node center).outs.countP (fun out => (g.node out).is_IfTrue) = 1)
    (hF : (g.node center).outs.countP (fun out => (g.node out).is_IfFalse) = 0) :
    ∃ st1 p, IfProjections.check g center st = some (CheckResult.FAILED, st1) ∧
      print_path g center st.steps st.path st.ss = some p ∧
      st1.ss = p ++ "Non-unique output of expected type. Found: 0." ++ "\n" ∧
      contains_text st1.ss "Non-unique output of expected type. Found: 0." := by
  obtain ⟨out, hTo⟩ := (singleton_iff_countP _ _).mpr hT
  have hTo1 : outputs_of_type g Node.is_IfTrue center = [out] := hTo
  have hFo : outputs_of_type g Node.is_IfFalse center = [] := by
    rw [List.countP_eq_length_filter] at hF
    exact List.length_eq_zero.mp hF
  obtain ⟨p, hp, hpe⟩ := print_path_text g center st.steps st.path st.ss h1 h2
    "Non-unique output of expected type. Found: 0."
  have hc : IfProjections.check g center st = some (CheckResult.FAILED,
      { st with ss := p ++ "Non-unique output of expected type. Found: 0." ++ "\n" }) := by
    rw [← hpe]
    simp only [IfProjections.check, hIf, not_true_eq_false, if_false, PatternBasedCheck.check,
      IfProjections.pattern, Pattern.check, Pattern.check_list, hout, ne_eq, hTo1, hFo,
      List.dropLast_concat, fail_at_eq g center st _ h1 h2, CheckState.dump_all,
      Graph.dump_all, List.foldl_nil, List.length_nil]
    rfl
  exact ⟨_, p, hc, hp, rfl, contains_text_of_eq _ p _ "\n" rfl⟩

/-- The statement of the amended claim C8 at an If with an IfTrue and one other output. -/
theorem IfProjections_check_no_false_projection_witness :
    (if_true_and_other.node 0).is_If = true ∧ (if_true_and_other.node 0).outcnt = 2 ∧
      (if_true_and_other.node 0).outs.countP
        (fun out => (if_true_and_other.node out).is_IfTrue) = 1 ∧
      (if_true_and_other.node 0).outs.countP
        (fun out => (if_true_and_other.node out).is_IfFalse) = 0 ∧
      ∃ st1 p, IfProjections.check if_true_and_other 0
          { steps := [0], path := [], ss := "", binds := {} } = some (CheckResult.FAILED, st1) ∧
        print_path if_true_and_other 0 [0] [] "" = some p ∧
        st1.ss = p ++ "Non-unique output of expected type. Found: 0." ++ "\n" ∧
        contains_text st1.ss "Non-unique output of expected type. Found: 0." :=
  ⟨rfl, rfl, rfl, rfl, IfProjections_check_no_false_projection if_true_and_other 0
    { steps := [0], path := [], ss := "", binds := {} } rfl rfl rfl rfl rfl rfl⟩

/-- Claim C9. For every Phi node `PhiArity::check` returns `VALID` exactly when the Phi has at
least one input slot, its input 0 is set and is a Region, and the Phi has as many input slots as
that Region; otherwise it returns `FAILED`. For a Phi with 3 slots at a Region with 4 slots the
result is `FAILED` and the text ends with the message that cites Phi arity 3 and Region
arity 4. -/
theorem PhiArity_check_valid_iff (g : Graph) (center : Nat) (st : CheckState)
    (hPhi : (g.node center).is_Phi = true)
    (h1 : st.steps.length = st.path.length + 1) (h2 : st.steps.getLast? = some center) :
    ∃ result st1, PhiArity.check g center st = some (result, st1) ∧
      (result = CheckResult.VALID ↔
        1 ≤ (g.node center).req ∧
        ∃ region, (g.node center).in_ 0 = some region ∧ (g.node region).is_Region = true ∧
          (g.node center).req = (g.node region).req) ∧
      (result ≠ CheckResult.VALID → result = CheckResult.FAILED) ∧
      ∀ region, (g.node center).req = 3 → (g.node center).in_ 0 = some region →
        (g.node region).is_Region = true → (g.node region).req = 4 →
        result = CheckResult.FAILED ∧
        ∃ p, print_path g center st.steps st.path st.ss = some p ∧
          st1.ss = p ++
            "Phi nodes must have the same arity as their Region node. Phi arity: 3; Region arity: 4."
            ++ "\n" := by
  obtain ⟨r, hr, -, hv⟩ := PhiArity_check_spec g center
  obtain ⟨st1, hc, -⟩ := hr st h1 h2
  refine ⟨r, st1, hc, (hv hPhi).1, (hv hPhi).2, ?_⟩
  intro region h3 hin hR h4
  have hm := PhiArity_check_of_match g center region st hPhi h1 h2 (by omega) hin hR
  rw [if_pos (by omega), hc] at hm
  simp only [Option.some.injEq, Prod.mk.injEq] at hm
  obtain ⟨hres, hst⟩ := hm
  obtain ⟨p, hp, hpe⟩ := print_path_text g center st.steps st.path st.ss h1 h2
    "Phi nodes must have the same arity as their Region node. Phi arity: 3; Region arity: 4."
  refine ⟨hres, p, hp, ?_⟩
  rw [← hpe, hst, h3, h4]
  rfl

/-- The statement of claim C9 at a Phi with three slots whose Region has four. -/
theorem PhiArity_check_valid_iff_witness :
    (phi_3_region_4.node 0).is_Phi = true ∧
      ∃ result st1, PhiArity.check phi_3_region_4 0
          { steps := [0], path := [], ss := "", binds := {} } = some (result, st1) ∧
        (result = CheckResult.VALID ↔
          1 ≤ (phi_3_region_4.node 0).req ∧
          ∃ region, (phi_3_region_4.node 0).in_ 0 = some region ∧
            (phi_3_region_4.node region).is_Region = true ∧
            (phi_3_region_4.node 0).req = (phi_3_region_4.node region).req) ∧
        (result ≠ CheckResult.VALID → result = CheckResult.FAILED) ∧
        ∀ region, (phi_3_region_4.node 0).req = 3 →
          (phi_3_region_4.node 0).in_ 0 = some region →
          (phi_3_region_4.node region).is_Region = true →
          (phi_3_region_4.node region).req = 4 →
          result = CheckResult.FAILED ∧
          ∃ p, print_path phi_3_region_4 0 [0] [] "" = some p ∧
            st1.ss = p ++
              "Phi nodes must have the same arity as their Region node. Phi arity: 3; Region arity: 4."
              ++ "\n" :=
  ⟨rfl, PhiArity_check_valid_iff phi_3_region_4 0
    { steps := [0], path := [], ss := "", binds := {} } rfl rfl rfl⟩

/-- Claim C10. For every CFG node with `n` outputs that are CFG nodes,
`ControlSuccessor::check` returns `VALID` exactly if: the node is an If, Start, Root, Region or
NeverBranch and `n = 2`; else its opcode is `Op_SafePoint` and `n = 1`, or `n = 2` and one of
the control successors is a Root; else it is a Catch or Jump and `n ≥ 1`; else `n = 1`.
Otherwise it returns `FAILED`. -/
theorem ControlSuccessor_check_valid_iff (g : Graph) (center : Nat) (st : CheckState)
    (hCFG : (g.node center).is_CFG = true) :
    ∃ result st1, ControlSuccessor.check g center st = some (result, st1) ∧
      (result = CheckResult.VALID ↔
        if (g.node center).is_If = true ∨ (g.node center).is_Start = true ∨
            (g.node center).is_Root = true ∨ (g.node center).is_Region = true ∨
            (g.node center).is_NeverBranch = true then
          (g.node center).outs.countP (fun out => (g.node out).is_CFG) = 2
        else if (g.node center).is_Op_SafePoint = true then
          (g.node center).outs.countP (fun out => (g.node out).is_CFG) = 1 ∨
          ((g.node center).outs.countP (fun out => (g.node out).is_CFG) = 2 ∧
            ∃ out ∈ (g.node center).outs,
              (g.node out).is_CFG = true ∧ (g.node out).is_Root = true)
        else if (g.node center).is_Catch = true ∨ (g.node center).is_Jump = true then
          1 ≤ (g.node center).outs.countP (fun out => (g.node out).is_CFG)
        else (g.node center).outs.countP (fun out => (g.node out).is_CFG) = 1) ∧
      (result ≠ CheckResult.VALID → result = CheckResult.FAILED) := by
  obtain ⟨r, hr, -, hv⟩ := ControlSuccessor_check_spec g center
  obtain ⟨st1, hc, -⟩ := hr st
  exact ⟨r, st1, hc, hv hCFG⟩

/-- The statement of claim C10 at a control node of no special category with one control
successor. -/
theorem ControlSuccessor_check_valid_iff_witness :
    (plain_control.node 0).is_CFG = true ∧
      ∃ result st1, ControlSuccessor.check plain_control 0
          { steps := [0], path := [], ss := "", binds := {} } = some (result, st1) ∧
        (result = CheckResult.VALID ↔
          if (plain_control.node 0).is_If = true ∨ (plain_control.node 0).is_Start = true ∨
              (plain_control.node 0).is_Root = true ∨ (plain_control.node 0).is_Region = true ∨
              (plain_control.node 0).is_NeverBranch = true then
            (plain_control.node 0).outs.countP (fun out => (plain_control.node out).is_CFG) = 2
          else if (plain_control.node 0).is_Op_SafePoint = true then
            (plain_control.node 0).outs.countP (fun out => (plain_control.node out).is_CFG) = 1 ∨
            ((plain_control.node 0).outs.countP
                (fun out => (plain_control.node out).is_CFG) = 2 ∧
              ∃ out ∈ (plain_control.node 0).outs,
                (plain_control.node out).is_CFG = true ∧ (plain_control.node out).is_Root = true)
          else if (plain_control.node 0).is_Catch = true ∨
              (plain_control.node 0).is_Jump = true then
            1 ≤ (plain_control.node 0).outs.countP (fun out => (plain_control.node out).is_CFG)
          else
            (plain_control.node 0).outs.countP (fun out => (plain_control.node out).is_CFG) = 1) ∧
        (result ≠ CheckResult.VALID → result = CheckResult.FAILED) :=
  ⟨rfl, ControlSuccessor_check_valid_iff plain_control 0
    { steps := [0], path := [], ss := "", binds := {} } rfl⟩

/-- Claim C11. For every counted-loop header, a CountedLoop or a LongCountedLoop (the two are
distinct node classes, so exactly one of the two predicates holds),
`CountedLoopInvariants::check` returns `VALID` exactly when the node has three input slots, its
loop-back input (slot 2) is set and is an IfTrue with at least one slot whose input 0 is set and
is a BaseCountedLoopEnd, and that loop end is no CountedLoopEnd for a LongCountedLoop header and
no LongCountedLoopEnd for a CountedLoop header; otherwise it returns `FAILED`. -/
theorem CountedLoopInvariants_check_valid_iff (g : Graph) (center : Nat) (st : CheckState)
    (hkind : ((g.node center).is_CountedLoop = true ∧ (g.node center).is_LongCountedLoop = false)
      ∨ ((g.node center).is_CountedLoop = false ∧ (g.node center).is_LongCountedLoop = true))
    (h1 : st.steps.length = st.path.length + 1) (h2 : st.steps.getLast? = some center) :
    ∃ result st1, CountedLoopInvariants.check g center st = some (result, st1) ∧
      (result = CheckResult.VALID ↔
        (g.node center).req = 3 ∧
        ∃ proj, (g.node center).in_ 2 = some proj ∧ (g.node proj).is_IfTrue = true ∧
          1 ≤ (g.node proj).req ∧
          ∃ loop_end, (g.node proj).in_ 0 = some loop_end ∧
            (g.node loop_end).is_BaseCountedLoopEnd = true ∧
            ((g.node center).is_LongCountedLoop = true →
              (g.node loop_end).is_CountedLoopEnd = false) ∧
            ((g.node center).is_CountedLoop = true →
              (g.node loop_end).is_LongCountedLoopEnd = false)) ∧
      (result ≠ CheckResult.VALID → result = CheckResult.FAILED) := by
  obtain ⟨r, hr, -, hv⟩ := CountedLoopInvariants_check_spec g center
  obtain ⟨st1, hc, -⟩ := hr st h1 h2
  have happ : (g.node center).is_CountedLoop = true ∨ (g.node center).is_LongCountedLoop = true := by
    rcases hkind with h | h
    · exact Or.inl h.1
    · exact Or.inr h.2
  obtain ⟨hiff, hf⟩ := hv happ
  refine ⟨r, st1, hc, ?_, hf⟩
  rw [hiff]
  have hcond : ∀ e, (if (g.node center).is_LongCountedLoop = true then
        (g.node e).is_CountedLoopEnd = false else (g.node e).is_LongCountedLoopEnd = false) ↔
      (((g.node center).is_LongCountedLoop = true → (g.node e).is_CountedLoopEnd = false) ∧
        ((g.node center).is_CountedLoop = true → (g.node e).is_LongCountedLoopEnd = false)) := by
    intro e
    rcases hkind with ⟨hc1, hl1⟩ | ⟨hc1, hl1⟩ <;> simp [hc1, hl1]
  simp only [hcond]
  rfl

/-- The statement of claim C11 at the header of a well-formed counted loop. -/
theorem CountedLoopInvariants_check_valid_iff_witness :
    (((counted_loop_graph.node 0).is_CountedLoop = true ∧
        (counted_loop_graph.node 0).is_LongCountedLoop = false) ∨
      ((counted_loop_graph.node 0).is_CountedLoop = false ∧
        (counted_loop_graph.node 0).is_LongCountedLoop = true)) ∧
      ∃ result st1, CountedLoopInvariants.check counted_loop_graph 0
          { steps := [0], path := [], ss := "", binds := {} } = some (result, st1) ∧
        (result = CheckResult.VALID ↔
          (counted_loop_graph.node 0).req = 3 ∧
          ∃ proj, (counted_loop_graph.node 0).in_ 2 = some proj ∧
            (counted_loop_graph.node proj).is_IfTrue = true ∧
            1 ≤ (counted_loop_graph.node proj).req ∧
            ∃ loop_end, (counted_loop_graph.node proj).in_ 0 = some loop_end ∧
              (counted_loop_graph.node loop_end).is_BaseCountedLoopEnd = true ∧
              ((counted_loop_graph.node 0).is_LongCountedLoop = true →
                (counted_loop_graph.node loop_end).is_CountedLoopEnd = false) ∧
              ((counted_loop_graph.node 0).is_CountedLoop = true →
                (counted_loop_graph.node loop_end).is_LongCountedLoopEnd = false)) ∧
        (result ≠ CheckResult.VALID → result = CheckResult.FAILED) :=
  ⟨Or.inl ⟨rfl, rfl⟩, CountedLoopInvariants_check_valid_iff counted_loop_graph 0
    { steps := [0], path := [], ss := "", binds := {} } (Or.inl ⟨rfl, rfl⟩) rfl rfl⟩

/-- Claim C12. For every OuterStripMinedLoopEnd `OuterStripMinedLoopInvariants::check` returns
`VALID` exactly when the node has two input slots, its input 0 is a set SafePoint whose input 0
is a set IfFalse whose input 0 is a set CountedLoopEnd, and the node has exactly one IfTrue
output, which has exactly one OuterStripMinedLoop output, which has exactly one CountedLoop
output; otherwise it returns `FAILED`. -/
theorem OuterStripMinedLoopInvariants_check_valid_iff (g : Graph) (center : Nat)
    (st : CheckState) (hO : (g.node center).is_OuterStripMinedLoopEnd = true)
    (h1 : st.steps.length = st.path.length + 1) (h2 : st.steps.getLast? = some center) :
    ∃ result st1, OuterStripMinedLoopInvariants.check g center st = some (result, st1) ∧
      (result = CheckResult.VALID ↔
        (g.node center).req = 2 ∧
        (∃ sfpt, (g.node center).in_ 0 = some sfpt ∧ (g.node sfpt).is_SafePoint = true ∧
          ∃ proj, (g.node sfpt).in_ 0 = some proj ∧ (g.node proj).is_IfFalse = true ∧
            ∃ loop_end, (g.node proj).in_ 0 = some loop_end ∧
              (g.node loop_end).is_CountedLoopEnd = true) ∧
        ∃ proj, (g.node center).outs.filter (fun out => (g.node out).is_IfTrue) = [proj] ∧
          ∃ outer, (g.node proj).outs.filter
              (fun out => (g.node out).is_OuterStripMinedLoop) = [outer] ∧
            ∃ inner, (g.node outer).outs.filter
              (fun out => (g.node out).is_CountedLoop) = [inner]) ∧
      (result ≠ CheckResult.VALID → result = CheckResult.FAILED) := by
  obtain ⟨r, hr, hv, hf⟩ := check_spec_of_holds g _ center _ _
    (OuterStripMinedLoopInvariants_pattern_holds g center)
  obtain ⟨st1, hc, -⟩ := hr st h1 h2
  refine ⟨r, st1, ?_, ?_, ?_⟩
  · simp only [OuterStripMinedLoopInvariants.check, hO, not_true_eq_false, if_false]
    exact hc
  · rw [hv]
    constructor
    · rintro ⟨hreq, ⟨sfpt, hs, hS, -, proj, hp, hF, -, le, hl, hE⟩, hout⟩
      exact ⟨hreq, ⟨sfpt, hs, hS, proj, hp, hF, le, hl, hE⟩, hout⟩
    · rintro ⟨hreq, ⟨sfpt, hs, hS, proj, hp, hF, le, hl, hE⟩, hout⟩
      exact ⟨hreq, ⟨sfpt, hs, hS, in_some_lt_req _ 0 _ hp, proj, hp, hF,
        in_some_lt_req _ 0 _ hl, le, hl, hE⟩, hout⟩
  · intro hne
    exact hf.mpr (fun h => hne (hv.mpr h))

/-- The statement of claim C12 at the loop end of a well-formed outer strip-mined loop. -/
theorem OuterStripMinedLoopInvariants_check_valid_iff_witness :
    (strip_mined_graph.node 0).is_OuterStripMinedLoopEnd = true ∧
      ∃ result st1, OuterStripMinedLoopInvariants.check strip_mined_graph 0
          { steps := [0], path := [], ss := "", binds := {} } = some (result, st1) ∧
        (result = CheckResult.VALID ↔
          (strip_mined_graph.node 0).req = 2 ∧
          (∃ sfpt, (strip_mined_graph.node 0).in_ 0 = some sfpt ∧
            (strip_mined_graph.node sfpt).is_SafePoint = true ∧
            ∃ proj, (strip_mined_graph.node sfpt).in_ 0 = some proj ∧
              (strip_mined_graph.node proj).is_IfFalse = true ∧
              ∃ loop_end, (strip_mined_graph.node proj).in_ 0 = some loop_end ∧
                (strip_mined_graph.node loop_end).is_CountedLoopEnd = true) ∧
          ∃ proj, (strip_mined_graph.node 0).outs.filter
              (fun out => (strip_mined_graph.node out).is_IfTrue) = [proj] ∧
            ∃ outer, (strip_mined_graph.node proj).outs.filter
                (fun out => (strip_mined_graph.node out).is_OuterStripMinedLoop) = [outer] ∧
              ∃ inner, (strip_mined_graph.node outer).outs.filter
                (fun out => (strip_mined_graph.node out).is_CountedLoop) = [inner]) ∧
        (result ≠ CheckResult.VALID → result = CheckResult.FAILED) :=
  ⟨rfl, OuterStripMinedLoopInvariants_check_valid_iff strip_mined_graph 0
    { steps := [0], path := [], ss := "", binds := {} } rfl rfl rfl⟩

/-- Claim C13. For every Region, Start or Root node with at least one input slot whose input 0
is the node itself, `RegionSelfLoop::check` returns `VALID` and writes nothing, whatever the
other inputs are. -/
theorem RegionSelfLoop_check_self_loop (g : Graph) (center : Nat) (st : CheckState)
    (happ : (g.node center).is_Region = true ∨ (g.node center).is_Start = true ∨
      (g.node center).is_Root = true)
    (hreq : 1 ≤ (g.node center).req) (hself : (g.node center).in_ 0 = some center) :
    RegionSelfLoop.check g center st = some (CheckResult.VALID, st) :=
  RegionSelfLoop_check_self g center st happ (by omega) hself

/-- The statement of claim C13 at a root whose only input is its own self-loop. -/
theorem RegionSelfLoop_check_self_loop_witness :
    ((root_self_loop.node 0).is_Region = true ∨ (root_self_loop.node 0).is_Start = true ∨
        (root_self_loop.node 0).is_Root = true) ∧
      1 ≤ (root_self_loop.node 0).req ∧ (root_self_loop.node 0).in_ 0 = some 0 ∧
      RegionSelfLoop.check root_self_loop 0 { steps := [0], path := [], ss := "", binds := {} }
        = some (CheckResult.VALID, { steps := [0], path := [], ss := "", binds := {} }) :=
  ⟨Or.inl rfl, by decide, rfl, RegionSelfLoop_check_self_loop root_self_loop 0
    { steps := [0], path := [], ss := "", binds := {} } (Or.inl rfl) (by decide) rfl⟩

/-- Claim C14. Each of the seven catalog entries returns `NOT_APPLICABLE` for every node outside
its category (`LocalGraphInvariant.category`), leaves the trace, the text and the capture slots
untouched, and neither calls `print_path` nor enters an `AtInput`: no pattern is evaluated. -/
theorem check_not_applicable (g : Graph) (chk : LocalGraphInvariant) (center : Nat)
    (st : CheckState) (h : chk.category (g.node center) = false) :
    chk.check g center st = some (CheckResult.NOT_APPLICABLE, st) ∧
      chk.check_traced g center st = some (CheckResult.NOT_APPLICABLE, st, []) := by
  cases chk with
  | IfProjections =>
    simp only [LocalGraphInvariant.category] at h
    simp [LocalGraphInvariant.check, LocalGraphInvariant.check_traced, IfProjections.check, h]
  | PhiArity =>
    simp only [LocalGraphInvariant.category] at h
    simp [LocalGraphInvariant.check, LocalGraphInvariant.check_traced, PhiArity.check,
      PhiArity.check_traced, h]
  | ControlSuccessor =>
    simp only [LocalGraphInvariant.category] at h
    simp [LocalGraphInvariant.check, LocalGraphInvariant.check_traced, ControlSuccessor.check,
      no_events, h]
  | RegionSelfLoop =>
    simp only [LocalGraphInvariant.category, Bool.or_eq_false_iff] at h
    simp [LocalGraphInvariant.check, LocalGraphInvariant.check_traced, RegionSelfLoop.check,
      no_events, h]
  | CountedLoopInvariants =>
    simp only [LocalGraphInvariant.category, Bool.or_eq_false_iff] at h
    simp [LocalGraphInvariant.check, LocalGraphInvariant.check_traced,
      CountedLoopInvariants.check, CountedLoopInvariants.check_traced, h]
  | OuterStripMinedLoopInvariants =>
    simp only [LocalGraphInvariant.category] at h
    simp [LocalGraphInvariant.check, LocalGraphInvariant.check_traced,
      OuterStripMinedLoopInvariants.check, h]
  | MultiBranchNodeOut =>
    simp only [LocalGraphInvariant.category] at h
    simp [LocalGraphInvariant.check, LocalGraphInvariant.check_traced, MultiBranchNodeOut.check,
      no_events, h]

/-- The statement of claim C14 for `PhiArity` at a root, which is no Phi. -/
theorem check_not_applicable_witness :
    LocalGraphInvariant.PhiArity.category (root_self_loop.node 0) = false ∧
      LocalGraphInvariant.PhiArity.check root_self_loop 0
          { steps := [0], path := [], ss := "", binds := {} }
        = some (CheckResult.NOT_APPLICABLE, { steps := [0], path := [], ss := "", binds := {} }) ∧
      LocalGraphInvariant.PhiArity.check_traced root_self_loop 0
          { steps := [0], path := [], ss := "", binds := {} }
        = some (CheckResult.NOT_APPLICABLE, { steps := [0], path := [], ss := "", binds := {} },
          []) :=
  ⟨rfl, check_not_applicable root_self_loop LocalGraphInvariant.PhiArity 0
    { steps := [0], path := [], ss := "", binds := {} } rfl⟩

/-- Claim C15. When `run` invokes a catalog entry, with `steps = [center]` and an empty `path`,
the entry returns, and at every call of `print_path` made during the evaluation the number of
recorded nodes is one more than the number of recorded directions, the first recorded node is
`center` and the last recorded node is the node the call examines: the two assertions of
`print_path` hold at every call. -/
theorem catalog_print_path_calls (g : Graph) (chk : LocalGraphInvariant) (center : Nat)
    (b : Bindings) :
    ∃ r st1 events,
      chk.check_traced g center { steps := [center], path := [], ss := "", binds := b }
        = some (r, st1, events) ∧
      chk.check g center { steps := [center], path := [], ss := "", binds := b }
        = some (r, st1) ∧
      ∀ c steps path, Event.print_path c steps path ∈ events →
        steps.length = path.length + 1 ∧ steps.head? = some center ∧
          steps.getLast? = some c := by
  obtain ⟨r, st1, hc, -⟩ := check_driver_result g chk center b
  obtain ⟨events, ht⟩ := traced_of_drop _ r st1
    ((catalog_traced_drop g chk center _).trans hc)
  refine ⟨r, st1, events, ht, hc, ?_⟩
  intro c steps path he
  exact catalog_traced_events g chk center _ r st1 events ht (by simp) _ he

/-- Claim C16. The result and the text of every catalog entry on a node do not depend on what
the capture slots hold when the entry is invoked: when the pattern of `PhiArity` has matched,
`region_node` is input 0 of the node, and when the pattern of `CountedLoopInvariants` has
matched, `counted_loop` is input 0 of the loop-back input. Hence a run of the checker that
starts with any slot values, such as those an earlier run has left, gives the same result and
writes the same text as the first run. -/
theorem checker_independent_of_slots (C : Compile) :
    (∀ (chk : LocalGraphInvariant) (center : Nat) (b1 b2 : Bindings),
      ∃ r s1 s2,
        chk.check C.nodes center { steps := [center], path := [], ss := "", binds := b1 }
          = some (r, s1) ∧
        chk.check C.nodes center { steps := [center], path := [], ss := "", binds := b2 }
          = some (r, s2) ∧
        s1.ss = s2.ss) ∧
      (∀ (center : Nat) (b : Bindings) (st1 : CheckState),
        PatternBasedCheck.check C.nodes PhiArity.pattern center
            { steps := [center], path := [], ss := "", binds := b }
          = some (CheckResult.VALID, st1) →
        ∃ region, (C.nodes.node center).in_ 0 = some region ∧
          st1.binds.region_node = some region) ∧
      (∀ (center : Nat) (b : Bindings) (st1 : CheckState),
        PatternBasedCheck.check C.nodes CountedLoopInvariants.pattern center
            { steps := [center], path := [], ss := "", binds := b }
          = some (CheckResult.VALID, st1) →
        ∃ proj loop_end, (C.nodes.node center).in_ 2 = some proj ∧
          (C.nodes.node proj).in_ 0 = some loop_end ∧
          st1.binds.counted_loop = some loop_end) ∧
      ∀ b : Bindings, ∃ st st2,
        GraphInvariantChecker.run_final GraphInvariantChecker.make_default C = some st ∧
        GraphInvariantChecker.run_loop GraphInvariantChecker.make_default C.nodes
          (GraphInvariantChecker.max_iterations C)
          { GraphInvariantChecker.run_init C with binds := b } = some st2 ∧
        st2.worklist = [] ∧ st2.success = st.success ∧ st2.tty = st.tty := by
  refine ⟨?_, ?_, ?_, ?_⟩
  · intro chk center b1 b2
    obtain ⟨r, s1, s2, h1, h2, h3, -⟩ := catalog_same_result C.nodes chk center b1 b2
    exact ⟨r, s1, s2, h1, h2, h3⟩
  · intro center b st1 hc
    obtain ⟨⟨-, region, hin, -⟩, hb⟩ := PatternBasedCheck_valid_slots C.nodes _ center _ _
      (PhiArity_pattern_holds C.nodes center)
      { steps := [center], path := [], ss := "", binds := b } st1 rfl rfl hc
    refine ⟨region, hin, ?_⟩
    rw [hb]
    simp [hin, bind_at, Bindings.set]
  · intro center b st1 hc
    obtain ⟨⟨-, proj, hproj, -, -, loop_end, hle, -⟩, hb⟩ :=
      PatternBasedCheck_valid_slots C.nodes _ center _ _
        (CountedLoopInvariants_pattern_holds C.nodes center)
        { steps := [center], path := [], ss := "", binds := b } st1 rfl rfl hc
    refine ⟨proj, loop_end, hproj, hle, ?_⟩
    rw [hb]
    simp [CountedLoopInvariants.bound, hproj, hle, bind_at, Bindings.set]
  · intro b
    obtain ⟨st, hfin, hl, hw, -⟩ := run_final_spec GraphInvariantChecker.make_default C
    obtain ⟨st2, st3, e1, e2, e3⟩ := run_loop_same_output GraphInvariantChecker.make_default
      C.nodes (GraphInvariantChecker.max_iterations C) (GraphInvariantChecker.run_init C)
      { GraphInvariantChecker.run_init C with binds := b } ⟨rfl, rfl, rfl, rfl, rfl⟩
    rw [hl] at e1
    cases e1
    obtain ⟨-, h2, h3, h4, -⟩ := e3
    exact ⟨st, st3, hfin, e2, by rw [← h2]; exact hw, h3.symm, h4.symm⟩

/-- Claim C17. The function `run` returns, and the text it has written to `tty` is, for the
visited nodes in the order of their visit (each reachable node once), nothing for a node
without a failing entry, and for a node with `n > 0` entries that return `FAILED` exactly one
report: the header line `n failure for node` (`n failures for node` when `n` is not 1) with `n`
in decimal, the dump of the node, and for each failing entry, in catalog order, its name and
its text. The number `n` and the texts are those the entries return for the node whatever the
capture slots hold. So when no reachable node makes an entry return `FAILED`, `run` writes
nothing. -/
theorem run_reports_failures (C : Compile) :
    ∃ st : RunState,
      GraphInvariantChecker.run_final GraphInvariantChecker.make_default C = some st ∧
      st.checked.Nodup ∧ (∀ v, v ∈ st.checked ↔ Reachable C v) ∧
      st.tty = String.join (st.checked.map (fun v =>
        if failed_checks C.nodes GraphInvariantChecker.make_default v = 0 then ""
        else
          toString (failed_checks C.nodes GraphInvariantChecker.make_default v) ++ " failure"
            ++ (if failed_checks C.nodes GraphInvariantChecker.make_default v = 1 then ""
                else "s")
            ++ " for node\n" ++ (C.nodes.node v).dump_text ++ "\n"
            ++ String.join (GraphInvariantChecker.make_default.map (fun chk =>
                if chk.result C.nodes v = some CheckResult.FAILED then
                  "# " ++ chk.name ++ ":" ++ "\n" ++ chk.text C.nodes v ++ "\n"
                else ""))
            ++ "\n")) ∧
      (∀ (v : Nat) (chk : LocalGraphInvariant) (b : Bindings), ∃ r st1,
        chk.check C.nodes v { steps := [v], path := [], ss := "", binds := b }
          = some (r, st1) ∧
        chk.result C.nodes v = some r ∧ chk.text C.nodes v = st1.ss) ∧
      (∀ (v : Nat) (b : Bindings),
        failed_checks C.nodes GraphInvariantChecker.make_default v
          = GraphInvariantChecker.make_default.countP (fun chk =>
              decide ((chk.check C.nodes v
                { steps := [v], path := [], ss := "", binds := b }).map Prod.fst
                  = some CheckResult.FAILED))) ∧
      ((∀ v, Reachable C v → ∀ chk ∈ GraphInvariantChecker.make_default,
          ∀ (b : Bindings) (r : CheckResult) (st1 : CheckState),
            chk.check C.nodes v { steps := [v], path := [], ss := "", binds := b }
              = some (r, st1) →
            r ≠ CheckResult.FAILED) →
        st.tty = "") := by
  obtain ⟨st, hfin, hw, hinv, htty⟩ :=
    run_final_tty_exact GraphInvariantChecker.make_default C
  have hclosed := traversal_inv_closed _ C st hinv hw
  obtain ⟨hnd, -, -, -, -, hchk, -⟩ := hinv
  unfold TtyExact at htty
  refine ⟨st, hfin, hchk ▸ hnd, fun v => by rw [hchk]; exact hclosed v, ?_,
    fun v chk b => check_driver_text _ chk v b,
    fun v b => failed_checks_eq_countP _ _ v b, ?_⟩
  · rw [htty]
    congr 1
    apply List.map_congr_left
    intro v _
    unfold report_at
    split
    · rfl
    · have hle := failed_checks_le C.nodes GraphInvariantChecker.make_default v
      have h7 : GraphInvariantChecker.make_default.length = 7 := rfl
      rw [report_eq _ _ _ _ (by omega)]
      rfl
  · intro hno
    rw [htty]
    apply join_empty
    intro s hs
    obtain ⟨v, hv, rfl⟩ := List.mem_map.mp hs
    have hr : Reachable C v := (hclosed v).mp (hchk ▸ hv)
    have hz := (failed_checks_eq_zero_iff C.nodes _ v).mpr (hno v hr)
    simp [report_at, hz]

/-- Claim C18. For every pattern, every center and every trace, when `Pattern::check` returns,
with `true` or with `false`, `steps` and `path` are what they were on entry. -/
theorem Pattern_check_restores_trace (g : Graph) (p : Pattern) (center : Nat)
    (st : CheckState) (b : Bool) (st1 : CheckState)
    (h : Pattern.check g p center st = some (b, st1)) :
    st1.steps = st.steps ∧ st1.path = st.path :=
  check_frame g p center st b st1 h

/-- The statement of claim C18 for the pattern of `PhiArity`, which moves to input 0 and
back. -/
theorem Pattern_check_restores_trace_witness :
    Pattern.check phi_3_region_4 PhiArity.pattern 0 ⟨[0], [], "", ⟨none, none⟩⟩
      = some (true, ⟨[0], [], "", ⟨some 1, none⟩⟩) ∧
      ((⟨[0], [], "", ⟨some 1, none⟩⟩ : CheckState).steps
          = (⟨[0], [], "", ⟨none, none⟩⟩ : CheckState).steps ∧
        (⟨[0], [], "", ⟨some 1, none⟩⟩ : CheckState).path
          = (⟨[0], [], "", ⟨none, none⟩⟩ : CheckState).path) :=
  ⟨rfl, Pattern_check_restores_trace phi_3_region_4 PhiArity.pattern 0
    ⟨[0], [], "", ⟨none, none⟩⟩ true ⟨[0], [], "", ⟨some 1, none⟩⟩ rfl⟩

/-- Claim C19. For the patterns of `PhiArity`, `CountedLoopInvariants` and
`OuterStripMinedLoopInvariants`, every graph and every center, the evaluation returns (no
assertion fails), and every `AtInput` entered during it is entered with an index below `req()`
of the node it examines. -/
theorem catalog_patterns_input_in_range (g : Graph) (center : Nat) (st : CheckState)
    (h1 : st.steps.length = st.path.length + 1) (h2 : st.steps.getLast? = some center) :
    ∀ p ∈ [PhiArity.pattern, CountedLoopInvariants.pattern,
        OuterStripMinedLoopInvariants.pattern],
      ∃ b st1 events, Pattern.check_traced g p center st = some (b, st1, events) ∧
        Pattern.check g p center st = some (b, st1) ∧
        ∀ which_input c, Event.at_input which_input c ∈ events →
          which_input < (g.node c).req := by
  intro p hp
  have key : ∃ b st1 events, Pattern.check_traced g p center st = some (b, st1, events) ∧
      Pattern.check g p center st = some (b, st1) ∧
      ∀ e ∈ events, e.ok g st.steps.head? := by
    simp only [List.mem_cons, List.mem_singleton, List.not_mem_nil, or_false] at hp
    rcases hp with rfl | rfl | rfl
    · exact pattern_total_of_holds g _ center _ _ (PhiArity_pattern_holds g center) st h1 h2
    · exact pattern_total_of_holds g _ center _ _
        (CountedLoopInvariants_pattern_holds g center) st h1 h2
    · exact pattern_total_of_holds g _ center _ _
        (OuterStripMinedLoopInvariants_pattern_holds g center) st h1 h2
  obtain ⟨b, st1, events, ht, hc, hev⟩ := key
  exact ⟨b, st1, events, ht, hc, fun k c he => hev _ he⟩

/-- The statement of claim C19 at the loop end of a well-formed outer strip-mined loop. -/
theorem catalog_patterns_input_in_range_witness :
    ([0] : List Nat).length = ([] : List Int).length + 1 ∧
      ([0] : List Nat).getLast? = some 0 ∧
      ∀ p ∈ [PhiArity.pattern, CountedLoopInvariants.pattern,
          OuterStripMinedLoopInvariants.pattern],
        ∃ b st1 events, Pattern.check_traced strip_mined_graph p 0
            { steps := [0], path := [], ss := "", binds := {} } = some (b, st1, events) ∧
          Pattern.check strip_mined_graph p 0
            { steps := [0], path := [], ss := "", binds := {} } = some (b, st1) ∧
          ∀ which_input c, Event.at_input which_input c ∈ events →
            which_input < (strip_mined_graph.node c).req :=
  ⟨rfl, rfl, catalog_patterns_input_in_range strip_mined_graph 0
    { steps := [0], path := [], ss := "", binds := {} } rfl rfl⟩

/-- Claim C20. `And::check` returns `true` exactly when its sub-patterns, evaluated in their
order on the same center, each from the state the one before has left, all return `true`. It
returns `false` exactly when some sub-pattern returns `false` after all before it have returned
`true`, and then the text and the capture slots are those the failing sub-pattern has left,
whatever the later sub-patterns are: they are not evaluated. -/
theorem And_check_in_order (g : Graph) (ps : List Pattern) (center : Nat) (st st1 : CheckState) :
    (Pattern.check g (.And ps) center st = some (true, st1) ↔ AllTrue g center ps st st1) ∧
      (Pattern.check g (.And ps) center st = some (false, st1) ↔
        ∃ pre p post st0, ps = pre ++ p :: post ∧ AllTrue g center pre st st0 ∧
          Pattern.check g p center st0 = some (false, st1)) := by
  simp only [Pattern.check]
  exact ⟨check_list_true_iff g center ps st st1, check_list_false_iff g center ps st st1⟩

/-- Claim C21. Each of the seven catalog entries, on every node, appends text to its buffer
exactly when it returns `FAILED`. The entry returns on every trace that satisfies the assertions
of `print_path`; and from every state whatsoever, when it returns `r` the buffer is the buffer on
entry followed by a text `t` that is non-empty exactly when `r` is `FAILED`, so that a `VALID`
or `NOT_APPLICABLE` result leaves the buffer as it was. In particular `RegionSelfLoop::check`
returns `VALID` only for a node whose input 0 is the node itself, with the state untouched: the
branch that writes the copy-node message is never reached. -/
theorem catalog_text_iff_failed (g : Graph) (chk : LocalGraphInvariant) (center : Nat)
    (st : CheckState) :
    (st.steps.length = st.path.length + 1 → st.steps.getLast? = some center →
      ∃ r st1, chk.check g center st = some (r, st1)) ∧
    (∀ r st1, chk.check g center st = some (r, st1) →
      ∃ t, st1.ss = st.ss ++ t ∧ (r = CheckResult.FAILED ↔ 0 < t.length) ∧
        (r ≠ CheckResult.FAILED → st1.ss = st.ss)) ∧
    (∀ st1, RegionSelfLoop.check g center st = some (CheckResult.VALID, st1) →
      st1 = st ∧ (g.node center).in_ LoopNode.Self = some center) := by
  refine ⟨fun h1 h2 => ?_, fun r st1 h => ?_, fun st1 h => ?_⟩
  · obtain ⟨r, hs⟩ := catalog_check_spec g chk center
    obtain ⟨st1, hc, -⟩ := hs st h1 h2
    exact ⟨r, st1, hc⟩
  · obtain ⟨t, ht, hpos, hnone⟩ := catalog_text g chk center st r st1 h
    refine ⟨t, ht, ⟨fun hr => hpos (by simp [hr]), fun hlen => ?_⟩, fun hr => ?_⟩
    · by_contra hr
      rw [hnone (by simp [hr])] at hlen
      exact absurd hlen (by decide)
    · rw [ht, hnone (by simp [hr])]
      simp
  · have hv := RegionSelfLoop_valid_self g center st st1 h
    exact ⟨hv.1, hv.2.2⟩

end GraphInvariants
